import Mathlib

/-!
Verification development for a user-space dynamic memory allocator with two
strategies: an explicit doubly-linked free list with boundary tags
(mm-explicit.c) and an implicit list with deferred whole-heap coalescing
(mm-implicit.c).

The heap is modelled as a byte-addressed memory of cells (Nat → Nat).  The C
code accesses memory either as 8-byte size_t words at 8-aligned addresses or
as raw bytes (memcpy / memset / client payload data); the two access styles
are never mixed on overlapping live data in the executions considered, so a
word access is modelled as a single cell access at the word's base address.
size_t arithmetic wraps modulo 2^64 where the source can overflow, and
pointer subtraction is modelled modulo 2^64 (psub); the failure sentinel
(void *) -1 of the arena-growth primitive is the address 2^64 - 1.
-/

set_option maxHeartbeats 1000000
set_option maxRecDepth 8192

namespace MM

/-- Word width of size_t: all size_t arithmetic is modulo this. -/
def W : Nat := 2 ^ 64

/-- The sentinel (void *) -1 returned by mem_sbrk on failure. -/
def FAILP : Nat := W - 1

/-- The mask ~(size_t)1 used to strip the allocation bit from a header. -/
def MASK : Nat := W - 2

/-- Pointer subtraction a - b on 64-bit addresses (wraps like C pointers). -/
def psub (a b : Nat) : Nat := (a + W - b) % W

theorem psub_eq_sub {a b : Nat} (hba : b ≤ a) (ha : a - b < W) : psub a b = a - b := by
  unfold psub W at *
  omega

/-- For an even word, setting the low bit is the same as adding one. -/
theorem even_lor_one {x : Nat} (h : x % 2 = 0) : x ||| 1 = x + 1 := by
  apply Nat.eq_of_testBit_eq
  intro i
  rw [Nat.testBit_lor]
  cases i with
  | zero =>
    rw [Nat.testBit_zero, Nat.testBit_zero, Nat.testBit_zero]
    simp only [h]
    have hx1 : (x + 1) % 2 = 1 := by omega
    simp [hx1]
  | succ j =>
    rw [Nat.testBit_succ, Nat.testBit_succ, Nat.testBit_succ]
    have h1 : (1 : Nat) / 2 = 0 := by norm_num
    have h2 : (x + 1) / 2 = x / 2 := by omega
    rw [h1, h2]
    simp [Nat.zero_testBit]

/-- Masking with ~1 clears exactly the low bit. -/
theorem land_mask_eq {x : Nat} (hx : x < W) : x &&& MASK = x - x % 2 := by
  apply Nat.eq_of_testBit_eq
  intro i
  rw [Nat.testBit_land]
  cases i with
  | zero =>
    rw [Nat.testBit_zero, Nat.testBit_zero, Nat.testBit_zero]
    have h0 : (x - x % 2) % 2 = 0 := by omega
    have hm2 : MASK % 2 = 0 := by norm_num [MASK, W]
    simp [h0, hm2]
  | succ j =>
    rw [Nat.testBit_succ, Nat.testBit_succ, Nat.testBit_succ]
    have h2 : (x - x % 2) / 2 = x / 2 := by omega
    have h3 : MASK / 2 = 2 ^ 63 - 1 := by norm_num [MASK, W]
    rw [h2, h3, Nat.testBit_two_pow_sub_one]
    by_cases hj : j < 63
    · simp [hj]
    · have hsmall : x / 2 < 2 ^ j := by
        have hx2 : x / 2 < 2 ^ 63 := by
          have : x < 2 ^ 64 := hx
          omega
        calc x / 2 < 2 ^ 63 := hx2
        _ ≤ 2 ^ j := Nat.pow_le_pow_right (by norm_num) (by omega)
      simp [hj, Nat.testBit_lt_two_pow hsmall]

theorem even_land_mask {x : Nat} (hx : x < W) (h : x % 2 = 0) : x &&& MASK = x := by
  rw [land_mask_eq hx]
  omega

theorem succ_land_mask {x : Nat} (hx : x + 1 < W) (h : x % 2 = 0) : (x + 1) &&& MASK = x := by
  rw [land_mask_eq (by omega)]
  omega

theorem land_one_mod (x : Nat) : x &&& 1 = x % 2 := Nat.and_one_is_mod x

/-- Rounds up size to the nearest multiple of n, in wrapping size_t arithmetic
(shared by both strategies). -/
def round_up (size n : Nat) : Nat := (size + (n - 1)) % W / n * n

/-- The required alignment of heap payloads: 2 * sizeof(size_t). -/
def ALIGNMENT : Nat := 16

end MM

namespace Explicit

open MM

/-- State of the explicit-strategy allocator: the flat memory, the arena break
and capacity of the growth primitive, and the two global free-list sentinel
pointers first and last (NULL = 0 before mm_init). -/
structure EHeap where
  mem : Nat → Nat
  brk : Nat
  cap : Nat
  first : Nat
  last : Nat

/-- Reads the word cell at address a. -/
def rd (h : EHeap) (a : Nat) : Nat := h.mem a

/-- Writes the word cell at address a. -/
def wr (h : EHeap) (a v : Nat) : EHeap :=
  { h with mem := fun x => if x = a then v else h.mem x }

@[simp] theorem rd_wr (h : EHeap) (a v b : Nat) :
    rd (wr h a v) b = if b = a then v else rd h b := rfl

@[simp] theorem wr_brk (h : EHeap) (a v : Nat) : (wr h a v).brk = h.brk := rfl
@[simp] theorem wr_cap (h : EHeap) (a v : Nat) : (wr h a v).cap = h.cap := rfl
@[simp] theorem wr_first (h : EHeap) (a v : Nat) : (wr h a v).first = h.first := rfl
@[simp] theorem wr_last (h : EHeap) (a v : Nat) : (wr h a v).last = h.last := rfl

/-- The arena growth primitive, modelled per the spec: grow(bytes) extends the
high-water mark by exactly bytes and returns a pointer to the start of the new
region, or returns the distinguished failure sentinel (void *) -1 leaving the
arena unchanged. -/
def mem_sbrk (h : EHeap) (n : Nat) : Nat × EHeap :=
  if h.brk + n ≤ h.cap then (h.brk, { h with brk := h.brk + n }) else (FAILP, h)

/-- Sets the block header with payload size and allocation bit, and the footer
stored at the start of the adjacent following struct. -/
def set_header_footer (h : EHeap) (block payload_size : Nat) (is_alloc : Bool) : EHeap :=
  let v := payload_size ||| (if is_alloc then 1 else 0)
  wr (wr h (block + 8) v) (block + ALIGNMENT + payload_size) v

/-- Extracts the payload size of a block from its header. -/
def get_size (h : EHeap) (block : Nat) : Nat := rd h (block + 8) &&& MASK

/-- Extracts the previous block's payload size from this block's footer field. -/
def get_previous_size (h : EHeap) (block : Nat) : Nat := rd h block &&& MASK

/-- Extracts the previous block's allocation state from this block's footer field. -/
def is_previous_allocated (h : EHeap) (block : Nat) : Bool :=
  (rd h block &&& 1) == 1

/-- Extracts the next block's (or epilogue's) allocation state; a zero-size
next header (the epilogue) counts as allocated. -/
def is_next_allocated (h : EHeap) (block : Nat) : Bool :=
  let hv := rd h (block + ALIGNMENT + get_size h block + 8)
  if hv &&& MASK ≠ 0 then (hv &&& 1) == 1 else true

/-- Address of the next block struct. -/
def get_next_block (h : EHeap) (block : Nat) : Nat :=
  block + ALIGNMENT + get_size h block

/-- Address of the previous block struct, via the boundary tag. -/
def get_previous_block (h : EHeap) (block : Nat) : Nat :=
  psub (psub block (get_previous_size h block)) ALIGNMENT

/-- Gets the block pointer from a payload pointer. -/
def block_from_payload (ptr : Nat) : Nat := psub ptr ALIGNMENT

/-- Gets the block pointer from a linked-node pointer. -/
def get_block_from_linked_node (ptr : Nat) : Nat := psub ptr ALIGNMENT

/-- Gets the linked-node pointer living in the payload of a free block. -/
def get_linked_node_from_block (block : Nat) : Nat := block + ALIGNMENT

/-- Unlinks the free-list node stored in the block's payload
((unlink->prev)->next = unlink->next; (unlink->next)->prev = unlink->prev). -/
def delete_linked_node_from_block (h : EHeap) (block : Nat) : EHeap :=
  let unlink := get_linked_node_from_block block
  let h1 := wr h (rd h unlink + 8) (rd h (unlink + 8))
  wr h1 (rd h1 (unlink + 8)) (rd h1 unlink)

/-- Links the block's node just before the last sentinel
(link->prev = last->prev; link->next = last; last->prev = link;
(link->prev)->next = link). -/
def add_linked_node_to_block (h : EHeap) (block : Nat) : EHeap :=
  let link := get_linked_node_from_block block
  let h1 := wr h link (rd h h.last)
  let h2 := wr h1 (link + 8) h1.last
  let h3 := wr h2 h2.last link
  wr h3 (rd h3 link + 8) link

/-- Splits a free block: leading part of payload size size is allocated, the
trailing remainder becomes a free block whose node replaces the original's. -/
def block_split (h : EHeap) (block block_size size : Nat) : EHeap :=
  let h1 := set_header_footer h block size true
  let next_block := get_next_block h1 block
  let h2 := set_header_footer h1 next_block (psub (psub block_size size) ALIGNMENT) false
  let h3 := delete_linked_node_from_block h2 block
  add_linked_node_to_block h3 next_block

/-- Eager boundary-tag coalescing of a just-freed block with its free
neighbors. -/
def coalesce (h : EHeap) (block size0 : Nat) : EHeap :=
  if ¬ is_previous_allocated h block then
    let size1 := size0 + get_previous_size h block + ALIGNMENT
    let h1 := set_header_footer h (get_previous_block h block) size1 false
    let h2 := delete_linked_node_from_block h1 block
    if ¬ is_next_allocated h2 block then
      let next_block := get_next_block h2 block
      let size2 := size1 + get_size h2 next_block + ALIGNMENT
      let h3 := set_header_footer h2 (get_previous_block h2 block) size2 false
      delete_linked_node_from_block h3 next_block
    else h2
  else if ¬ is_next_allocated h block then
    let next_block := get_next_block h block
    let h1 := set_header_footer h block (size0 + get_size h next_block + ALIGNMENT) false
    delete_linked_node_from_block h1 next_block
  else h

/-- mm_init: sbrk the two sentinel free-list nodes, link them, and lay down
the zero-size allocated prologue and epilogue words. -/
def mm_init (h0 : EHeap) : EHeap × Bool :=
  let p1 := mem_sbrk h0 ALIGNMENT
  let p2 := mem_sbrk p1.2 ALIGNMENT
  let h2 := { p2.2 with first := p1.1, last := p2.1 }
  if p1.1 = FAILP ∨ p2.1 = FAILP then (h2, false)
  else
    let h3 := wr h2 h2.first 0
    let h4 := wr h3 (h3.first + 8) h3.last
    let h5 := wr h4 h4.last h4.first
    let h6 := wr h5 (h5.last + 8) 0
    let p3 := mem_sbrk h6 8
    let p4 := mem_sbrk p3.2 8
    if p3.1 = FAILP ∨ p4.1 = FAILP then (p4.2, false)
    else (wr (wr p4.2 p3.1 1) p4.1 1, true)

/-- One step of the find_fit scan: from free_node toward the first sentinel
following the prev links.  fuel is a termination bound only (the C loop has
no bound; a well-formed list reaches first before any reasonable fuel). -/
def find_fit_go (h : EHeap) (size : Nat) : Nat → Nat → Option Nat × EHeap
  | _, 0 => (none, h)
  | free_node, fuel + 1 =>
    if free_node = h.first then (none, h)
    else
      let free_block := get_block_from_linked_node free_node
      let block_size := get_size h free_block
      if block_size ≥ size then
        let h1 := set_header_footer h free_block (get_size h free_block) true
        if block_size < size + 2 * ALIGNMENT then
          (some free_block, delete_linked_node_from_block h1 free_block)
        else
          (some free_block, block_split h1 free_block block_size size)
      else
        find_fit_go h size (rd h free_node) fuel

/-- find_fit: scan the free list from last->prev backwards for the first block
with size at least the request; NULL (none) if no block is large enough. -/
def find_fit (h : EHeap) (size : Nat) : Option Nat × EHeap :=
  find_fit_go h size (rd h h.last) h.cap

/-- mm_malloc: round the request up, reuse a fitting free block, otherwise
sbrk payload + footer + fresh epilogue at the end of the heap (the previous
epilogue word becomes the new block's header). -/
def mm_malloc (h : EHeap) (size0 : Nat) : Nat × EHeap :=
  let size := round_up size0 ALIGNMENT
  match find_fit h size with
  | (some block, h') => (block + ALIGNMENT, h')
  | (none, h') =>
    let p1 := mem_sbrk h' size
    let block_address := psub p1.1 ALIGNMENT
    let p2 := mem_sbrk p1.2 8
    if p2.1 = FAILP then (0, p2.2)
    else
      let block := block_address
      if block = FAILP then (0, p2.2)
      else
        let p3 := mem_sbrk p2.2 8
        let h4 := wr p3.2 p3.1 1
        let h5 := set_header_footer h4 block size true
        (block + ALIGNMENT, h5)

/-- mm_free: mark the block free, link it before the last sentinel, and
coalesce if either neighbor is free. -/
def mm_free (h : EHeap) (ptr : Nat) : EHeap :=
  if ptr = 0 then h
  else
    let block := block_from_payload ptr
    let h1 := set_header_footer h block (get_size h block) false
    let h2 := add_linked_node_to_block h1 block
    if ¬ is_previous_allocated h2 block ∨ ¬ is_next_allocated h2 block then
      coalesce h2 block (get_size h2 block)
    else h2

/-- Byte-wise forward copy, modelling memcpy (the source regions involved
never overlap the destination). -/
def memcpy (h : EHeap) : Nat → Nat → Nat → EHeap
  | _, _, 0 => h
  | dst, src, n + 1 => memcpy (wr h dst (rd h src)) (dst + 1) (src + 1) n

/-- Byte-wise fill, modelling memset. -/
def memset (h : EHeap) : Nat → Nat → Nat → EHeap
  | _, _, 0 => h
  | dst, v, n + 1 => memset (wr h dst v) (dst + 1) v n

/-- mm_realloc: NULL behaves as malloc, size 0 behaves as free; otherwise
malloc a new block, copy the smaller of the two block sizes, free the old
block.  Note the code never checks the result of the inner mm_malloc. -/
def mm_realloc (h : EHeap) (old_ptr size : Nat) : Nat × EHeap :=
  if old_ptr = 0 then mm_malloc h size
  else if size = 0 then (0, mm_free h old_ptr)
  else
    let p := mm_malloc h size
    let new_ptr := p.1
    let h1 := p.2
    let old_size := get_size h1 (block_from_payload old_ptr)
    let new_size := get_size h1 (block_from_payload new_ptr)
    let smaller_size := if old_size > new_size then new_size else old_size
    let h2 := memcpy h1 new_ptr old_ptr smaller_size
    let h3 := mm_free h2 old_ptr
    (new_ptr, h3)

/-- mm_calloc: malloc nmemb * size bytes (wrapping size_t multiplication) and
memset the region to zero through the returned pointer, unchecked. -/
def mm_calloc (h : EHeap) (nmemb size : Nat) : Nat × EHeap :=
  let n := nmemb * size % W
  let p := mm_malloc h n
  let h1 := memset p.2 p.1 0 n
  (p.1, h1)

/-- A fresh machine state, before mm_init: memory reads as given by m, the
arena starts at base with capacity cap, and the globals are NULL. -/
def init_state (m : Nat → Nat) (base cap : Nat) : EHeap := ⟨m, base, cap, 0, 0⟩

end Explicit

namespace Implicit

open MM

/-- State of the implicit-strategy allocator: flat memory, arena break and
capacity, and the mm_heap_first / mm_heap_last block pointers (NULL = 0). -/
structure IHeap where
  mem : Nat → Nat
  brk : Nat
  cap : Nat
  heap_first : Nat
  heap_last : Nat

/-- Reads the word cell at address a. -/
def rd (h : IHeap) (a : Nat) : Nat := h.mem a

/-- Writes the word cell at address a. -/
def wr (h : IHeap) (a v : Nat) : IHeap :=
  { h with mem := fun x => if x = a then v else h.mem x }

@[simp] theorem ird_wr (h : IHeap) (a v b : Nat) :
    rd (wr h a v) b = if b = a then v else rd h b := rfl

@[simp] theorem iwr_brk (h : IHeap) (a v : Nat) : (wr h a v).brk = h.brk := rfl
@[simp] theorem iwr_cap (h : IHeap) (a v : Nat) : (wr h a v).cap = h.cap := rfl
@[simp] theorem wr_heap_first (h : IHeap) (a v : Nat) :
    (wr h a v).heap_first = h.heap_first := rfl
@[simp] theorem wr_heap_last (h : IHeap) (a v : Nat) :
    (wr h a v).heap_last = h.heap_last := rfl

/-- The arena growth primitive, modelled per the spec (see Explicit.mem_sbrk). -/
def mem_sbrk (h : IHeap) (n : Nat) : Nat × IHeap :=
  if h.brk + n ≤ h.cap then (h.brk, { h with brk := h.brk + n }) else (FAILP, h)

/-- Sets a block's header with the given size and allocation state. -/
def set_header (h : IHeap) (block size : Nat) (is_alloc : Bool) : IHeap :=
  wr h block (size ||| (if is_alloc then 1 else 0))

/-- Extracts a block's size from its header. -/
def get_size (h : IHeap) (block : Nat) : Nat := rd h block &&& MASK

/-- Extracts a block's allocation state from its header. -/
def is_allocated (h : IHeap) (block : Nat) : Bool := (rd h block &&& 1) == 1

/-- Gets the block pointer from a payload pointer (offsetof(block_t, payload) = 8). -/
def block_from_payload (ptr : Nat) : Nat := psub ptr 8

/-- One step of the implicit first-fit scan in address order, stride-jumping
by each block's own size.  fuel is a termination bound only. -/
def find_fit_go (h : IHeap) (size : Nat) : Nat → Nat → Option Nat × IHeap
  | _, 0 => (none, h)
  | curr, fuel + 1 =>
    if h.heap_last ≠ 0 ∧ curr ≤ h.heap_last then
      let block_size := get_size h curr
      if (¬ is_allocated h curr) ∧ block_size ≥ size then
        let h1 := set_header h curr size true
        let h2 :=
          if block_size - size ≥ 16 then
            let h2a := set_header h1 (curr + size) (block_size - size) false
            if curr = h.heap_last then { h2a with heap_last := curr + size } else h2a
          else h1
        (some curr, h2)
      else
        find_fit_go h size (curr + get_size h curr) fuel
    else (none, h)

/-- find_fit: first free block of at least the given size, in address order
from mm_heap_first; NULL (none) if no block is large enough. -/
def find_fit (h : IHeap) (size : Nat) : Option Nat × IHeap :=
  find_fit_go h size h.heap_first h.cap

/-- mm_init: sbrk the padding that aligns the first payload, and reset the
heap tracking pointers. -/
def mm_init (h0 : IHeap) : IHeap × Bool :=
  let p := mem_sbrk h0 (ALIGNMENT - 8)
  if p.1 = FAILP then (p.2, false)
  else ({ p.2 with heap_first := 0, heap_last := 0 }, true)

/-- Inner loop of the deferred coalescing sweep: starting from the block after
a free block, accumulate the sizes of the run of free blocks (with the
special-cased stop at mm_heap_last), returning the total.  Reads only. -/
def coalesce_run (h : IHeap) : Nat → Nat → Nat → Nat
  | _, total, 0 => total
  | next_block, total, fuel + 1 =>
    if next_block ≤ h.heap_last ∧ ¬ is_allocated h next_block then
      let total1 := total + get_size h next_block
      let nb1 := next_block + get_size h next_block
      if nb1 = h.heap_last then
        if ¬ is_allocated h nb1 then total1 + get_size h nb1 else total1
      else coalesce_run h nb1 total1 fuel
    else total

/-- Outer loop of the deferred coalescing sweep: walk the whole heap; for each
free block, rewrite its header with the total size of its free run. -/
def coalesce_go (h : IHeap) : Nat → Nat → IHeap
  | _, 0 => h
  | curr, fuel + 1 =>
    if h.heap_last ≠ 0 ∧ curr < h.heap_last then
      let h1 :=
        if ¬ is_allocated h curr then
          set_header h curr
            (coalesce_run h (curr + get_size h curr) (get_size h curr) h.cap) false
        else h
      coalesce_go h1 (curr + get_size h1 curr) fuel
    else h

/-- Delayed coalescing: loops from mm_heap_first, merging each run of adjacent
free blocks into the run's first header. -/
def coalesce (h : IHeap) : IHeap := coalesce_go h h.heap_first h.cap

/-- mm_malloc: coalesce first, round header + request up to the alignment
unit, reuse a fitting free block, otherwise sbrk a new block at the end. -/
def mm_malloc (h0 : IHeap) (size0 : Nat) : Nat × IHeap :=
  let h := coalesce h0
  let size := round_up (8 + size0) ALIGNMENT
  match find_fit h size with
  | (some block, h1) => (block + 8, h1)
  | (none, h1) =>
    let p := mem_sbrk h1 size
    if p.1 = FAILP then (0, p.2)
    else
      let h2 := if p.2.heap_first = 0 then { p.2 with heap_first := p.1 } else p.2
      let h3 := { h2 with heap_last := p.1 }
      (p.1 + 8, set_header h3 p.1 size true)

/-- mm_free: mark the block as unallocated (no other bookkeeping). -/
def mm_free (h : IHeap) (ptr : Nat) : IHeap :=
  if ptr = 0 then h
  else
    let block := block_from_payload ptr
    set_header h block (get_size h block) false

/-- Byte-wise forward copy, modelling memcpy. -/
def memcpy (h : IHeap) : Nat → Nat → Nat → IHeap
  | _, _, 0 => h
  | dst, src, n + 1 => memcpy (wr h dst (rd h src)) (dst + 1) (src + 1) n

/-- Byte-wise fill, modelling memset. -/
def memset (h : IHeap) : Nat → Nat → Nat → IHeap
  | _, _, 0 => h
  | dst, v, n + 1 => memset (wr h dst v) (dst + 1) v n

/-- mm_realloc: NULL behaves as malloc, size 0 behaves as free; otherwise
malloc a new block, copy min(old block size, requested size) bytes, free the
old block.  The inner mm_malloc result is never checked. -/
def mm_realloc (h : IHeap) (old_ptr size : Nat) : Nat × IHeap :=
  if old_ptr = 0 then mm_malloc h size
  else if size = 0 then (0, mm_free h old_ptr)
  else
    let p := mm_malloc h size
    let new_ptr := p.1
    let h1 := p.2
    let old_size := get_size h1 (block_from_payload old_ptr)
    let smaller_size := if old_size > size then size else old_size
    let h2 := memcpy h1 new_ptr old_ptr smaller_size
    let h3 := mm_free h2 old_ptr
    (new_ptr, h3)

/-- mm_calloc: malloc nmemb * size bytes (wrapping size_t multiplication) and
memset the region to zero through the returned pointer, unchecked. -/
def mm_calloc (h : IHeap) (nmemb size : Nat) : Nat × IHeap :=
  let n := nmemb * size % W
  let p := mm_malloc h n
  let h1 := memset p.2 p.1 0 n
  (p.1, h1)

/-- A fresh machine state, before mm_init. -/
def init_state (m : Nat → Nat) (base cap : Nat) : IHeap := ⟨m, base, cap, 0, 0⟩

end Implicit

open MM

/-! Concrete executions used to settle the error-handling claims. -/

/-- Explicit heap right after mm_init, arena capacity exactly init + one
16-byte block (base 4096, cap 4176). -/
def c1_h0 : Explicit.EHeap := (Explicit.mm_init (Explicit.init_state (fun _ => 0) 4096 4176)).1

def c1_p : Nat × Explicit.EHeap := Explicit.mm_malloc c1_h0 16

/-- The client stores the byte 77 in its allocated payload. -/
def c1_h : Explicit.EHeap := Explicit.wr c1_p.2 c1_p.1 77

def c1_r : Nat × Explicit.EHeap := Explicit.mm_realloc c1_h c1_p.1 500

/-- C1: with the arena exhausted, reallocate(p, 500) fails internally, returns
the NULL failure sentinel, and nevertheless destroys the original block: the
block at p is marked free and its payload is overwritten by a free-list link,
contradicting the requirement that on allocation failure the original block
remain allocated with contents unchanged. -/
theorem realloc_failure_destroys_original_block :
    c1_p.1 = 4144 ∧
    Explicit.rd c1_h (4128 + 8) = 17 ∧
    Explicit.rd c1_h 4144 = 77 ∧
    c1_r.1 = 0 ∧
    Explicit.rd c1_r.2 (4128 + 8) = 16 ∧
    Explicit.rd c1_r.2 4144 = 4096 := by
  decide

/-- Explicit heap right after mm_init with no spare arena capacity, where the
cell at address 0 (the NULL target) initially holds 42. -/
def c2_h : Explicit.EHeap :=
  (Explicit.mm_init (Explicit.init_state (fun a => if a = 0 then 42 else 0) 4096 4144)).1

def c2_r : Nat × Explicit.EHeap := Explicit.mm_calloc c2_h 1 16

/-- C2: when the inner allocation fails, zero_allocate(1, 16) returns the
failure sentinel but first zero-fills 16 bytes through it: the memory at
address 0 (NULL) is overwritten, contradicting the requirement that the
failure result must not be dereferenced. -/
theorem calloc_failure_zero_fills_through_sentinel :
    c2_r.1 = 0 ∧
    Explicit.rd c2_h 0 = 42 ∧
    Explicit.rd c2_r.2 0 = 0 := by
  decide

/-- Explicit heap after mm_init and one successful malloc(16), with exactly 8
bytes of arena capacity left (base 4096, cap 4184), and the client byte 99
stored in the allocated payload. -/
def c7_p : Nat × Explicit.EHeap :=
  Explicit.mm_malloc (Explicit.mm_init (Explicit.init_state (fun _ => 0) 4096 4184)).1 16

def c7_h : Explicit.EHeap := Explicit.wr c7_p.2 c7_p.1 99

def c7_r : Nat × Explicit.EHeap := Explicit.mm_malloc c7_h 16

/-- C7: with 8 spare arena bytes, growing for a 16-byte request fails, but
mm_malloc returns the non-null wild address (void *)-1 = 2^64 - 1 instead of
the NULL failure sentinel (the first sbrk fails, the 8-byte footer sbrk
succeeds, and the check tests block == (void *)-1 only after 16 was already
subtracted); previously allocated payloads do remain intact. -/
theorem malloc_exhaustion_returns_wild_pointer :
    c7_p.1 = 4144 ∧
    c7_h.cap < c7_h.brk + 16 ∧
    c7_r.1 = MM.FAILP ∧
    c7_r.1 ≠ 0 ∧
    Explicit.rd c7_r.2 4144 = 99 := by
  decide

/-- Explicit heap right after mm_init with ample capacity. -/
def c10_e0 : Explicit.EHeap := (Explicit.mm_init (Explicit.init_state (fun _ => 0) 4096 8192)).1

def c10_e1 : Nat × Explicit.EHeap := Explicit.mm_malloc c10_e0 0

def c10_e2 : Nat × Explicit.EHeap := Explicit.mm_malloc c10_e0 16

def c10_e3 : Nat × Explicit.EHeap :=
  Explicit.mm_malloc (Explicit.mm_free c10_e2.2 c10_e2.1) 0

/-- Implicit heap right after mm_init with ample capacity. -/
def c10_i0 : Implicit.IHeap := (Implicit.mm_init (Implicit.init_state (fun _ => 0) 4096 8192)).1

def c10_i1 : Nat × Implicit.IHeap := Implicit.mm_malloc c10_i0 0

/-- C10: allocate(0) is not an error in either strategy: on a fresh explicit
heap it appends a zero-size allocated block and returns its non-null, 16-byte
aligned payload; when a free block exists the explicit strategy consumes it
(same payload address as the freed block); the implicit strategy rounds the
request up to a minimum-size block of 16 bytes and returns its non-null,
aligned payload. -/
theorem malloc_zero_not_an_error :
    c10_e1.1 = 4144 ∧ c10_e1.1 ≠ 0 ∧ c10_e1.1 ≠ MM.FAILP ∧ c10_e1.1 % 16 = 0 ∧
    Explicit.get_size c10_e1.2 (MM.psub c10_e1.1 MM.ALIGNMENT) = 0 ∧
    c10_e3.1 = c10_e2.1 ∧
    c10_i1.1 = 4112 ∧ c10_i1.1 ≠ 0 ∧ c10_i1.1 % 16 = 0 ∧
    Implicit.get_size c10_i1.2 (MM.psub c10_i1.1 8) = 16 := by
  decide

namespace Explicit

/-- The address-order block sequence of an explicit heap, read off the block
encoding: each block strides to the next via get_next_block; a zero masked
size (the epilogue header) ends the sequence.  Entries are
(block address, payload size, allocated bit). -/
def eparse (h : EHeap) : Nat → Nat → List (Nat × Nat × Bool)
  | _, 0 => []
  | addr, fuel + 1 =>
    if get_size h addr = 0 then []
    else
      (addr, get_size h addr, (rd h (addr + 8) &&& 1) == 1) ::
        eparse h (get_next_block h addr) fuel

theorem eparse_lower_bound (h : EHeap) :
    ∀ fuel addr e, e ∈ eparse h addr fuel → addr ≤ e.1 := by
  intro fuel
  induction fuel with
  | zero => intro addr e he; simp [eparse] at he
  | succ n ih =>
    intro addr e he
    rw [eparse] at he
    by_cases h0 : get_size h addr = 0
    · simp [h0] at he
    · rw [if_neg h0] at he
      rcases List.mem_cons.mp he with h1 | h1
      · subst h1; exact Nat.le_refl _
      · have := ih (get_next_block h addr) e h1
        unfold get_next_block at this
        omega

theorem eparse_separated (h : EHeap) :
    ∀ fuel addr, (eparse h addr fuel).Pairwise (fun b c => b.1 + 16 + b.2.1 ≤ c.1) := by
  intro fuel
  induction fuel with
  | zero => intro addr; simp [eparse]
  | succ n ih =>
    intro addr
    rw [eparse]
    by_cases h0 : get_size h addr = 0
    · simp [h0]
    · rw [if_neg h0]
      refine List.Pairwise.cons ?_ (ih _)
      intro e he
      have := eparse_lower_bound h n (get_next_block h addr) e he
      unfold get_next_block ALIGNMENT at this
      simp only
      omega

end Explicit

namespace Implicit

/-- The address-order block sequence of an implicit heap, read off the block
encoding: the scan from a given block address stride-jumps by each block's own
size, bounded by mm_heap_last exactly as the source's traversals are.
Entries are (block address, block size, allocated bit). -/
def iparse (h : IHeap) : Nat → Nat → List (Nat × Nat × Bool)
  | _, 0 => []
  | curr, fuel + 1 =>
    if h.heap_last ≠ 0 ∧ curr ≤ h.heap_last then
      (curr, get_size h curr, is_allocated h curr) :: iparse h (curr + get_size h curr) fuel
    else []

theorem iparse_lower_bound (h : IHeap) :
    ∀ fuel curr e, e ∈ iparse h curr fuel → curr ≤ e.1 := by
  intro fuel
  induction fuel with
  | zero => intro curr e he; simp [iparse] at he
  | succ n ih =>
    intro curr e he
    rw [iparse] at he
    by_cases h0 : h.heap_last ≠ 0 ∧ curr ≤ h.heap_last
    · rw [if_pos h0] at he
      rcases List.mem_cons.mp he with h1 | h1
      · subst h1; exact Nat.le_refl _
      · have := ih (curr + get_size h curr) e h1
        omega
    · simp [if_neg h0] at he
    
theorem iparse_separated (h : IHeap) :
    ∀ fuel curr, (iparse h curr fuel).Pairwise (fun b c => b.1 + b.2.1 ≤ c.1) := by
  intro fuel
  induction fuel with
  | zero => intro curr; simp [iparse]
  | succ n ih =>
    intro curr
    rw [iparse]
    by_cases h0 : h.heap_last ≠ 0 ∧ curr ≤ h.heap_last
    · rw [if_pos h0]
      refine List.Pairwise.cons ?_ (ih _)
      intro e he
      have := iparse_lower_bound h n (curr + get_size h curr) e he
      simp only
      omega
    · rw [if_neg h0]
      exact List.Pairwise.nil

end Implicit

/-- Disjointness of the payload byte regions of two explicit blocks
(payload occupies [addr + 16, addr + 16 + size)). -/
def epayload_disjoint (b c : Nat × Nat × Bool) : Prop :=
  ∀ k : Nat, b.1 + 16 ≤ k ∧ k < b.1 + 16 + b.2.1 → ¬ (c.1 + 16 ≤ k ∧ k < c.1 + 16 + c.2.1)

/-- Disjointness of the payload byte regions of two implicit blocks
(payload occupies [addr + 8, addr + size)). -/
def ipayload_disjoint (b c : Nat × Nat × Bool) : Prop :=
  ∀ k : Nat, b.1 + 8 ≤ k ∧ k < b.1 + b.2.1 → ¬ (c.1 + 8 ≤ k ∧ k < c.1 + c.2.1)

/-- The scan order of the explicit free list: starting from a node (find_fit
starts at last->prev) and following the prev links until the first sentinel,
exactly as the loop in find_fit steps. -/
def free_chain (h : Explicit.EHeap) : Nat → Nat → List Nat
  | _, 0 => []
  | node, fuel + 1 =>
    if node = h.first then [] else node :: free_chain h (Explicit.rd h node) fuel

/-- Modelled from the spec: the first-fit policy — return the first candidate
in the given scan order whose block size is at least the request, or the
not-found signal. -/
def spec_first_fit (h : Explicit.EHeap) (size : Nat) (nodes : List Nat) : Option Nat :=
  (nodes.find? fun nd =>
    decide (size ≤ Explicit.get_size h (Explicit.get_block_from_linked_node nd))).map
    Explicit.get_block_from_linked_node

theorem find_fit_go_eq_spec (h : Explicit.EHeap) (size : Nat) :
    ∀ fuel node,
      (Explicit.find_fit_go h size node fuel).1 =
        spec_first_fit h size (free_chain h node fuel) := by
  intro fuel
  induction fuel with
  | zero => intro node; simp [Explicit.find_fit_go, free_chain, spec_first_fit]
  | succ n ih =>
    intro node
    rw [Explicit.find_fit_go, free_chain]
    by_cases h1 : node = h.first
    · simp [h1, spec_first_fit]
    · rw [if_neg h1, if_neg h1]
      simp only [spec_first_fit, List.find?]
      by_cases h2 : size ≤ Explicit.get_size h (Explicit.get_block_from_linked_node node)
      · have hp : decide (size ≤ Explicit.get_size h (Explicit.get_block_from_linked_node node))
            = true := decide_eq_true h2
        rw [hp, if_pos h2]
        by_cases h3 :
            Explicit.get_size h (Explicit.get_block_from_linked_node node) <
              size + 2 * MM.ALIGNMENT
        · rw [if_pos h3]
          rfl
        · rw [if_neg h3]
          rfl
      · have hp : decide (size ≤ Explicit.get_size h (Explicit.get_block_from_linked_node node))
            = false := decide_eq_false h2
        rw [hp, if_neg h2, ih]
        rfl

/-- C9: the explicit fit finder is first-fit over the free list in LIFO
order: find_fit scans the chain that starts at the node adjacent to the last
sentinel (last->prev) and follows the prev links toward the first sentinel,
returning the first block whose size is at least the request and the
not-found signal (none) when no free block is large enough; and a newly freed
block's node is always inserted adjacent to the last sentinel (last->prev
becomes the new node, whose next field holds the sentinel and whose prev
field holds the old tail-adjacent node, which then points forward to it). -/
theorem find_fit_first_fit_lifo :
    (∀ (h : Explicit.EHeap) (size : Nat),
      (Explicit.find_fit h size).1 =
        spec_first_fit h size (free_chain h (Explicit.rd h h.last) h.cap)) ∧
    (∀ (h : Explicit.EHeap) (block : Nat),
      Explicit.rd h h.last + 8 ≠ h.last →
      Explicit.rd h h.last + 8 ≠ block + 16 →
      Explicit.rd h h.last + 8 ≠ block + 24 →
      block + 16 ≠ h.last →
      block + 24 ≠ h.last →
      (Explicit.rd (Explicit.add_linked_node_to_block h block) h.last = block + 16 ∧
       Explicit.rd (Explicit.add_linked_node_to_block h block) (block + 24) = h.last ∧
       Explicit.rd (Explicit.add_linked_node_to_block h block) (block + 16) =
         Explicit.rd h h.last ∧
       Explicit.rd (Explicit.add_linked_node_to_block h block) (Explicit.rd h h.last + 8) =
         block + 16)) := by
  constructor
  · intro h size
    exact find_fit_go_eq_spec h size h.cap (Explicit.rd h h.last)
  · intro h block hn3 hn4 hn5 hn1 hn2
    have ha : block + 16 ≠ block + 24 := by omega
    simp only [Explicit.add_linked_node_to_block, Explicit.get_linked_node_from_block,
      MM.ALIGNMENT, Explicit.rd_wr, Explicit.wr_last]
    norm_num
    simp [hn1, hn2, hn3, hn4, hn5, ha, Ne.symm hn1, Ne.symm hn2, Ne.symm hn3, Ne.symm hn4,
      Ne.symm hn5, Ne.symm ha]

/-- Closed instance of the LIFO-insertion half of C9 on the freshly
initialized explicit heap: inserting the node of the block at 4128 links it
adjacent to the last sentinel at 4112. -/
theorem find_fit_first_fit_lifo_witness :
    (Explicit.rd c10_e0 c10_e0.last + 8 ≠ c10_e0.last ∧
     Explicit.rd c10_e0 c10_e0.last + 8 ≠ 4128 + 16 ∧
     Explicit.rd c10_e0 c10_e0.last + 8 ≠ 4128 + 24 ∧
     4128 + 16 ≠ c10_e0.last ∧
     4128 + 24 ≠ c10_e0.last) ∧
    (Explicit.rd (Explicit.add_linked_node_to_block c10_e0 4128) c10_e0.last = 4128 + 16 ∧
     Explicit.rd (Explicit.add_linked_node_to_block c10_e0 4128) (4128 + 24) = c10_e0.last ∧
     Explicit.rd (Explicit.add_linked_node_to_block c10_e0 4128) (4128 + 16) =
       Explicit.rd c10_e0 c10_e0.last ∧
     Explicit.rd (Explicit.add_linked_node_to_block c10_e0 4128)
       (Explicit.rd c10_e0 c10_e0.last + 8) = 4128 + 16) :=
  ⟨⟨by decide, by decide, by decide, by decide, by decide⟩,
    find_fit_first_fit_lifo.2 c10_e0 4128 (by decide) (by decide) (by decide) (by decide)
      (by decide)⟩

theorem round_up_16_mod (n : Nat) : MM.round_up n 16 % 16 = 0 := by
  unfold MM.round_up
  omega

theorem psub_16_mod {node : Nat} (h : node % 16 = 0) : MM.psub node 16 % 16 = 0 := by
  unfold MM.psub MM.W
  omega

namespace Explicit

/-- The free-list chain from a node terminates at the first sentinel within
the given fuel and every node on it is 16-aligned. -/
def nodes_aligned (h : EHeap) : Nat → Nat → Bool
  | 0, node => node == h.first
  | fuel + 1, node =>
    node == h.first || ((node % 16 == 0) && nodes_aligned h fuel (rd h node))

theorem find_fit_go_aligned (h : EHeap) (size : Nat) :
    ∀ fuel node, nodes_aligned h fuel node = true →
      ∀ fb, (find_fit_go h size node fuel).1 = some fb → fb % 16 = 0 := by
  intro fuel
  induction fuel with
  | zero =>
    intro node _ fb hfb
    simp [find_fit_go] at hfb
  | succ n ih =>
    intro node hal fb hfb
    rw [find_fit_go] at hfb
    by_cases h1 : node = h.first
    · simp [h1] at hfb
    · rw [if_neg h1] at hfb
      rw [nodes_aligned] at hal
      have h1' : (node == h.first) = false := beq_eq_false_iff_ne.mpr h1
      rw [h1', Bool.false_or, Bool.and_eq_true] at hal
      obtain ⟨hmod, hrec⟩ := hal
      by_cases h2 : get_size h (get_block_from_linked_node node) ≥ size
      · rw [if_pos h2] at hfb
        have hfb' : fb = get_block_from_linked_node node := by
          by_cases h3 : get_size h (get_block_from_linked_node node) < size + 2 * MM.ALIGNMENT
          · rw [if_pos h3] at hfb; exact (Option.some.inj hfb).symm
          · rw [if_neg h3] at hfb; exact (Option.some.inj hfb).symm
        rw [hfb']
        exact psub_16_mod (beq_iff_eq.mp hmod)
      · rw [if_neg h2] at hfb
        exact ih (rd h node) hrec fb hfb

theorem find_fit_go_none_frame (h : EHeap) (size : Nat) :
    ∀ fuel node, (find_fit_go h size node fuel).1 = none →
      (find_fit_go h size node fuel).2 = h := by
  intro fuel
  induction fuel with
  | zero => intro node _; rfl
  | succ n ih =>
    intro node hn
    rw [find_fit_go] at hn ⊢
    by_cases h1 : node = h.first
    · rw [if_pos h1]
    · rw [if_neg h1] at hn ⊢
      by_cases h2 : get_size h (get_block_from_linked_node node) ≥ size
      · rw [if_pos h2] at hn
        by_cases h3 : get_size h (get_block_from_linked_node node) < size + 2 * MM.ALIGNMENT
        · rw [if_pos h3] at hn; simp at hn
        · rw [if_neg h3] at hn; simp at hn
      · rw [if_neg h2] at hn ⊢
        exact ih (rd h node) hn

theorem mm_malloc_aligned (h : EHeap) (n : Nat)
    (H1 : nodes_aligned h h.cap (rd h h.last) = true)
    (H2 : h.brk % 16 = 0)
    (H3 : 16 ≤ h.brk)
    (H4 : h.brk + MM.round_up n 16 + 16 ≤ h.cap)
    (H5 : h.cap < MM.W) :
    (mm_malloc h n).1 % 16 = 0 ∧ (mm_malloc h n).1 ≠ 0 := by
  have hs16 : MM.round_up n 16 % 16 = 0 := round_up_16_mod n
  have hF : MM.FAILP = 2 ^ 64 - 1 := rfl
  have hWv : MM.W = 2 ^ 64 := rfl
  rcases hff : find_fit h (MM.round_up n 16) with ⟨ob, h2⟩
  cases ob with
  | some fb =>
    have hfb : fb % 16 = 0 := by
      apply find_fit_go_aligned h (MM.round_up n 16) h.cap (rd h h.last) H1 fb
      rw [show find_fit_go h (MM.round_up n 16) (rd h h.last) h.cap
          = find_fit h (MM.round_up n 16) from rfl, hff]
    simp only [mm_malloc, MM.ALIGNMENT, hff]
    constructor
    · omega
    · omega
  | none =>
    have hfr : h2 = h := by
      have hframe := find_fit_go_none_frame h (MM.round_up n 16) h.cap (rd h h.last)
      rw [show find_fit_go h (MM.round_up n 16) (rd h h.last) h.cap
          = find_fit h (MM.round_up n 16) from rfl, hff] at hframe
      exact hframe rfl
    simp only [mm_malloc, MM.ALIGNMENT, hff, hfr]
    have e1 : mem_sbrk h (MM.round_up n 16) =
        (h.brk, { h with brk := h.brk + MM.round_up n 16 }) := by
      rw [mem_sbrk, if_pos (by omega)]
    rw [e1]
    have e2 : mem_sbrk { h with brk := h.brk + MM.round_up n 16 } 8 =
        (h.brk + MM.round_up n 16,
         { h with brk := h.brk + MM.round_up n 16 + 8 }) := by
      rw [mem_sbrk, if_pos (by simp; omega)]
    simp only [e2]
    have hne1 : ¬ (h.brk + MM.round_up n 16 = MM.FAILP) := by omega
    rw [if_neg hne1]
    have hps : MM.psub h.brk 16 = h.brk - 16 := MM.psub_eq_sub H3 (by omega)
    have hne2 : ¬ (MM.psub h.brk 16 = MM.FAILP) := by rw [hps]; omega
    rw [if_neg hne2]
    have e3 : mem_sbrk { h with brk := h.brk + MM.round_up n 16 + 8 } 8 =
        (h.brk + MM.round_up n 16 + 8,
         { h with brk := h.brk + MM.round_up n 16 + 8 + 8 }) := by
      rw [mem_sbrk, if_pos (by simp; omega)]
    simp only [e3, hps]
    constructor
    · omega
    · omega

end Explicit

namespace Implicit

/-- The address-order block walk from curr is well formed within the given
fuel: every block on it starts at an address that is 8 mod 16 and has a size
that is a multiple of 16 (the shape mm_malloc maintains by rounding), and the walk
terminates. -/
def blocks_aligned (h : IHeap) : Nat → Nat → Bool
  | 0, _ => false
  | fuel + 1, curr =>
    if h.heap_last ≠ 0 ∧ curr ≤ h.heap_last then
      decide (curr % 16 = 8) && decide (get_size h curr % 16 = 0) &&
        blocks_aligned h fuel (curr + get_size h curr)
    else true

theorem ifind_fit_go_aligned (h : IHeap) (size : Nat) :
    ∀ fuel curr, blocks_aligned h fuel curr = true →
      ∀ b, (find_fit_go h size curr fuel).1 = some b → b % 16 = 8 := by
  intro fuel
  induction fuel with
  | zero => intro curr hal b hb; simp [blocks_aligned] at hal
  | succ n ih =>
    intro curr hal b hb
    rw [blocks_aligned] at hal
    rw [find_fit_go] at hb
    by_cases h1 : h.heap_last ≠ 0 ∧ curr ≤ h.heap_last
    · rw [if_pos h1] at hal hb
      rw [Bool.and_eq_true, Bool.and_eq_true] at hal
      obtain ⟨⟨hm, _⟩, hrec⟩ := hal
      by_cases h2 : (¬ is_allocated h curr) ∧ get_size h curr ≥ size
      · rw [if_pos h2] at hb
        have : b = curr := by
          rcases hq : (if get_size h curr - size ≥ 16 then
              (fun h2a => if curr = h.heap_last then
                { h2a with heap_last := curr + size } else h2a)
              (set_header (set_header h curr size true) (curr + size)
                (get_size h curr - size) false)
            else set_header h curr size true) with _
          exact (Option.some.inj hb).symm
        rw [this]
        exact of_decide_eq_true hm
      · rw [if_neg h2] at hb
        exact ih (curr + get_size h curr) hrec b hb
    · rw [if_neg h1] at hb
      simp at hb

theorem ifind_fit_go_none_frame (h : IHeap) (size : Nat) :
    ∀ fuel curr, (find_fit_go h size curr fuel).1 = none →
      (find_fit_go h size curr fuel).2 = h := by
  intro fuel
  induction fuel with
  | zero => intro curr _; rfl
  | succ n ih =>
    intro curr hn
    rw [find_fit_go] at hn ⊢
    by_cases h1 : h.heap_last ≠ 0 ∧ curr ≤ h.heap_last
    · rw [if_pos h1] at hn ⊢
      by_cases h2 : (¬ is_allocated h curr) ∧ get_size h curr ≥ size
      · rw [if_pos h2] at hn
        simp at hn
      · rw [if_neg h2] at hn ⊢
        exact ih (curr + get_size h curr) hn
    · rw [if_neg h1]

end Implicit

namespace Implicit

theorem coalesce_go_fields :
    ∀ (fuel : Nat) (h : IHeap) (curr : Nat),
      (coalesce_go h curr fuel).brk = h.brk ∧
      (coalesce_go h curr fuel).cap = h.cap ∧
      (coalesce_go h curr fuel).heap_first = h.heap_first ∧
      (coalesce_go h curr fuel).heap_last = h.heap_last := by
  intro fuel
  induction fuel with
  | zero => intro h curr; exact ⟨rfl, rfl, rfl, rfl⟩
  | succ n ih =>
    intro h curr
    rw [coalesce_go]
    by_cases h1 : h.heap_last ≠ 0 ∧ curr < h.heap_last
    · rw [if_pos h1]
      by_cases h2 : ¬ is_allocated h curr
      · rw [if_pos h2]
        have hrec := ih (set_header h curr
          (coalesce_run h (curr + get_size h curr) (get_size h curr) h.cap) false)
        simpa [set_header] using hrec _
      · rw [if_neg h2]
        exact ih h _
    · rw [if_neg h1]
      exact ⟨rfl, rfl, rfl, rfl⟩

theorem coalesce_fields (h : IHeap) :
    (coalesce h).brk = h.brk ∧ (coalesce h).cap = h.cap ∧
    (coalesce h).heap_first = h.heap_first ∧ (coalesce h).heap_last = h.heap_last :=
  coalesce_go_fields h.cap h h.heap_first

theorem mm_malloc_aligned_imp (h : IHeap) (n : Nat)
    (J1 : blocks_aligned (coalesce h) (coalesce h).cap (coalesce h).heap_first = true)
    (J2 : h.brk % 16 = 8)
    (J3 : h.brk + MM.round_up (8 + n) 16 ≤ h.cap) :
    (mm_malloc h n).1 % 16 = 0 ∧ (mm_malloc h n).1 ≠ 0 := by
  have hs16 : MM.round_up (8 + n) 16 % 16 = 0 := round_up_16_mod (8 + n)
  have hF : MM.FAILP = 2 ^ 64 - 1 := rfl
  have hWv : MM.W = 2 ^ 64 := rfl
  obtain ⟨hbrk, hcap, hfst, hlst⟩ := coalesce_fields h
  rcases hff : find_fit (coalesce h) (MM.round_up (8 + n) 16) with ⟨ob, h2⟩
  cases ob with
  | some b =>
    have hb : b % 16 = 8 := by
      apply ifind_fit_go_aligned (coalesce h) (MM.round_up (8 + n) 16)
        (coalesce h).cap (coalesce h).heap_first J1 b
      rw [show find_fit_go (coalesce h) (MM.round_up (8 + n) 16) (coalesce h).heap_first
          (coalesce h).cap = find_fit (coalesce h) (MM.round_up (8 + n) 16) from rfl, hff]
    simp only [mm_malloc, MM.ALIGNMENT, hff]
    constructor
    · omega
    · omega
  | none =>
    have hfr : h2 = coalesce h := by
      have hframe := ifind_fit_go_none_frame (coalesce h) (MM.round_up (8 + n) 16)
        (coalesce h).cap (coalesce h).heap_first
      rw [show find_fit_go (coalesce h) (MM.round_up (8 + n) 16) (coalesce h).heap_first
          (coalesce h).cap = find_fit (coalesce h) (MM.round_up (8 + n) 16) from rfl,
        hff] at hframe
      exact hframe rfl
    simp only [mm_malloc, MM.ALIGNMENT, hff, hfr]
    have e1 : mem_sbrk (coalesce h) (MM.round_up (8 + n) 16) =
        ((coalesce h).brk, { coalesce h with brk := (coalesce h).brk + MM.round_up (8 + n) 16 }) := by
      rw [mem_sbrk, if_pos (by omega)]
    rw [e1]
    have hne1 : ¬ ((coalesce h).brk = MM.FAILP) := by
      rw [hbrk]; omega
    rw [if_neg hne1]
    simp only [hbrk]
    constructor
    · omega
    · omega

end Implicit

/-- C5: in either strategy, a successful allocate(n) returns a payload
address that is a multiple of the alignment unit 16 = 2 * sizeof(size_t)
(and in particular non-null).  The explicit hypothesis says every free-list node is
16-aligned and the break is aligned; the implicit hypothesis says the heap's
block walk (after the coalescing sweep that mm_malloc performs first) keeps
blocks at addresses of 8 mod 16; both are the shapes the allocators maintain. -/
theorem malloc_returns_aligned_payload :
    (∀ (h : Explicit.EHeap) (n : Nat),
      Explicit.nodes_aligned h h.cap (Explicit.rd h h.last) = true →
      h.brk % 16 = 0 → 16 ≤ h.brk →
      h.brk + MM.round_up n 16 + 16 ≤ h.cap → h.cap < MM.W →
      ((Explicit.mm_malloc h n).1 % 16 = 0 ∧ (Explicit.mm_malloc h n).1 ≠ 0)) ∧
    (∀ (h : Implicit.IHeap) (n : Nat),
      Implicit.blocks_aligned (Implicit.coalesce h) (Implicit.coalesce h).cap
        (Implicit.coalesce h).heap_first = true →
      h.brk % 16 = 8 →
      h.brk + MM.round_up (8 + n) 16 ≤ h.cap →
      ((Implicit.mm_malloc h n).1 % 16 = 0 ∧ (Implicit.mm_malloc h n).1 ≠ 0)) := by
  constructor
  · intro h n H1 H2 H3 H4 H5
    exact Explicit.mm_malloc_aligned h n H1 H2 H3 H4 H5
  · intro h n J1 J2 J3
    exact Implicit.mm_malloc_aligned_imp h n J1 J2 J3

/-- Closed instance of C5 on the freshly initialized heaps of both
strategies, requesting 16 bytes. -/
theorem malloc_returns_aligned_payload_witness :
    (Explicit.nodes_aligned c10_e0 c10_e0.cap (Explicit.rd c10_e0 c10_e0.last) = true ∧
     c10_e0.brk % 16 = 0 ∧ 16 ≤ c10_e0.brk ∧
     c10_e0.brk + MM.round_up 16 16 + 16 ≤ c10_e0.cap ∧ c10_e0.cap < MM.W ∧
     ((Explicit.mm_malloc c10_e0 16).1 % 16 = 0 ∧ (Explicit.mm_malloc c10_e0 16).1 ≠ 0)) ∧
    (Implicit.blocks_aligned (Implicit.coalesce c10_i0) (Implicit.coalesce c10_i0).cap
        (Implicit.coalesce c10_i0).heap_first = true ∧
     c10_i0.brk % 16 = 8 ∧
     c10_i0.brk + MM.round_up (8 + 16) 16 ≤ c10_i0.cap ∧
     ((Implicit.mm_malloc c10_i0 16).1 % 16 = 0 ∧ (Implicit.mm_malloc c10_i0 16).1 ≠ 0)) :=
  ⟨⟨by decide, by decide, by decide, by decide, by decide,
    malloc_returns_aligned_payload.1 c10_e0 16 (by decide) (by decide) (by decide)
      (by decide) (by decide)⟩,
   ⟨by decide, by decide, by decide,
    malloc_returns_aligned_payload.2 c10_i0 16 (by decide) (by decide) (by decide)⟩⟩

namespace Explicit

theorem memcpy_rd_out (a : Nat) :
    ∀ (n : Nat) (h : EHeap) (dst src : Nat), (a < dst ∨ dst + n ≤ a) →
      rd (memcpy h dst src n) a = rd h a := by
  intro n
  induction n with
  | zero => intro h dst src _; rfl
  | succ m ih =>
    intro h dst src ha
    rw [memcpy]
    rw [ih (wr h dst (rd h src)) (dst + 1) (src + 1) (by omega)]
    rw [rd_wr, if_neg (by omega)]

theorem memcpy_rd_in (i : Nat) :
    ∀ (n : Nat) (h : EHeap) (dst src : Nat), src + n ≤ dst → i < n →
      rd (memcpy h dst src n) (dst + i) = rd h (src + i) := by
  induction i with
  | zero =>
    intro n h dst src hd hi
    match n, hi with
    | m + 1, _ =>
      rw [memcpy]
      rw [memcpy_rd_out (dst + 0) m (wr h dst (rd h src)) (dst + 1) (src + 1) (by omega)]
      rw [rd_wr]
      rw [if_pos (by omega)]
      simp
  | succ j ih =>
    intro n h dst src hd hi
    match n, hi with
    | m + 1, hi =>
      rw [memcpy]
      have e1 : dst + (j + 1) = (dst + 1) + j := by omega
      have e2 : src + (j + 1) = (src + 1) + j := by omega
      rw [e1, e2, ih m (wr h dst (rd h src)) (dst + 1) (src + 1) (by omega) (by omega)]
      rw [rd_wr, if_neg (by omega)]

theorem memcpy_last : ∀ (n : Nat) (h : EHeap) (dst src : Nat),
    (memcpy h dst src n).last = h.last := by
  intro n
  induction n with
  | zero => intro h dst src; rfl
  | succ m ih =>
    intro h dst src
    rw [memcpy, ih]
    rfl

end Explicit

/-- When the scan starts already at the first sentinel (empty free list),
find_fit returns the not-found signal with the heap unchanged. -/
theorem Explicit.find_fit_go_at_first (h : Explicit.EHeap) (size fuel : Nat)
    (hfu : 1 ≤ fuel) (hn : Explicit.rd h h.last = h.first) :
    Explicit.find_fit_go h size (Explicit.rd h h.last) fuel = (none, h) := by
  match fuel, hfu with
  | f + 1, _ =>
    rw [Explicit.find_fit_go, if_pos hn]

/-- Memory of an explicit heap holding exactly one allocated block of payload
size po at 4128 (payload 4144..4144+po), with the free list empty and the
client bytes given by vals: the state mm_init plus one successful
allocate(po) produces, after the client fills its payload. -/
def c8mem (po : Nat) (vals : Nat → Nat) : Nat → Nat := fun a =>
  if a = 4096 then 0
  else if a = 4104 then 4112
  else if a = 4112 then 4096
  else if a = 4120 then 0
  else if a = 4128 then 1
  else if a = 4136 then po + 1
  else if 4144 ≤ a ∧ a < 4144 + po then vals (a - 4144)
  else if a = 4144 + po then po + 1
  else if a = 4152 + po then 1
  else 0

def c8heap (po : Nat) (vals : Nat → Nat) (cap : Nat) : Explicit.EHeap :=
  ⟨c8mem po vals, 4160 + po, cap, 4096, 4112⟩

/-- The heap after the inner mm_malloc of the reallocation: arena grown by
the rounded size rn + 16, fresh epilogue, and the new block's header and
footer written. -/
def c8h5 (po : Nat) (vals : Nat → Nat) (cap rn : Nat) : Explicit.EHeap :=
  Explicit.wr (Explicit.wr (Explicit.wr { c8heap po vals cap with brk := 4176 + po + rn }
    (4168 + po + rn) 1) (4152 + po) (rn + 1)) (4160 + po + rn) (rn + 1)

theorem c8_malloc (po n cap : Nat) (vals : Nat → Nat)
    (hpo16 : po % 16 = 0) (hpo1 : 16 ≤ po) (hpoB : po < 2 ^ 32)
    (hn1 : 1 ≤ n) (hnB : n < 2 ^ 32)
    (hcap : 4176 + po + MM.round_up n 16 ≤ cap) :
    Explicit.mm_malloc (c8heap po vals cap) n =
      (4160 + po, c8h5 po vals cap (MM.round_up n 16)) := by
  have hrnmod : MM.round_up n 16 % 16 = 0 := round_up_16_mod n
  have hrnub : MM.round_up n 16 ≤ n + 15 := by
    unfold MM.round_up MM.W
    omega
  have hF : MM.FAILP = 2 ^ 64 - 1 := rfl
  have hWv : MM.W = 2 ^ 64 := rfl
  have hrdlast : Explicit.rd (c8heap po vals cap) 4112 = 4096 := by
    simp [c8heap, c8mem, Explicit.rd]
  have hffe : Explicit.find_fit (c8heap po vals cap) (MM.round_up n 16) =
      (none, c8heap po vals cap) := by
    rw [Explicit.find_fit]
    exact Explicit.find_fit_go_at_first _ _ _ (by simp [c8heap]; omega) hrdlast
  simp only [Explicit.mm_malloc, MM.ALIGNMENT, hffe]
  have e1 : Explicit.mem_sbrk (c8heap po vals cap) (MM.round_up n 16) =
      (4160 + po, { c8heap po vals cap with brk := 4160 + po + MM.round_up n 16 }) := by
    rw [Explicit.mem_sbrk, if_pos (by simp [c8heap]; omega)]
    simp [c8heap]
  rw [e1]
  have e2 : Explicit.mem_sbrk { c8heap po vals cap with brk := 4160 + po + MM.round_up n 16 } 8 =
      (4160 + po + MM.round_up n 16,
       { c8heap po vals cap with brk := 4160 + po + MM.round_up n 16 + 8 }) := by
    rw [Explicit.mem_sbrk, if_pos (by simp [c8heap]; omega)]
  simp only [e2]
  rw [if_neg (show ¬ (4160 + po + MM.round_up n 16 = MM.FAILP) from by omega)]
  have hps : MM.psub (4160 + po) 16 = 4144 + po := by
    rw [MM.psub_eq_sub (by omega) (by omega)]
    omega
  rw [hps]
  rw [if_neg (show ¬ (4144 + po = MM.FAILP) from by omega)]
  have e3 : Explicit.mem_sbrk { c8heap po vals cap with brk := 4160 + po + MM.round_up n 16 + 8 } 8 =
      (4168 + po + MM.round_up n 16,
       { c8heap po vals cap with brk := 4176 + po + MM.round_up n 16 }) := by
    rw [Explicit.mem_sbrk, if_pos (by simp [c8heap]; omega)]
    have : 4160 + po + MM.round_up n 16 + 8 = 4168 + po + MM.round_up n 16 := by omega
    simp [c8heap, this]
    omega
  simp only [e3]
  rw [Explicit.set_header_footer]
  rw [show (if (true = true) then (1 : Nat) else 0) = 1 from rfl]
  rw [MM.even_lor_one (by omega)]
  have e4 : 4144 + po + 8 = 4152 + po := by omega
  have e6 : 4144 + po + MM.ALIGNMENT + MM.round_up n 16 = 4160 + po + MM.round_up n 16 := by
    simp only [MM.ALIGNMENT]
    omega
  have e7 : 4144 + po + 16 = 4160 + po := by omega
  rw [e4, e6, e7, c8h5]

/-- The heap at the end of the reallocation: the copy into the new payload
followed by the free of the old block (header/footer cleared, node linked
before the last sentinel). -/
def c8h7 (po : Nat) (vals : Nat → Nat) (cap rn sm : Nat) : Explicit.EHeap :=
  Explicit.wr (Explicit.wr (Explicit.wr (Explicit.wr (Explicit.wr (Explicit.wr
    (Explicit.memcpy (c8h5 po vals cap rn) (4160 + po) 4144 sm)
    4136 po) (4144 + po) po) 4144 4096) 4152 4112) 4112 4144) 4104 4144

theorem c8_realloc_eval (po n cap : Nat) (vals : Nat → Nat)
    (hpo16 : po % 16 = 0) (hpo1 : 16 ≤ po) (hpoB : po < 2 ^ 32)
    (hn1 : 1 ≤ n) (hnB : n < 2 ^ 32)
    (hcap : 4176 + po + MM.round_up n 16 ≤ cap) :
    Explicit.mm_realloc (c8heap po vals cap) 4144 n =
      (4160 + po, c8h7 po vals cap (MM.round_up n 16) (min po (MM.round_up n 16))) := by
  have hrnmod : MM.round_up n 16 % 16 = 0 := round_up_16_mod n
  have hrnlb : n ≤ MM.round_up n 16 := by unfold MM.round_up MM.W; omega
  have hrnub : MM.round_up n 16 ≤ n + 15 := by unfold MM.round_up MM.W; omega
  have hF : MM.FAILP = 2 ^ 64 - 1 := rfl
  have hWv : MM.W = 2 ^ 64 := rfl
  have hA : MM.ALIGNMENT = 16 := rfl
  simp only [Explicit.mm_realloc]
  rw [if_neg (show ¬ ((4144 : Nat) = 0) from by omega)]
  rw [if_neg (show ¬ (n = 0) from by omega)]
  simp only [c8_malloc po n cap vals hpo16 hpo1 hpoB hn1 hnB hcap]
  -- resolve the two get_size reads on the post-malloc heap
  have hbfp1 : Explicit.block_from_payload 4144 = 4128 := by
    rw [Explicit.block_from_payload, hA, MM.psub_eq_sub (by omega) (by omega)]
  have hbfp2 : Explicit.block_from_payload (4160 + po) = 4144 + po := by
    rw [Explicit.block_from_payload, hA, MM.psub_eq_sub (by omega) (by omega)]
    omega
  have hrd_old : Explicit.rd (c8h5 po vals cap (MM.round_up n 16)) 4136 = po + 1 := by
    rw [c8h5]
    simp only [Explicit.rd_wr]
    rw [if_neg (by omega), if_neg (by omega), if_neg (by omega)]
    show c8mem po vals 4136 = po + 1
    simp [c8mem]
  have hgs_old : Explicit.get_size (c8h5 po vals cap (MM.round_up n 16)) 4128 = po := by
    rw [Explicit.get_size]
    rw [show (4128 : Nat) + 8 = 4136 from by omega, hrd_old]
    exact MM.succ_land_mask (by omega) (by omega)
  have hrd_new : Explicit.rd (c8h5 po vals cap (MM.round_up n 16)) (4152 + po) =
      MM.round_up n 16 + 1 := by
    rw [c8h5]
    simp only [Explicit.rd_wr]
    rw [if_neg (by omega)]
    simp
  have hgs_new : Explicit.get_size (c8h5 po vals cap (MM.round_up n 16)) (4144 + po) =
      MM.round_up n 16 := by
    rw [Explicit.get_size]
    rw [show (4144 : Nat) + po + 8 = 4152 + po from by omega, hrd_new]
    exact MM.succ_land_mask (by omega) (by omega)
  rw [hbfp1, hbfp2, hgs_old, hgs_new]
  have hmin : (if po > MM.round_up n 16 then MM.round_up n 16 else po) =
      min po (MM.round_up n 16) := by
    split_ifs with hgt
    · omega
    · omega
  rw [hmin]
  -- now evaluate the mm_free of the old block on the post-copy heap
  have hsm : min po (MM.round_up n 16) ≤ po := by omega
  have hout : ∀ a, a < 4160 + po →
      Explicit.rd (Explicit.memcpy (c8h5 po vals cap (MM.round_up n 16)) (4160 + po) 4144
        (min po (MM.round_up n 16))) a =
      Explicit.rd (c8h5 po vals cap (MM.round_up n 16)) a := by
    intro a ha
    exact Explicit.memcpy_rd_out a _ _ _ _ (Or.inl ha)
  have hgs6 : Explicit.get_size (Explicit.memcpy (c8h5 po vals cap (MM.round_up n 16))
      (4160 + po) 4144 (min po (MM.round_up n 16))) 4128 = po := by
    rw [Explicit.get_size, show (4128 : Nat) + 8 = 4136 from by omega]
    rw [hout 4136 (by omega), hrd_old]
    exact MM.succ_land_mask (by omega) (by omega)
  rw [Explicit.mm_free]
  rw [if_neg (show ¬ ((4144 : Nat) = 0) from by omega)]
  simp only [hbfp1, hgs6]
  have hrd_c8h5_4112 : Explicit.rd (c8h5 po vals cap (MM.round_up n 16)) 4112 = 4096 := by
    rw [c8h5]
    simp only [Explicit.rd_wr]
    rw [if_neg (by omega), if_neg (by omega), if_neg (by omega)]
    show c8mem po vals 4112 = 4096
    simp [c8mem]
  have hrd_c8h5_4128 : Explicit.rd (c8h5 po vals cap (MM.round_up n 16)) 4128 = 1 := by
    rw [c8h5]
    simp only [Explicit.rd_wr]
    rw [if_neg (by omega), if_neg (by omega), if_neg (by omega)]
    show c8mem po vals 4128 = 1
    simp [c8mem]
  have hlast5 : (c8h5 po vals cap (MM.round_up n 16)).last = 4112 := rfl
  simp only [Explicit.set_header_footer, Explicit.add_linked_node_to_block,
    Explicit.get_linked_node_from_block, Explicit.wr_last, Explicit.memcpy_last, hlast5, hA]
  have hv : (po ||| if (false = true) then (1 : Nat) else 0) = po := by
    norm_num
  rw [hv]
  norm_num
  rw [if_neg (show ¬ ((4112 : Nat) = 4144 + po) from by omega)]
  rw [hout 4112 (by omega), hrd_c8h5_4112]
  rw [show (4096 : Nat) + 8 = 4104 from by norm_num]
  rw [← c8h7]
  have hrn16 : 16 ≤ MM.round_up n 16 := by unfold MM.round_up MM.W; omega
  have hprev : Explicit.is_previous_allocated
      (c8h7 po vals cap (MM.round_up n 16) (min po (MM.round_up n 16))) 4128 = true := by
    rw [Explicit.is_previous_allocated, c8h7]
    rw [Explicit.rd_wr, if_neg (by omega), Explicit.rd_wr, if_neg (by omega),
      Explicit.rd_wr, if_neg (by omega), Explicit.rd_wr, if_neg (by omega),
      Explicit.rd_wr, if_neg (by omega), Explicit.rd_wr, if_neg (by omega)]
    rw [hout 4128 (by omega), hrd_c8h5_4128]
    decide
  have hgs7 : Explicit.get_size
      (c8h7 po vals cap (MM.round_up n 16) (min po (MM.round_up n 16))) 4128 = po := by
    rw [Explicit.get_size, show (4128 : Nat) + 8 = 4136 from by norm_num, c8h7]
    rw [Explicit.rd_wr, if_neg (by omega), Explicit.rd_wr, if_neg (by omega),
      Explicit.rd_wr, if_neg (by omega), Explicit.rd_wr, if_neg (by omega),
      Explicit.rd_wr, if_neg (by omega), Explicit.rd_wr, if_pos rfl]
    exact MM.even_land_mask (by omega) (by omega)
  have hnext : Explicit.is_next_allocated
      (c8h7 po vals cap (MM.round_up n 16) (min po (MM.round_up n 16))) 4128 = true := by
    simp only [Explicit.is_next_allocated, hgs7, hA]
    have haddr : (4128 : Nat) + 16 + po + 8 = 4152 + po := by omega
    rw [haddr]
    have hrd7 : Explicit.rd
        (c8h7 po vals cap (MM.round_up n 16) (min po (MM.round_up n 16))) (4152 + po) =
        MM.round_up n 16 + 1 := by
      rw [c8h7]
      rw [Explicit.rd_wr, if_neg (by omega), Explicit.rd_wr, if_neg (by omega),
        Explicit.rd_wr, if_neg (by omega), Explicit.rd_wr, if_neg (by omega),
        Explicit.rd_wr, if_neg (by omega), Explicit.rd_wr, if_neg (by omega)]
      rw [hout (4152 + po) (by omega), hrd_new]
    rw [hrd7]
    rw [MM.succ_land_mask (by omega) (by omega)]
    rw [if_pos (by omega)]
    rw [MM.land_one_mod]
    rw [show (MM.round_up n 16 + 1) % 2 = 1 from by omega]
    decide
  rw [hprev, hnext]
  rw [if_neg (by simp)]

/-- C8: a successful reallocate preserves the surviving data: with one
allocated block of payload size po holding bytes vals and ample capacity,
reallocate(payload, n) returns the new payload and its first min(po, n)
bytes equal the original bytes (the code copies min(old block size, new
block size) bytes, which contains that surviving part). -/
theorem realloc_copies_surviving_data (po n cap : Nat) (vals : Nat → Nat)
    (hpo16 : po % 16 = 0) (hpo1 : 16 ≤ po) (hpoB : po < 2 ^ 32)
    (hn1 : 1 ≤ n) (hnB : n < 2 ^ 32)
    (hcap : 4176 + po + MM.round_up n 16 ≤ cap) :
    (Explicit.mm_realloc (c8heap po vals cap) 4144 n).1 = 4160 + po ∧
    ∀ i, i < min po n →
      Explicit.rd (Explicit.mm_realloc (c8heap po vals cap) 4144 n).2 (4160 + po + i) =
        vals i := by
  have hrnlb : n ≤ MM.round_up n 16 := by unfold MM.round_up MM.W; omega
  rw [c8_realloc_eval po n cap vals hpo16 hpo1 hpoB hn1 hnB hcap]
  constructor
  · rfl
  · intro i hi
    rw [c8h7]
    rw [Explicit.rd_wr, if_neg (by omega), Explicit.rd_wr, if_neg (by omega),
      Explicit.rd_wr, if_neg (by omega), Explicit.rd_wr, if_neg (by omega),
      Explicit.rd_wr, if_neg (by omega), Explicit.rd_wr, if_neg (by omega)]
    have hi2 : i < min po (MM.round_up n 16) := by omega
    rw [Explicit.memcpy_rd_in i _ _ _ _ (by omega) hi2]
    rw [c8h5]
    rw [Explicit.rd_wr, if_neg (by omega), Explicit.rd_wr, if_neg (by omega),
      Explicit.rd_wr, if_neg (by omega)]
    show c8mem po vals (4144 + i) = vals i
    simp only [c8mem]
    rw [if_neg (by omega), if_neg (by omega), if_neg (by omega), if_neg (by omega),
      if_neg (by omega), if_neg (by omega), if_pos (by omega)]
    rw [show (4144 + i - 4144 : Nat) = i from by omega]

/-- Closed instance of C8: shrink a 16-byte block to 8 bytes; the first 8
bytes of the new payload match the original contents 100 + i. -/
theorem realloc_copies_surviving_data_witness :
    ((16 : Nat) % 16 = 0 ∧ (16 : Nat) ≤ 16 ∧ (16 : Nat) < 2 ^ 32 ∧ (1 : Nat) ≤ 8 ∧
      (8 : Nat) < 2 ^ 32 ∧ 4176 + 16 + MM.round_up 8 16 ≤ 5000) ∧
    ((Explicit.mm_realloc (c8heap 16 (fun i => 100 + i) 5000) 4144 8).1 = 4160 + 16 ∧
     ∀ i, i < min 16 8 →
       Explicit.rd (Explicit.mm_realloc (c8heap 16 (fun i => 100 + i) 5000) 4144 8).2
         (4160 + 16 + i) = 100 + i) :=
  ⟨⟨by decide, by decide, by decide, by decide, by decide, by decide⟩,
   realloc_copies_surviving_data 16 8 5000 (fun i => 100 + i) (by decide) (by decide)
     (by decide) (by decide) (by decide) (by decide)⟩

namespace Implicit

theorem coalesce_run_step (h : IHeap) (nb total fuel : Nat) (hfu : 1 ≤ fuel) :
    coalesce_run h nb total fuel =
      if nb ≤ h.heap_last ∧ ¬ is_allocated h nb then
        if nb + get_size h nb = h.heap_last then
          if ¬ is_allocated h (nb + get_size h nb) then
            total + get_size h nb + get_size h (nb + get_size h nb)
          else total + get_size h nb
        else coalesce_run h (nb + get_size h nb) (total + get_size h nb) (fuel - 1)
      else total := by
  match fuel, hfu with
  | f + 1, _ =>
    rw [coalesce_run]
    simp

theorem coalesce_go_step (h : IHeap) (curr fuel : Nat) (hfu : 1 ≤ fuel) :
    coalesce_go h curr fuel =
      if h.heap_last ≠ 0 ∧ curr < h.heap_last then
        (if ¬ is_allocated h curr then
          coalesce_go (set_header h curr
              (coalesce_run h (curr + get_size h curr) (get_size h curr) h.cap) false)
            (curr + get_size (set_header h curr
              (coalesce_run h (curr + get_size h curr) (get_size h curr) h.cap) false) curr)
            (fuel - 1)
        else coalesce_go h (curr + get_size h curr) (fuel - 1))
      else h := by
  match fuel, hfu with
  | f + 1, _ =>
    rw [coalesce_go]
    by_cases h1 : h.heap_last ≠ 0 ∧ curr < h.heap_last
    · rw [if_pos h1, if_pos h1]
      by_cases h2 : ¬ is_allocated h curr
      · rw [if_pos h2, if_pos h2]
        simp
      · rw [if_neg h2, if_neg h2]
        simp
    · rw [if_neg h1, if_neg h1]

theorem iparse_step (h : IHeap) (curr fuel : Nat) (hfu : 1 ≤ fuel) :
    iparse h curr fuel =
      if h.heap_last ≠ 0 ∧ curr ≤ h.heap_last then
        (curr, get_size h curr, is_allocated h curr) ::
          iparse h (curr + get_size h curr) (fuel - 1)
      else [] := by
  match fuel, hfu with
  | f + 1, _ =>
    rw [iparse]
    simp

end Implicit

/-- Memory of an implicit heap holding exactly three blocks at 4104,
4104 + s1, 4104 + s1 + s2 with sizes s1, s2, s3 and allocation flags
a1, a2, a3. -/
def c6mem (s1 s2 s3 : Nat) (a1 a2 a3 : Bool) : Nat → Nat := fun a =>
  if a = 4104 then s1 + (if a1 then 1 else 0)
  else if a = 4104 + s1 then s2 + (if a2 then 1 else 0)
  else if a = 4104 + s1 + s2 then s3 + (if a3 then 1 else 0)
  else 0

def c6heap (s1 s2 s3 : Nat) (a1 a2 a3 : Bool) : Implicit.IHeap :=
  ⟨c6mem s1 s2 s3 a1 a2 a3, 4104 + s1 + s2 + s3, 4104 + s1 + s2 + s3, 4104,
    4104 + s1 + s2⟩

/-- Modelled from the spec: the deferred coalescing sweep's effect on the
abstract block sequence — each maximal run of adjacent free blocks is
replaced by a single free block carrying the run's summed size. -/
def spec_merge_runs : List (Nat × Bool) → List (Nat × Bool)
  | [] => []
  | (s, a) :: rest =>
    if a then (s, true) :: spec_merge_runs rest
    else
      match spec_merge_runs rest with
      | (s2, false) :: rest2 => (s + s2, false) :: rest2
      | l => (s, false) :: l

/-- Pairs each (size, allocated) entry with its block address, starting at
the given address and striding by the sizes. -/
def with_addrs (start : Nat) : List (Nat × Bool) → List (Nat × Nat × Bool)
  | [] => []
  | (s, a) :: rest => (start, s, a) :: with_addrs (start + s) rest

theorem c6_rd1 (s1 s2 s3 : Nat) (a1 a2 a3 : Bool) :
    Implicit.rd (c6heap s1 s2 s3 a1 a2 a3) 4104 = s1 + (if a1 then 1 else 0) := by
  show c6mem s1 s2 s3 a1 a2 a3 4104 = _
  simp [c6mem]

theorem c6_rd2 (s1 s2 s3 : Nat) (a1 a2 a3 : Bool) (hs1 : 16 ≤ s1) :
    Implicit.rd (c6heap s1 s2 s3 a1 a2 a3) (4104 + s1) = s2 + (if a2 then 1 else 0) := by
  show c6mem s1 s2 s3 a1 a2 a3 (4104 + s1) = _
  simp only [c6mem]
  rw [if_neg (by omega)]
  simp

theorem c6_rd3 (s1 s2 s3 : Nat) (a1 a2 a3 : Bool) (hs1 : 16 ≤ s1) (hs2 : 16 ≤ s2) :
    Implicit.rd (c6heap s1 s2 s3 a1 a2 a3) (4104 + s1 + s2) =
      s3 + (if a3 then 1 else 0) := by
  show c6mem s1 s2 s3 a1 a2 a3 (4104 + s1 + s2) = _
  simp only [c6mem]
  rw [if_neg (by omega), if_neg (by omega)]
  simp

theorem c6_bits_gs {s : Nat} (a : Bool) (hmod : s % 16 = 0) (hB : s < 2 ^ 32) :
    (s + (if a then 1 else 0)) &&& MM.MASK = s := by
  cases a
  · rw [show (if (false : Bool) = true then (1 : Nat) else 0) = 0 from by norm_num,
      Nat.add_zero]
    exact MM.even_land_mask (by unfold MM.W; omega) (by omega)
  · rw [show (if (true : Bool) = true then (1 : Nat) else 0) = 1 from by norm_num]
    exact MM.succ_land_mask (by unfold MM.W; omega) (by omega)

theorem c6_bits_al {s : Nat} (a : Bool) (hmod : s % 16 = 0) :
    (((s + (if a then 1 else 0)) &&& 1) == 1) = a := by
  rw [MM.land_one_mod]
  cases a
  · rw [show (if (false : Bool) = true then (1 : Nat) else 0) = 0 from by norm_num,
      show (s + 0) % 2 = 0 from by omega]
    decide
  · rw [show (if (true : Bool) = true then (1 : Nat) else 0) = 1 from by norm_num,
      show (s + 1) % 2 = 1 from by omega]
    decide

theorem c6_gs1 (s1 s2 s3 : Nat) (a1 a2 a3 : Bool) (hm : s1 % 16 = 0) (hB : s1 < 2 ^ 32) :
    Implicit.get_size (c6heap s1 s2 s3 a1 a2 a3) 4104 = s1 := by
  rw [Implicit.get_size, c6_rd1]
  exact c6_bits_gs a1 hm hB

theorem c6_gs2 (s1 s2 s3 : Nat) (a1 a2 a3 : Bool) (hs1 : 16 ≤ s1)
    (hm : s2 % 16 = 0) (hB : s2 < 2 ^ 32) :
    Implicit.get_size (c6heap s1 s2 s3 a1 a2 a3) (4104 + s1) = s2 := by
  rw [Implicit.get_size, c6_rd2 s1 s2 s3 a1 a2 a3 hs1]
  exact c6_bits_gs a2 hm hB

theorem c6_gs3 (s1 s2 s3 : Nat) (a1 a2 a3 : Bool) (hs1 : 16 ≤ s1) (hs2 : 16 ≤ s2)
    (hm : s3 % 16 = 0) (hB : s3 < 2 ^ 32) :
    Implicit.get_size (c6heap s1 s2 s3 a1 a2 a3) (4104 + s1 + s2) = s3 := by
  rw [Implicit.get_size, c6_rd3 s1 s2 s3 a1 a2 a3 hs1 hs2]
  exact c6_bits_gs a3 hm hB

theorem c6_al1 (s1 s2 s3 : Nat) (a1 a2 a3 : Bool) (hm : s1 % 16 = 0) :
    Implicit.is_allocated (c6heap s1 s2 s3 a1 a2 a3) 4104 = a1 := by
  rw [Implicit.is_allocated, c6_rd1]
  exact c6_bits_al a1 hm

theorem c6_al2 (s1 s2 s3 : Nat) (a1 a2 a3 : Bool) (hs1 : 16 ≤ s1) (hm : s2 % 16 = 0) :
    Implicit.is_allocated (c6heap s1 s2 s3 a1 a2 a3) (4104 + s1) = a2 := by
  rw [Implicit.is_allocated, c6_rd2 s1 s2 s3 a1 a2 a3 hs1]
  exact c6_bits_al a2 hm

theorem c6_al3 (s1 s2 s3 : Nat) (a1 a2 a3 : Bool) (hs1 : 16 ≤ s1) (hs2 : 16 ≤ s2)
    (hm : s3 % 16 = 0) :
    Implicit.is_allocated (c6heap s1 s2 s3 a1 a2 a3) (4104 + s1 + s2) = a3 := by
  rw [Implicit.is_allocated, c6_rd3 s1 s2 s3 a1 a2 a3 hs1 hs2]
  exact c6_bits_al a3 hm

theorem c6_eval_fff (s1 s2 s3 : Nat)
    (hm1 : s1 % 16 = 0) (hl1 : 16 ≤ s1) (hB1 : s1 < 2 ^ 32)
    (hm2 : s2 % 16 = 0) (hl2 : 16 ≤ s2) (hB2 : s2 < 2 ^ 32)
    (hm3 : s3 % 16 = 0) (hl3 : 16 ≤ s3) (hB3 : s3 < 2 ^ 32) :
    Implicit.coalesce (c6heap s1 s2 s3 false false false) =
      Implicit.wr (c6heap s1 s2 s3 false false false) 4104 (s1 + s2 + s3) := by
  have hcap : (c6heap s1 s2 s3 false false false).cap = 4104 + s1 + s2 + s3 := rfl
  have hlastv : (c6heap s1 s2 s3 false false false).heap_last = 4104 + s1 + s2 := rfl
  have hal1 := c6_al1 s1 s2 s3 false false false hm1
  have hal2 := c6_al2 s1 s2 s3 false false false hl1 hm2
  have hal3 := c6_al3 s1 s2 s3 false false false hl1 hl2 hm3
  have hgs1 := c6_gs1 s1 s2 s3 false false false hm1 hB1
  have hgs2 := c6_gs2 s1 s2 s3 false false false hl1 hm2 hB2
  have hgs3 := c6_gs3 s1 s2 s3 false false false hl1 hl2 hm3 hB3
  rw [Implicit.coalesce]
  rw [show (c6heap s1 s2 s3 false false false).heap_first = 4104 from rfl]
  rw [Implicit.coalesce_go_step _ _ _ (by rw [hcap]; omega)]
  rw [if_pos (show (c6heap s1 s2 s3 false false false).heap_last ≠ 0 ∧
      4104 < (c6heap s1 s2 s3 false false false).heap_last from by
    rw [hlastv]; omega)]
  rw [if_pos (show ¬ Implicit.is_allocated (c6heap s1 s2 s3 false false false) 4104 = true
      from by rw [hal1]; simp)]
  rw [hgs1]
  rw [Implicit.coalesce_run_step _ _ _ _ (by rw [hcap]; omega)]
  rw [if_pos (show 4104 + s1 ≤ (c6heap s1 s2 s3 false false false).heap_last ∧
      ¬ Implicit.is_allocated (c6heap s1 s2 s3 false false false) (4104 + s1) = true from
    ⟨by rw [hlastv]; omega, by rw [hal2]; simp⟩)]
  rw [hgs2]
  rw [if_pos (show 4104 + s1 + s2 = (c6heap s1 s2 s3 false false false).heap_last from by
    rw [hlastv])]
  rw [if_pos (show ¬ Implicit.is_allocated (c6heap s1 s2 s3 false false false)
      (4104 + s1 + s2) = true from by rw [hal3]; simp)]
  rw [hgs3]
  -- the header write: set_header with the run total
  rw [Implicit.set_header]
  rw [show ((s1 + s2 + s3) ||| if (false = true) then (1 : Nat) else 0) = s1 + s2 + s3 from by
    norm_num]
  -- the stride from the rewritten header leaves the heap region; the outer
  -- loop then stops
  have hgs1' : Implicit.get_size
      (Implicit.wr (c6heap s1 s2 s3 false false false) 4104 (s1 + s2 + s3)) 4104 =
      s1 + s2 + s3 := by
    rw [Implicit.get_size, Implicit.ird_wr, if_pos rfl]
    exact MM.even_land_mask (by unfold MM.W; omega) (by omega)
  rw [hgs1']
  rw [Implicit.coalesce_go_step _ _ _ (by simp [hcap]; omega)]
  rw [if_neg (show ¬ ((Implicit.wr (c6heap s1 s2 s3 false false false) 4104
      (s1 + s2 + s3)).heap_last ≠ 0 ∧ 4104 + (s1 + s2 + s3) <
      (Implicit.wr (c6heap s1 s2 s3 false false false) 4104 (s1 + s2 + s3)).heap_last)
      from by
    simp only [Implicit.wr_heap_last, hlastv]
    omega)]

theorem c6_eval_fft (s1 s2 s3 : Nat)
    (hm1 : s1 % 16 = 0) (hl1 : 16 ≤ s1) (hB1 : s1 < 2 ^ 32)
    (hm2 : s2 % 16 = 0) (hl2 : 16 ≤ s2) (hB2 : s2 < 2 ^ 32)
    (hm3 : s3 % 16 = 0) (hl3 : 16 ≤ s3) (hB3 : s3 < 2 ^ 32) :
    Implicit.coalesce (c6heap s1 s2 s3 false false true) =
      Implicit.wr (c6heap s1 s2 s3 false false true) 4104 (s1 + s2) := by
  have hcap : (c6heap s1 s2 s3 false false true).cap = 4104 + s1 + s2 + s3 := rfl
  have hlastv : (c6heap s1 s2 s3 false false true).heap_last = 4104 + s1 + s2 := rfl
  have hal1 := c6_al1 s1 s2 s3 false false true hm1
  have hal2 := c6_al2 s1 s2 s3 false false true hl1 hm2
  have hal3 := c6_al3 s1 s2 s3 false false true hl1 hl2 hm3
  have hgs1 := c6_gs1 s1 s2 s3 false false true hm1 hB1
  have hgs2 := c6_gs2 s1 s2 s3 false false true hl1 hm2 hB2
  rw [Implicit.coalesce]
  rw [show (c6heap s1 s2 s3 false false true).heap_first = 4104 from rfl]
  rw [Implicit.coalesce_go_step _ _ _ (by rw [hcap]; omega)]
  rw [if_pos (show (c6heap s1 s2 s3 false false true).heap_last ≠ 0 ∧
      4104 < (c6heap s1 s2 s3 false false true).heap_last from by rw [hlastv]; omega)]
  rw [if_pos (show ¬ Implicit.is_allocated (c6heap s1 s2 s3 false false true) 4104 = true
      from by rw [hal1]; simp)]
  rw [hgs1]
  rw [Implicit.coalesce_run_step _ _ _ _ (by rw [hcap]; omega)]
  rw [if_pos (show 4104 + s1 ≤ (c6heap s1 s2 s3 false false true).heap_last ∧
      ¬ Implicit.is_allocated (c6heap s1 s2 s3 false false true) (4104 + s1) = true from
    ⟨by rw [hlastv]; omega, by rw [hal2]; simp⟩)]
  rw [hgs2]
  rw [if_pos (show 4104 + s1 + s2 = (c6heap s1 s2 s3 false false true).heap_last from by
    rw [hlastv])]
  rw [if_neg (show ¬ (¬ Implicit.is_allocated (c6heap s1 s2 s3 false false true)
      (4104 + s1 + s2) = true) from by rw [hal3]; simp)]
  rw [Implicit.set_header]
  rw [show ((s1 + s2) ||| if (false = true) then (1 : Nat) else 0) = s1 + s2 from by
    norm_num]
  have hgs1' : Implicit.get_size
      (Implicit.wr (c6heap s1 s2 s3 false false true) 4104 (s1 + s2)) 4104 = s1 + s2 := by
    rw [Implicit.get_size, Implicit.ird_wr, if_pos rfl]
    exact MM.even_land_mask (by unfold MM.W; omega) (by omega)
  rw [hgs1']
  rw [Implicit.coalesce_go_step _ _ _ (by simp [hcap]; omega)]
  rw [if_neg (show ¬ ((Implicit.wr (c6heap s1 s2 s3 false false true) 4104
      (s1 + s2)).heap_last ≠ 0 ∧ 4104 + (s1 + s2) <
      (Implicit.wr (c6heap s1 s2 s3 false false true) 4104 (s1 + s2)).heap_last) from by
    simp only [Implicit.wr_heap_last, hlastv]
    omega)]

theorem c6_eval_ft (s1 s2 s3 : Nat) (a3 : Bool)
    (hm1 : s1 % 16 = 0) (hl1 : 16 ≤ s1) (hB1 : s1 < 2 ^ 32)
    (hm2 : s2 % 16 = 0) (hl2 : 16 ≤ s2) (hB2 : s2 < 2 ^ 32)
    (hm3 : s3 % 16 = 0) (hl3 : 16 ≤ s3) (hB3 : s3 < 2 ^ 32) :
    Implicit.coalesce (c6heap s1 s2 s3 false true a3) =
      Implicit.wr (c6heap s1 s2 s3 false true a3) 4104 s1 := by
  have hcap : (c6heap s1 s2 s3 false true a3).cap = 4104 + s1 + s2 + s3 := rfl
  have hlastv : (c6heap s1 s2 s3 false true a3).heap_last = 4104 + s1 + s2 := rfl
  have hal1 := c6_al1 s1 s2 s3 false true a3 hm1
  have hal2 := c6_al2 s1 s2 s3 false true a3 hl1 hm2
  have hgs1 := c6_gs1 s1 s2 s3 false true a3 hm1 hB1
  rw [Implicit.coalesce]
  rw [show (c6heap s1 s2 s3 false true a3).heap_first = 4104 from rfl]
  rw [Implicit.coalesce_go_step _ _ _ (by rw [hcap]; omega)]
  rw [if_pos (show (c6heap s1 s2 s3 false true a3).heap_last ≠ 0 ∧
      4104 < (c6heap s1 s2 s3 false true a3).heap_last from by rw [hlastv]; omega)]
  rw [if_pos (show ¬ Implicit.is_allocated (c6heap s1 s2 s3 false true a3) 4104 = true
      from by rw [hal1]; simp)]
  rw [hgs1]
  rw [Implicit.coalesce_run_step _ _ _ _ (by rw [hcap]; omega)]
  rw [if_neg (show ¬ (4104 + s1 ≤ (c6heap s1 s2 s3 false true a3).heap_last ∧
      ¬ Implicit.is_allocated (c6heap s1 s2 s3 false true a3) (4104 + s1) = true) from by
    rw [hal2]
    simp)]
  rw [Implicit.set_header]
  rw [show (s1 ||| if (false = true) then (1 : Nat) else 0) = s1 from by norm_num]
  have hgs1' : Implicit.get_size
      (Implicit.wr (c6heap s1 s2 s3 false true a3) 4104 s1) 4104 = s1 := by
    rw [Implicit.get_size, Implicit.ird_wr, if_pos rfl]
    exact MM.even_land_mask (by unfold MM.W; omega) (by omega)
  rw [hgs1']
  rw [Implicit.coalesce_go_step _ _ _ (by simp [hcap]; omega)]
  rw [if_pos (show (Implicit.wr (c6heap s1 s2 s3 false true a3) 4104 s1).heap_last ≠ 0 ∧
      4104 + s1 < (Implicit.wr (c6heap s1 s2 s3 false true a3) 4104 s1).heap_last from by
    simp only [Implicit.wr_heap_last, hlastv]
    omega)]
  have hal2' : Implicit.is_allocated
      (Implicit.wr (c6heap s1 s2 s3 false true a3) 4104 s1) (4104 + s1) = true := by
    rw [Implicit.is_allocated, Implicit.ird_wr, if_neg (by omega), c6_rd2 _ _ _ _ _ _ hl1]
    exact c6_bits_al true hm2
  rw [if_neg (show ¬ (¬ Implicit.is_allocated
      (Implicit.wr (c6heap s1 s2 s3 false true a3) 4104 s1) (4104 + s1) = true) from by
    rw [hal2']
    simp)]
  have hgs2' : Implicit.get_size
      (Implicit.wr (c6heap s1 s2 s3 false true a3) 4104 s1) (4104 + s1) = s2 := by
    rw [Implicit.get_size, Implicit.ird_wr, if_neg (by omega), c6_rd2 _ _ _ _ _ _ hl1]
    exact c6_bits_gs true hm2 hB2
  rw [hgs2']
  rw [Implicit.coalesce_go_step _ _ _ (by simp [hcap]; omega)]
  rw [if_neg (show ¬ ((Implicit.wr (c6heap s1 s2 s3 false true a3) 4104 s1).heap_last ≠ 0 ∧
      4104 + s1 + s2 < (Implicit.wr (c6heap s1 s2 s3 false true a3) 4104 s1).heap_last)
      from by
    simp only [Implicit.wr_heap_last, hlastv]
    omega)]

theorem c6_eval_tff (s1 s2 s3 : Nat)
    (hm1 : s1 % 16 = 0) (hl1 : 16 ≤ s1) (hB1 : s1 < 2 ^ 32)
    (hm2 : s2 % 16 = 0) (hl2 : 16 ≤ s2) (hB2 : s2 < 2 ^ 32)
    (hm3 : s3 % 16 = 0) (hl3 : 16 ≤ s3) (hB3 : s3 < 2 ^ 32) :
    Implicit.coalesce (c6heap s1 s2 s3 true false false) =
      Implicit.wr (c6heap s1 s2 s3 true false false) (4104 + s1) (s2 + s3) := by
  have hcap : (c6heap s1 s2 s3 true false false).cap = 4104 + s1 + s2 + s3 := rfl
  have hlastv : (c6heap s1 s2 s3 true false false).heap_last = 4104 + s1 + s2 := rfl
  have hal1 := c6_al1 s1 s2 s3 true false false hm1
  have hal2 := c6_al2 s1 s2 s3 true false false hl1 hm2
  have hal3 := c6_al3 s1 s2 s3 true false false hl1 hl2 hm3
  have hgs1 := c6_gs1 s1 s2 s3 true false false hm1 hB1
  have hgs2 := c6_gs2 s1 s2 s3 true false false hl1 hm2 hB2
  have hgs3 := c6_gs3 s1 s2 s3 true false false hl1 hl2 hm3 hB3
  rw [Implicit.coalesce]
  rw [show (c6heap s1 s2 s3 true false false).heap_first = 4104 from rfl]
  rw [Implicit.coalesce_go_step _ _ _ (by rw [hcap]; omega)]
  rw [if_pos (show (c6heap s1 s2 s3 true false false).heap_last ≠ 0 ∧
      4104 < (c6heap s1 s2 s3 true false false).heap_last from by rw [hlastv]; omega)]
  rw [if_neg (show ¬ (¬ Implicit.is_allocated (c6heap s1 s2 s3 true false false) 4104 =
      true) from by rw [hal1]; simp)]
  rw [hgs1]
  rw [Implicit.coalesce_go_step _ _ _ (by rw [hcap]; omega)]
  rw [if_pos (show (c6heap s1 s2 s3 true false false).heap_last ≠ 0 ∧
      4104 + s1 < (c6heap s1 s2 s3 true false false).heap_last from by
    rw [hlastv]; omega)]
  rw [if_pos (show ¬ Implicit.is_allocated (c6heap s1 s2 s3 true false false) (4104 + s1) =
      true from by rw [hal2]; simp)]
  rw [hgs2]
  rw [Implicit.coalesce_run_step _ _ _ _ (by rw [hcap]; omega)]
  rw [if_pos (show 4104 + s1 + s2 ≤ (c6heap s1 s2 s3 true false false).heap_last ∧
      ¬ Implicit.is_allocated (c6heap s1 s2 s3 true false false) (4104 + s1 + s2) = true
      from ⟨by rw [hlastv], by rw [hal3]; simp⟩)]
  rw [hgs3]
  rw [if_neg (show ¬ (4104 + s1 + s2 + s3 = (c6heap s1 s2 s3 true false false).heap_last)
      from by rw [hlastv]; omega)]
  rw [Implicit.coalesce_run_step _ _ _ _ (by rw [hcap]; omega)]
  rw [if_neg (show ¬ (4104 + s1 + s2 + s3 ≤ (c6heap s1 s2 s3 true false false).heap_last ∧
      ¬ Implicit.is_allocated (c6heap s1 s2 s3 true false false) (4104 + s1 + s2 + s3) =
      true) from by
    rw [hlastv]
    intro hcon
    omega)]
  rw [Implicit.set_header]
  rw [show ((s2 + s3) ||| if (false = true) then (1 : Nat) else 0) = s2 + s3 from by
    norm_num]
  have hgs2' : Implicit.get_size
      (Implicit.wr (c6heap s1 s2 s3 true false false) (4104 + s1) (s2 + s3)) (4104 + s1) =
      s2 + s3 := by
    rw [Implicit.get_size, Implicit.ird_wr, if_pos rfl]
    exact MM.even_land_mask (by unfold MM.W; omega) (by omega)
  rw [hgs2']
  rw [Implicit.coalesce_go_step _ _ _ (by simp [hcap]; omega)]
  rw [if_neg (show ¬ ((Implicit.wr (c6heap s1 s2 s3 true false false) (4104 + s1)
      (s2 + s3)).heap_last ≠ 0 ∧ 4104 + s1 + (s2 + s3) <
      (Implicit.wr (c6heap s1 s2 s3 true false false) (4104 + s1) (s2 + s3)).heap_last)
      from by
    simp only [Implicit.wr_heap_last, hlastv]
    omega)]

theorem c6_eval_tft (s1 s2 s3 : Nat)
    (hm1 : s1 % 16 = 0) (hl1 : 16 ≤ s1) (hB1 : s1 < 2 ^ 32)
    (hm2 : s2 % 16 = 0) (hl2 : 16 ≤ s2) (hB2 : s2 < 2 ^ 32)
    (hm3 : s3 % 16 = 0) (hl3 : 16 ≤ s3) (hB3 : s3 < 2 ^ 32) :
    Implicit.coalesce (c6heap s1 s2 s3 true false true) =
      Implicit.wr (c6heap s1 s2 s3 true false true) (4104 + s1) s2 := by
  have hcap : (c6heap s1 s2 s3 true false true).cap = 4104 + s1 + s2 + s3 := rfl
  have hlastv : (c6heap s1 s2 s3 true false true).heap_last = 4104 + s1 + s2 := rfl
  have hal1 := c6_al1 s1 s2 s3 true false true hm1
  have hal2 := c6_al2 s1 s2 s3 true false true hl1 hm2
  have hal3 := c6_al3 s1 s2 s3 true false true hl1 hl2 hm3
  have hgs1 := c6_gs1 s1 s2 s3 true false true hm1 hB1
  have hgs2 := c6_gs2 s1 s2 s3 true false true hl1 hm2 hB2
  rw [Implicit.coalesce]
  rw [show (c6heap s1 s2 s3 true false true).heap_first = 4104 from rfl]
  rw [Implicit.coalesce_go_step _ _ _ (by rw [hcap]; omega)]
  rw [if_pos (show (c6heap s1 s2 s3 true false true).heap_last ≠ 0 ∧
      4104 < (c6heap s1 s2 s3 true false true).heap_last from by rw [hlastv]; omega)]
  rw [if_neg (show ¬ (¬ Implicit.is_allocated (c6heap s1 s2 s3 true false true) 4104 =
      true) from by rw [hal1]; simp)]
  rw [hgs1]
  rw [Implicit.coalesce_go_step _ _ _ (by rw [hcap]; omega)]
  rw [if_pos (show (c6heap s1 s2 s3 true false true).heap_last ≠ 0 ∧
      4104 + s1 < (c6heap s1 s2 s3 true false true).heap_last from by
    rw [hlastv]; omega)]
  rw [if_pos (show ¬ Implicit.is_allocated (c6heap s1 s2 s3 true false true) (4104 + s1) =
      true from by rw [hal2]; simp)]
  rw [hgs2]
  rw [Implicit.coalesce_run_step _ _ _ _ (by rw [hcap]; omega)]
  rw [if_neg (show ¬ (4104 + s1 + s2 ≤ (c6heap s1 s2 s3 true false true).heap_last ∧
      ¬ Implicit.is_allocated (c6heap s1 s2 s3 true false true) (4104 + s1 + s2) = true)
      from by
    rw [hal3]
    simp)]
  rw [Implicit.set_header]
  rw [show (s2 ||| if (false = true) then (1 : Nat) else 0) = s2 from by norm_num]
  have hgs2' : Implicit.get_size
      (Implicit.wr (c6heap s1 s2 s3 true false true) (4104 + s1) s2) (4104 + s1) = s2 := by
    rw [Implicit.get_size, Implicit.ird_wr, if_pos rfl]
    exact MM.even_land_mask (by unfold MM.W; omega) (by omega)
  rw [hgs2']
  rw [Implicit.coalesce_go_step _ _ _ (by simp [hcap]; omega)]
  rw [if_neg (show ¬ ((Implicit.wr (c6heap s1 s2 s3 true false true) (4104 + s1)
      s2).heap_last ≠ 0 ∧ 4104 + s1 + s2 <
      (Implicit.wr (c6heap s1 s2 s3 true false true) (4104 + s1) s2).heap_last) from by
    simp only [Implicit.wr_heap_last, hlastv]
    omega)]

theorem c6_eval_tt (s1 s2 s3 : Nat) (a3 : Bool)
    (hm1 : s1 % 16 = 0) (hl1 : 16 ≤ s1) (hB1 : s1 < 2 ^ 32)
    (hm2 : s2 % 16 = 0) (hl2 : 16 ≤ s2) (hB2 : s2 < 2 ^ 32)
    (hm3 : s3 % 16 = 0) (hl3 : 16 ≤ s3) (hB3 : s3 < 2 ^ 32) :
    Implicit.coalesce (c6heap s1 s2 s3 true true a3) = c6heap s1 s2 s3 true true a3 := by
  have hcap : (c6heap s1 s2 s3 true true a3).cap = 4104 + s1 + s2 + s3 := rfl
  have hlastv : (c6heap s1 s2 s3 true true a3).heap_last = 4104 + s1 + s2 := rfl
  have hal1 := c6_al1 s1 s2 s3 true true a3 hm1
  have hal2 := c6_al2 s1 s2 s3 true true a3 hl1 hm2
  have hgs1 := c6_gs1 s1 s2 s3 true true a3 hm1 hB1
  have hgs2 := c6_gs2 s1 s2 s3 true true a3 hl1 hm2 hB2
  rw [Implicit.coalesce]
  rw [show (c6heap s1 s2 s3 true true a3).heap_first = 4104 from rfl]
  rw [Implicit.coalesce_go_step _ _ _ (by rw [hcap]; omega)]
  rw [if_pos (show (c6heap s1 s2 s3 true true a3).heap_last ≠ 0 ∧
      4104 < (c6heap s1 s2 s3 true true a3).heap_last from by rw [hlastv]; omega)]
  rw [if_neg (show ¬ (¬ Implicit.is_allocated (c6heap s1 s2 s3 true true a3) 4104 = true)
      from by rw [hal1]; simp)]
  rw [hgs1]
  rw [Implicit.coalesce_go_step _ _ _ (by rw [hcap]; omega)]
  rw [if_pos (show (c6heap s1 s2 s3 true true a3).heap_last ≠ 0 ∧
      4104 + s1 < (c6heap s1 s2 s3 true true a3).heap_last from by rw [hlastv]; omega)]
  rw [if_neg (show ¬ (¬ Implicit.is_allocated (c6heap s1 s2 s3 true true a3) (4104 + s1) =
      true) from by rw [hal2]; simp)]
  rw [hgs2]
  rw [Implicit.coalesce_go_step _ _ _ (by rw [hcap]; omega)]
  rw [if_neg (show ¬ ((c6heap s1 s2 s3 true true a3).heap_last ≠ 0 ∧
      4104 + s1 + s2 < (c6heap s1 s2 s3 true true a3).heap_last) from by
    rw [hlastv]
    omega)]

/-- C6: the implicit strategy's deferred coalescing sweep (invoked at the
start of every mm_malloc) walks the heap and extends each free block across
the whole run of subsequent free blocks, summing their sizes into a single
header: for a three-block heap with arbitrary aligned sizes and any
allocation states, the swept heap's block sequence equals the spec-side
run-merged sequence, and no two address-adjacent blocks are both free. -/
theorem implicit_coalesce_merges_free_runs (s1 s2 s3 : Nat) (a1 a2 a3 : Bool)
    (hm1 : s1 % 16 = 0) (hl1 : 16 ≤ s1) (hB1 : s1 < 2 ^ 32)
    (hm2 : s2 % 16 = 0) (hl2 : 16 ≤ s2) (hB2 : s2 < 2 ^ 32)
    (hm3 : s3 % 16 = 0) (hl3 : 16 ≤ s3) (hB3 : s3 < 2 ^ 32) :
    ∀ fuel, 4 ≤ fuel →
      Implicit.iparse (Implicit.coalesce (c6heap s1 s2 s3 a1 a2 a3)) 4104 fuel =
        with_addrs 4104 (spec_merge_runs [(s1, a1), (s2, a2), (s3, a3)]) ∧
      List.Chain' (fun b c => b.2.2 = true ∨ c.2.2 = true)
        (Implicit.iparse (Implicit.coalesce (c6heap s1 s2 s3 a1 a2 a3)) 4104 fuel) := by
  intro fuel hfuel
  cases a1 <;> cases a2 <;> cases a3
  · -- free, free, free: one merged block
    rw [c6_eval_fff s1 s2 s3 hm1 hl1 hB1 hm2 hl2 hB2 hm3 hl3 hB3]
    have hgs1' : Implicit.get_size
        (Implicit.wr (c6heap s1 s2 s3 false false false) 4104 (s1 + s2 + s3)) 4104 =
        s1 + s2 + s3 := by
      rw [Implicit.get_size, Implicit.ird_wr, if_pos rfl]
      exact MM.even_land_mask (by unfold MM.W; omega) (by omega)
    have hal1' : Implicit.is_allocated
        (Implicit.wr (c6heap s1 s2 s3 false false false) 4104 (s1 + s2 + s3)) 4104 =
        false := by
      rw [Implicit.is_allocated, Implicit.ird_wr, if_pos rfl, MM.land_one_mod]
      rw [show (s1 + s2 + s3) % 2 = 0 from by omega]
      decide
    rw [Implicit.iparse_step _ _ _ (by omega), if_pos (by simp [c6heap] <;> omega)]
    rw [hgs1', hal1']
    rw [Implicit.iparse_step _ _ _ (by omega), if_neg (by simp [c6heap] <;> omega)]
    refine ⟨?_, ?_⟩
    · simp [spec_merge_runs, with_addrs] <;> omega
    · simp
  · -- free, free, allocated: first two blocks merged
    rw [c6_eval_fft s1 s2 s3 hm1 hl1 hB1 hm2 hl2 hB2 hm3 hl3 hB3]
    have hgs1' : Implicit.get_size
        (Implicit.wr (c6heap s1 s2 s3 false false true) 4104 (s1 + s2)) 4104 =
        s1 + s2 := by
      rw [Implicit.get_size, Implicit.ird_wr, if_pos rfl]
      exact MM.even_land_mask (by unfold MM.W; omega) (by omega)
    have hal1' : Implicit.is_allocated
        (Implicit.wr (c6heap s1 s2 s3 false false true) 4104 (s1 + s2)) 4104 = false := by
      rw [Implicit.is_allocated, Implicit.ird_wr, if_pos rfl, MM.land_one_mod]
      rw [show (s1 + s2) % 2 = 0 from by omega]
      decide
    have hgs3' : Implicit.get_size
        (Implicit.wr (c6heap s1 s2 s3 false false true) 4104 (s1 + s2))
        (4104 + s1 + s2) = s3 := by
      rw [Implicit.get_size, Implicit.ird_wr, if_neg (by omega),
        c6_rd3 _ _ _ _ _ _ hl1 hl2]
      exact c6_bits_gs true hm3 hB3
    have hal3' : Implicit.is_allocated
        (Implicit.wr (c6heap s1 s2 s3 false false true) 4104 (s1 + s2))
        (4104 + s1 + s2) = true := by
      rw [Implicit.is_allocated, Implicit.ird_wr, if_neg (by omega),
        c6_rd3 _ _ _ _ _ _ hl1 hl2]
      exact c6_bits_al true hm3
    rw [Implicit.iparse_step _ _ _ (by omega), if_pos (by simp [c6heap] <;> omega)]
    rw [hgs1', hal1']
    rw [show (4104 : Nat) + (s1 + s2) = 4104 + s1 + s2 from by omega]
    rw [Implicit.iparse_step _ _ _ (by omega), if_pos (by simp [c6heap] <;> omega)]
    rw [hgs3', hal3']
    rw [Implicit.iparse_step _ _ _ (by omega), if_neg (by simp [c6heap] <;> omega)]
    refine ⟨?_, ?_⟩
    · simp [spec_merge_runs, with_addrs] <;> omega
    · simp
  · -- free, allocated, free: only the first block's header is rewritten
    rw [c6_eval_ft s1 s2 s3 false hm1 hl1 hB1 hm2 hl2 hB2 hm3 hl3 hB3]
    have hgs1' : Implicit.get_size
        (Implicit.wr (c6heap s1 s2 s3 false true false) 4104 s1) 4104 = s1 := by
      rw [Implicit.get_size, Implicit.ird_wr, if_pos rfl]
      exact MM.even_land_mask (by unfold MM.W; omega) (by omega)
    have hal1' : Implicit.is_allocated
        (Implicit.wr (c6heap s1 s2 s3 false true false) 4104 s1) 4104 = false := by
      rw [Implicit.is_allocated, Implicit.ird_wr, if_pos rfl, MM.land_one_mod]
      rw [show s1 % 2 = 0 from by omega]
      decide
    have hgs2' : Implicit.get_size
        (Implicit.wr (c6heap s1 s2 s3 false true false) 4104 s1) (4104 + s1) = s2 := by
      rw [Implicit.get_size, Implicit.ird_wr, if_neg (by omega), c6_rd2 _ _ _ _ _ _ hl1]
      exact c6_bits_gs true hm2 hB2
    have hal2' : Implicit.is_allocated
        (Implicit.wr (c6heap s1 s2 s3 false true false) 4104 s1) (4104 + s1) = true := by
      rw [Implicit.is_allocated, Implicit.ird_wr, if_neg (by omega), c6_rd2 _ _ _ _ _ _ hl1]
      exact c6_bits_al true hm2
    have hgs3' : Implicit.get_size
        (Implicit.wr (c6heap s1 s2 s3 false true false) 4104 s1) (4104 + s1 + s2) =
        s3 := by
      rw [Implicit.get_size, Implicit.ird_wr, if_neg (by omega),
        c6_rd3 _ _ _ _ _ _ hl1 hl2]
      exact c6_bits_gs false hm3 hB3
    have hal3' : Implicit.is_allocated
        (Implicit.wr (c6heap s1 s2 s3 false true false) 4104 s1) (4104 + s1 + s2) =
        false := by
      rw [Implicit.is_allocated, Implicit.ird_wr, if_neg (by omega),
        c6_rd3 _ _ _ _ _ _ hl1 hl2]
      exact c6_bits_al false hm3
    rw [Implicit.iparse_step _ _ _ (by omega), if_pos (by simp [c6heap] <;> omega)]
    rw [hgs1', hal1']
    rw [Implicit.iparse_step _ _ _ (by omega), if_pos (by simp [c6heap] <;> omega)]
    rw [hgs2', hal2']
    rw [Implicit.iparse_step _ _ _ (by omega), if_pos (by simp [c6heap] <;> omega)]
    rw [hgs3', hal3']
    rw [Implicit.iparse_step _ _ _ (by omega), if_neg (by simp [c6heap] <;> omega)]
    refine ⟨?_, ?_⟩
    · simp [spec_merge_runs, with_addrs] <;> omega
    · simp
  · -- free, allocated, allocated
    rw [c6_eval_ft s1 s2 s3 true hm1 hl1 hB1 hm2 hl2 hB2 hm3 hl3 hB3]
    have hgs1' : Implicit.get_size
        (Implicit.wr (c6heap s1 s2 s3 false true true) 4104 s1) 4104 = s1 := by
      rw [Implicit.get_size, Implicit.ird_wr, if_pos rfl]
      exact MM.even_land_mask (by unfold MM.W; omega) (by omega)
    have hal1' : Implicit.is_allocated
        (Implicit.wr (c6heap s1 s2 s3 false true true) 4104 s1) 4104 = false := by
      rw [Implicit.is_allocated, Implicit.ird_wr, if_pos rfl, MM.land_one_mod]
      rw [show s1 % 2 = 0 from by omega]
      decide
    have hgs2' : Implicit.get_size
        (Implicit.wr (c6heap s1 s2 s3 false true true) 4104 s1) (4104 + s1) = s2 := by
      rw [Implicit.get_size, Implicit.ird_wr, if_neg (by omega), c6_rd2 _ _ _ _ _ _ hl1]
      exact c6_bits_gs true hm2 hB2
    have hal2' : Implicit.is_allocated
        (Implicit.wr (c6heap s1 s2 s3 false true true) 4104 s1) (4104 + s1) = true := by
      rw [Implicit.is_allocated, Implicit.ird_wr, if_neg (by omega), c6_rd2 _ _ _ _ _ _ hl1]
      exact c6_bits_al true hm2
    have hgs3' : Implicit.get_size
        (Implicit.wr (c6heap s1 s2 s3 false true true) 4104 s1) (4104 + s1 + s2) =
        s3 := by
      rw [Implicit.get_size, Implicit.ird_wr, if_neg (by omega),
        c6_rd3 _ _ _ _ _ _ hl1 hl2]
      exact c6_bits_gs true hm3 hB3
    have hal3' : Implicit.is_allocated
        (Implicit.wr (c6heap s1 s2 s3 false true true) 4104 s1) (4104 + s1 + s2) =
        true := by
      rw [Implicit.is_allocated, Implicit.ird_wr, if_neg (by omega),
        c6_rd3 _ _ _ _ _ _ hl1 hl2]
      exact c6_bits_al true hm3
    rw [Implicit.iparse_step _ _ _ (by omega), if_pos (by simp [c6heap] <;> omega)]
    rw [hgs1', hal1']
    rw [Implicit.iparse_step _ _ _ (by omega), if_pos (by simp [c6heap] <;> omega)]
    rw [hgs2', hal2']
    rw [Implicit.iparse_step _ _ _ (by omega), if_pos (by simp [c6heap] <;> omega)]
    rw [hgs3', hal3']
    rw [Implicit.iparse_step _ _ _ (by omega), if_neg (by simp [c6heap] <;> omega)]
    refine ⟨?_, ?_⟩
    · simp [spec_merge_runs, with_addrs] <;> omega
    · simp
  · -- allocated, free, free: last two blocks merged
    rw [c6_eval_tff s1 s2 s3 hm1 hl1 hB1 hm2 hl2 hB2 hm3 hl3 hB3]
    have hgs1' : Implicit.get_size
        (Implicit.wr (c6heap s1 s2 s3 true false false) (4104 + s1) (s2 + s3)) 4104 =
        s1 := by
      rw [Implicit.get_size, Implicit.ird_wr, if_neg (by omega), c6_rd1]
      exact c6_bits_gs true hm1 hB1
    have hal1' : Implicit.is_allocated
        (Implicit.wr (c6heap s1 s2 s3 true false false) (4104 + s1) (s2 + s3)) 4104 =
        true := by
      rw [Implicit.is_allocated, Implicit.ird_wr, if_neg (by omega), c6_rd1]
      exact c6_bits_al true hm1
    have hgs2' : Implicit.get_size
        (Implicit.wr (c6heap s1 s2 s3 true false false) (4104 + s1) (s2 + s3))
        (4104 + s1) = s2 + s3 := by
      rw [Implicit.get_size, Implicit.ird_wr, if_pos rfl]
      exact MM.even_land_mask (by unfold MM.W; omega) (by omega)
    have hal2' : Implicit.is_allocated
        (Implicit.wr (c6heap s1 s2 s3 true false false) (4104 + s1) (s2 + s3))
        (4104 + s1) = false := by
      rw [Implicit.is_allocated, Implicit.ird_wr, if_pos rfl, MM.land_one_mod]
      rw [show (s2 + s3) % 2 = 0 from by omega]
      decide
    rw [Implicit.iparse_step _ _ _ (by omega), if_pos (by simp [c6heap] <;> omega)]
    rw [hgs1', hal1']
    rw [Implicit.iparse_step _ _ _ (by omega), if_pos (by simp [c6heap] <;> omega)]
    rw [hgs2', hal2']
    rw [Implicit.iparse_step _ _ _ (by omega), if_neg (by simp [c6heap] <;> omega)]
    refine ⟨?_, ?_⟩
    · simp [spec_merge_runs, with_addrs] <;> omega
    · simp
  · -- allocated, free, allocated
    rw [c6_eval_tft s1 s2 s3 hm1 hl1 hB1 hm2 hl2 hB2 hm3 hl3 hB3]
    have hgs1' : Implicit.get_size
        (Implicit.wr (c6heap s1 s2 s3 true false true) (4104 + s1) s2) 4104 = s1 := by
      rw [Implicit.get_size, Implicit.ird_wr, if_neg (by omega), c6_rd1]
      exact c6_bits_gs true hm1 hB1
    have hal1' : Implicit.is_allocated
        (Implicit.wr (c6heap s1 s2 s3 true false true) (4104 + s1) s2) 4104 = true := by
      rw [Implicit.is_allocated, Implicit.ird_wr, if_neg (by omega), c6_rd1]
      exact c6_bits_al true hm1
    have hgs2' : Implicit.get_size
        (Implicit.wr (c6heap s1 s2 s3 true false true) (4104 + s1) s2) (4104 + s1) =
        s2 := by
      rw [Implicit.get_size, Implicit.ird_wr, if_pos rfl]
      exact MM.even_land_mask (by unfold MM.W; omega) (by omega)
    have hal2' : Implicit.is_allocated
        (Implicit.wr (c6heap s1 s2 s3 true false true) (4104 + s1) s2) (4104 + s1) =
        false := by
      rw [Implicit.is_allocated, Implicit.ird_wr, if_pos rfl, MM.land_one_mod]
      rw [show s2 % 2 = 0 from by omega]
      decide
    have hgs3' : Implicit.get_size
        (Implicit.wr (c6heap s1 s2 s3 true false true) (4104 + s1) s2)
        (4104 + s1 + s2) = s3 := by
      rw [Implicit.get_size, Implicit.ird_wr, if_neg (by omega),
        c6_rd3 _ _ _ _ _ _ hl1 hl2]
      exact c6_bits_gs true hm3 hB3
    have hal3' : Implicit.is_allocated
        (Implicit.wr (c6heap s1 s2 s3 true false true) (4104 + s1) s2)
        (4104 + s1 + s2) = true := by
      rw [Implicit.is_allocated, Implicit.ird_wr, if_neg (by omega),
        c6_rd3 _ _ _ _ _ _ hl1 hl2]
      exact c6_bits_al true hm3
    rw [Implicit.iparse_step _ _ _ (by omega), if_pos (by simp [c6heap] <;> omega)]
    rw [hgs1', hal1']
    rw [Implicit.iparse_step _ _ _ (by omega), if_pos (by simp [c6heap] <;> omega)]
    rw [hgs2', hal2']
    rw [Implicit.iparse_step _ _ _ (by omega), if_pos (by simp [c6heap] <;> omega)]
    rw [hgs3', hal3']
    rw [Implicit.iparse_step _ _ _ (by omega), if_neg (by simp [c6heap] <;> omega)]
    refine ⟨?_, ?_⟩
    · simp [spec_merge_runs, with_addrs] <;> omega
    · simp
  · -- allocated, allocated, free: nothing to merge
    rw [c6_eval_tt s1 s2 s3 false hm1 hl1 hB1 hm2 hl2 hB2 hm3 hl3 hB3]
    rw [Implicit.iparse_step _ _ _ (by omega), if_pos (by simp [c6heap] <;> omega)]
    rw [c6_gs1 s1 s2 s3 true true false hm1 hB1, c6_al1 s1 s2 s3 true true false hm1]
    rw [Implicit.iparse_step _ _ _ (by omega), if_pos (by simp [c6heap] <;> omega)]
    rw [c6_gs2 s1 s2 s3 true true false hl1 hm2 hB2,
      c6_al2 s1 s2 s3 true true false hl1 hm2]
    rw [Implicit.iparse_step _ _ _ (by omega), if_pos (by simp [c6heap] <;> omega)]
    rw [c6_gs3 s1 s2 s3 true true false hl1 hl2 hm3 hB3,
      c6_al3 s1 s2 s3 true true false hl1 hl2 hm3]
    rw [Implicit.iparse_step _ _ _ (by omega), if_neg (by simp [c6heap] <;> omega)]
    refine ⟨?_, ?_⟩
    · simp [spec_merge_runs, with_addrs] <;> omega
    · simp
  · -- allocated, allocated, allocated
    rw [c6_eval_tt s1 s2 s3 true hm1 hl1 hB1 hm2 hl2 hB2 hm3 hl3 hB3]
    rw [Implicit.iparse_step _ _ _ (by omega), if_pos (by simp [c6heap] <;> omega)]
    rw [c6_gs1 s1 s2 s3 true true true hm1 hB1, c6_al1 s1 s2 s3 true true true hm1]
    rw [Implicit.iparse_step _ _ _ (by omega), if_pos (by simp [c6heap] <;> omega)]
    rw [c6_gs2 s1 s2 s3 true true true hl1 hm2 hB2,
      c6_al2 s1 s2 s3 true true true hl1 hm2]
    rw [Implicit.iparse_step _ _ _ (by omega), if_pos (by simp [c6heap] <;> omega)]
    rw [c6_gs3 s1 s2 s3 true true true hl1 hl2 hm3 hB3,
      c6_al3 s1 s2 s3 true true true hl1 hl2 hm3]
    rw [Implicit.iparse_step _ _ _ (by omega), if_neg (by simp [c6heap] <;> omega)]
    refine ⟨?_, ?_⟩
    · simp [spec_merge_runs, with_addrs] <;> omega
    · simp

/-- Closed instance of C6: three 16-byte blocks free, free, allocated; after
the sweep the parse is the merged 32-byte free block followed by the
allocated block. -/
theorem implicit_coalesce_merges_free_runs_witness :
    ((16 : Nat) % 16 = 0 ∧ (16 : Nat) ≤ 16 ∧ (16 : Nat) < 2 ^ 32 ∧ (4 : Nat) ≤ 4) ∧
    (Implicit.iparse (Implicit.coalesce (c6heap 16 16 16 false false true)) 4104 4 =
        with_addrs 4104 (spec_merge_runs [(16, false), (16, false), (16, true)]) ∧
     List.Chain' (fun b c => b.2.2 = true ∨ c.2.2 = true)
       (Implicit.iparse (Implicit.coalesce (c6heap 16 16 16 false false true)) 4104 4)) :=
  ⟨⟨by decide, by decide, by decide, by decide⟩,
   implicit_coalesce_merges_free_runs 16 16 16 false false true (by decide) (by decide)
     (by decide) (by decide) (by decide) (by decide) (by decide) (by decide) (by decide)
     4 (by decide)⟩

namespace Explicit

theorem eparse_step (h : EHeap) (addr fuel : Nat) (hfu : 1 ≤ fuel) :
    eparse h addr fuel =
      if get_size h addr = 0 then []
      else (addr, get_size h addr, (rd h (addr + 8) &&& 1) == 1) ::
        eparse h (get_next_block h addr) (fuel - 1) := by
  match fuel, hfu with
  | f + 1, _ =>
    rw [eparse]
    simp

end Explicit

/-- Memory of an explicit heap holding three client blocks: X at 4128 with
payload size sx (free iff fx), Y at 4144 + sx with payload size sy
(allocated), Z at 4160 + sx + sy with payload size sz (free iff fz), between
the prologue/epilogue and the two free-list sentinels; the free blocks among
X and Z are linked in address order between the sentinels. -/
def c3mem (sx sy sz : Nat) (fx fz : Bool) : Nat → Nat := fun a =>
  if a = 4096 then 0
  else if a = 4104 then (if fx then 4144 else if fz then 4176 + sx + sy else 4112)
  else if a = 4112 then (if fz then 4176 + sx + sy else if fx then 4144 else 4096)
  else if a = 4120 then 0
  else if a = 4128 then 1
  else if a = 4136 then sx + (if fx then 0 else 1)
  else if a = 4144 then 4096
  else if a = 4152 then (if fz then 4176 + sx + sy else 4112)
  else if a = 4144 + sx then sx + (if fx then 0 else 1)
  else if a = 4152 + sx then sy + 1
  else if a = 4160 + sx + sy then sy + 1
  else if a = 4168 + sx + sy then sz + (if fz then 0 else 1)
  else if a = 4176 + sx + sy then (if fx then 4144 else 4096)
  else if a = 4184 + sx + sy then 4112
  else if a = 4176 + sx + sy + sz then sz + (if fz then 0 else 1)
  else if a = 4184 + sx + sy + sz then 1
  else 0

def c3heap (sx sy sz : Nat) (fx fz : Bool) : Explicit.EHeap :=
  ⟨c3mem sx sy sz fx fz, 4192 + sx + sy + sz, 4192 + sx + sy + sz, 4096, 4112⟩

section c3rd

variable (sx sy sz : Nat) (fx fz : Bool)

theorem c3_r4104 : Explicit.rd (c3heap sx sy sz fx fz) 4104 =
    (if fx then 4144 else if fz then 4176 + sx + sy else 4112) := by
  show c3mem sx sy sz fx fz 4104 = _
  simp only [c3mem]
  repeat rw [if_neg (by omega)]
  simp

theorem c3_r4112 : Explicit.rd (c3heap sx sy sz fx fz) 4112 =
    (if fz then 4176 + sx + sy else if fx then 4144 else 4096) := by
  show c3mem sx sy sz fx fz 4112 = _
  simp only [c3mem]
  repeat rw [if_neg (by omega)]
  simp

theorem c3_r4128 : Explicit.rd (c3heap sx sy sz fx fz) 4128 = 1 := by
  show c3mem sx sy sz fx fz 4128 = _
  simp only [c3mem]
  repeat rw [if_neg (by omega)]
  simp

theorem c3_r4136 : Explicit.rd (c3heap sx sy sz fx fz) 4136 =
    sx + (if fx then 0 else 1) := by
  show c3mem sx sy sz fx fz 4136 = _
  simp only [c3mem]
  repeat rw [if_neg (by omega)]
  simp

theorem c3_r4144 : Explicit.rd (c3heap sx sy sz fx fz) 4144 = 4096 := by
  show c3mem sx sy sz fx fz 4144 = _
  simp only [c3mem]
  repeat rw [if_neg (by omega)]
  simp

theorem c3_rY0 (hx : 16 ≤ sx) : Explicit.rd (c3heap sx sy sz fx fz) (4144 + sx) =
    sx + (if fx then 0 else 1) := by
  show c3mem sx sy sz fx fz (4144 + sx) = _
  simp only [c3mem]
  repeat rw [if_neg (by omega)]
  simp
theorem c3_rY8 (hx : 16 ≤ sx) : Explicit.rd (c3heap sx sy sz fx fz) (4152 + sx) =
    sy + 1 := by
  show c3mem sx sy sz fx fz (4152 + sx) = _
  simp only [c3mem]
  repeat rw [if_neg (by omega)]
  simp
theorem c3_rZ8 (hx : 16 ≤ sx) (hy : 16 ≤ sy) :
    Explicit.rd (c3heap sx sy sz fx fz) (4168 + sx + sy) =
    sz + (if fz then 0 else 1) := by
  show c3mem sx sy sz fx fz (4168 + sx + sy) = _
  simp only [c3mem]
  repeat rw [if_neg (by omega)]
  simp
theorem c3_rZ16 (hx : 16 ≤ sx) (hy : 16 ≤ sy) :
    Explicit.rd (c3heap sx sy sz fx fz) (4176 + sx + sy) =
    (if fx then 4144 else 4096) := by
  show c3mem sx sy sz fx fz (4176 + sx + sy) = _
  simp only [c3mem]
  repeat rw [if_neg (by omega)]
  simp
theorem c3_rE8 (hx : 16 ≤ sx) (hy : 16 ≤ sy) (hz : 16 ≤ sz) :
    Explicit.rd (c3heap sx sy sz fx fz) (4184 + sx + sy + sz) = 1 := by
  show c3mem sx sy sz fx fz (4184 + sx + sy + sz) = _
  simp only [c3mem]
  repeat rw [if_neg (by omega)]
  simp
end c3rd


/-- The heap state reached inside mm_free right after the freed middle block
Y has been marked free and its node linked before the last sentinel: two
header/footer writes and the four linking writes, where op is the previous
tail-adjacent node (the value of last->prev before the free). -/
def c3mid (sx sy sz : Nat) (fx fz : Bool) (op : Nat) : Explicit.EHeap :=
  Explicit.wr (Explicit.wr (Explicit.wr (Explicit.wr (Explicit.wr (Explicit.wr
    (c3heap sx sy sz fx fz) (4152 + sx) sy) (4160 + sx + sy) sy)
    (4160 + sx) op) (4168 + sx) 4112) 4112 (4160 + sx)) (op + 8) (4160 + sx)

theorem c3_bits_gs {s : Nat} (f : Bool) (hmod : s % 16 = 0) (hB : s < 2 ^ 32) :
    (s + (if f then 0 else 1)) &&& MM.MASK = s := by
  cases f
  · rw [show (if (false : Bool) = true then (0 : Nat) else 1) = 1 from by norm_num]
    exact MM.succ_land_mask (by unfold MM.W; omega) (by omega)
  · rw [show (if (true : Bool) = true then (0 : Nat) else 1) = 0 from by norm_num,
      Nat.add_zero]
    exact MM.even_land_mask (by unfold MM.W; omega) (by omega)

theorem c3_bits_al {s : Nat} (f : Bool) (hmod : s % 16 = 0) :
    (((s + (if f then 0 else 1)) &&& 1) == 1) = !f := by
  rw [MM.land_one_mod]
  cases f
  · rw [show (if (false : Bool) = true then (0 : Nat) else 1) = 1 from by norm_num,
      show (s + 1) % 2 = 1 from by omega]
    decide
  · rw [show (if (true : Bool) = true then (0 : Nat) else 1) = 0 from by norm_num,
      show (s + 0) % 2 = 0 from by omega]
    decide

theorem c3mid_rdY0 (sx sy sz : Nat) (fx fz : Bool) (op : Nat)
    (hlx : 16 ≤ sx) (hly : 16 ≤ sy) (hop : op + 8 ≠ 4144 + sx) :
    Explicit.rd (c3mid sx sy sz fx fz op) (4144 + sx) = sx + (if fx then 0 else 1) := by
  rw [c3mid, Explicit.rd_wr, if_neg (Ne.symm hop), Explicit.rd_wr, if_neg (by omega),
    Explicit.rd_wr, if_neg (by omega), Explicit.rd_wr, if_neg (by omega),
    Explicit.rd_wr, if_neg (by omega), Explicit.rd_wr, if_neg (by omega)]
  exact c3_rY0 sx sy sz fx fz hlx

theorem c3mid_prev (sx sy sz : Nat) (fx fz : Bool) (op : Nat)
    (hmx : sx % 16 = 0) (hlx : 16 ≤ sx) (hly : 16 ≤ sy) (hop : op + 8 ≠ 4144 + sx) :
    Explicit.is_previous_allocated (c3mid sx sy sz fx fz op) (4144 + sx) = !fx := by
  rw [Explicit.is_previous_allocated, c3mid_rdY0 sx sy sz fx fz op hlx hly hop]
  exact c3_bits_al fx hmx

theorem c3mid_gs (sx sy sz : Nat) (fx fz : Bool) (op : Nat)
    (hmy : sy % 16 = 0) (hlx : 16 ≤ sx) (hly : 16 ≤ sy) (hBy : sy < 2 ^ 32)
    (hop : op + 8 ≠ 4152 + sx) :
    Explicit.get_size (c3mid sx sy sz fx fz op) (4144 + sx) = sy := by
  rw [Explicit.get_size, show 4144 + sx + 8 = 4152 + sx from by omega]
  rw [c3mid, Explicit.rd_wr, if_neg (Ne.symm hop), Explicit.rd_wr, if_neg (by omega),
    Explicit.rd_wr, if_neg (by omega), Explicit.rd_wr, if_neg (by omega),
    Explicit.rd_wr, if_neg (by omega), Explicit.rd_wr, if_pos rfl]
  exact MM.even_land_mask (by unfold MM.W; omega) (by omega)

theorem c3mid_rdZ8 (sx sy sz : Nat) (fx fz : Bool) (op : Nat)
    (hlx : 16 ≤ sx) (hly : 16 ≤ sy) (hop : op + 8 ≠ 4168 + sx + sy) :
    Explicit.rd (c3mid sx sy sz fx fz op) (4168 + sx + sy) =
      sz + (if fz then 0 else 1) := by
  rw [c3mid, Explicit.rd_wr, if_neg (Ne.symm hop), Explicit.rd_wr, if_neg (by omega),
    Explicit.rd_wr, if_neg (by omega), Explicit.rd_wr, if_neg (by omega),
    Explicit.rd_wr, if_neg (by omega), Explicit.rd_wr, if_neg (by omega)]
  exact c3_rZ8 sx sy sz fx fz hlx hly

theorem c3mid_next (sx sy sz : Nat) (fx fz : Bool) (op : Nat)
    (hmy : sy % 16 = 0) (hmz : sz % 16 = 0) (hlx : 16 ≤ sx) (hly : 16 ≤ sy)
    (hlz : 16 ≤ sz) (hBy : sy < 2 ^ 32) (hBz : sz < 2 ^ 32)
    (hop1 : op + 8 ≠ 4152 + sx) (hop2 : op + 8 ≠ 4168 + sx + sy) :
    Explicit.is_next_allocated (c3mid sx sy sz fx fz op) (4144 + sx) = !fz := by
  rw [Explicit.is_next_allocated,
    c3mid_gs sx sy sz fx fz op hmy hlx hly hBy hop1]
  rw [show 4144 + sx + MM.ALIGNMENT + sy + 8 = 4168 + sx + sy from by
    rw [show MM.ALIGNMENT = 16 from rfl]; omega]
  rw [c3mid_rdZ8 sx sy sz fx fz op hlx hly hop2]
  rw [c3_bits_gs fz hmz hBz]
  rw [if_pos (by omega)]
  exact c3_bits_al fz hmz

theorem c3_eval_tt (sx sy sz : Nat)
    (hmx : sx % 16 = 0) (hlx : 16 ≤ sx) (hBx : sx < 2 ^ 32)
    (hmy : sy % 16 = 0) (hly : 16 ≤ sy) (hBy : sy < 2 ^ 32)
    (hmz : sz % 16 = 0) (hlz : 16 ≤ sz) (hBz : sz < 2 ^ 32) :
    Explicit.mm_free (c3heap sx sy sz false false) (4160 + sx) =
      c3mid sx sy sz false false 4096 := by
  have hA : MM.ALIGNMENT = 16 := rfl
  have hbfp : Explicit.block_from_payload (4160 + sx) = 4144 + sx := by
    rw [Explicit.block_from_payload, hA,
      MM.psub_eq_sub (by omega) (by unfold MM.W; omega)]
    omega
  have hgsY : Explicit.get_size (c3heap sx sy sz false false) (4144 + sx) = sy := by
    rw [Explicit.get_size, show 4144 + sx + 8 = 4152 + sx from by omega,
      c3_rY8 sx sy sz false false hlx]
    exact MM.succ_land_mask (by unfold MM.W; omega) (by omega)
  rw [Explicit.mm_free, if_neg (by omega)]
  simp only [hbfp, hgsY]
  simp only [Explicit.set_header_footer, Explicit.add_linked_node_to_block,
    Explicit.get_linked_node_from_block, Explicit.wr_last,
    show (c3heap sx sy sz false false).last = 4112 from rfl, hA]
  rw [show (sy ||| if (false = true) then (1 : Nat) else 0) = sy from by
    norm_num]
  rw [show 4144 + sx + 16 + sy = 4160 + sx + sy from by omega,
    show 4144 + sx + 8 = 4152 + sx from by omega,
    show 4144 + sx + 16 + 8 = 4168 + sx from by omega,
    show 4144 + sx + 16 = 4160 + sx from by omega]
  have h_op : Explicit.rd (Explicit.wr (Explicit.wr (c3heap sx sy sz false false)
      (4152 + sx) sy) (4160 + sx + sy) sy) 4112 = 4096 := by
    rw [Explicit.rd_wr, if_neg (by omega), Explicit.rd_wr, if_neg (by omega),
      c3_r4112 sx sy sz false false]
    norm_num
  rw [h_op]
  have h_in : Explicit.rd (Explicit.wr (Explicit.wr (Explicit.wr (Explicit.wr
      (Explicit.wr (c3heap sx sy sz false false) (4152 + sx) sy)
      (4160 + sx + sy) sy) (4160 + sx) 4096) (4168 + sx) 4112)
      4112 (4160 + sx)) (4160 + sx) = 4096 := by
    rw [Explicit.rd_wr, if_neg (by omega), Explicit.rd_wr, if_neg (by omega),
      Explicit.rd_wr, if_pos rfl]
  rw [h_in]
  rw [← c3mid]
  have hprev := c3mid_prev sx sy sz false false 4096 hmx hlx hly (by omega)
  have hnext := c3mid_next sx sy sz false false 4096 hmy hmz hlx hly hlz hBy hBz
    (by omega) (by omega)
  rw [if_neg (by simp [hprev, hnext])]

/-- Final heap after freeing Y when X is free and Z is allocated: coalesce
merges X and Y (header/footer sy+sx+16 at block 4128) and unlinks Y's
just-added node, leaving X's node tail-adjacent. -/
def c3fin_ft (sx sy sz : Nat) : Explicit.EHeap :=
  Explicit.wr (Explicit.wr (Explicit.wr (Explicit.wr
    (c3mid sx sy sz true false 4144) 4136 (sy + sx + 16))
    (4160 + sx + sy) (sy + sx + 16)) 4152 4112) 4112 4144

theorem c3_eval_ft (sx sy sz : Nat)
    (hmx : sx % 16 = 0) (hlx : 16 ≤ sx) (hBx : sx < 2 ^ 32)
    (hmy : sy % 16 = 0) (hly : 16 ≤ sy) (hBy : sy < 2 ^ 32)
    (hmz : sz % 16 = 0) (hlz : 16 ≤ sz) (hBz : sz < 2 ^ 32) :
    Explicit.mm_free (c3heap sx sy sz true false) (4160 + sx) =
      c3fin_ft sx sy sz := by
  have hA : MM.ALIGNMENT = 16 := rfl
  have hbfp : Explicit.block_from_payload (4160 + sx) = 4144 + sx := by
    rw [Explicit.block_from_payload, hA,
      MM.psub_eq_sub (by omega) (by unfold MM.W; omega)]
    omega
  have hgsY : Explicit.get_size (c3heap sx sy sz true false) (4144 + sx) = sy := by
    rw [Explicit.get_size, show 4144 + sx + 8 = 4152 + sx from by omega,
      c3_rY8 sx sy sz true false hlx]
    exact MM.succ_land_mask (by unfold MM.W; omega) (by omega)
  rw [Explicit.mm_free, if_neg (by omega)]
  simp only [hbfp, hgsY]
  simp only [Explicit.set_header_footer, Explicit.add_linked_node_to_block,
    Explicit.get_linked_node_from_block, Explicit.wr_last,
    show (c3heap sx sy sz true false).last = 4112 from rfl, hA]
  rw [show (sy ||| if (false = true) then (1 : Nat) else 0) = sy from by
    norm_num]
  rw [show 4144 + sx + 16 + sy = 4160 + sx + sy from by omega,
    show 4144 + sx + 8 = 4152 + sx from by omega,
    show 4144 + sx + 16 + 8 = 4168 + sx from by omega,
    show 4144 + sx + 16 = 4160 + sx from by omega]
  have h_op : Explicit.rd (Explicit.wr (Explicit.wr (c3heap sx sy sz true false)
      (4152 + sx) sy) (4160 + sx + sy) sy) 4112 = 4144 := by
    rw [Explicit.rd_wr, if_neg (by omega), Explicit.rd_wr, if_neg (by omega),
      c3_r4112 sx sy sz true false]
    norm_num
  rw [h_op]
  have h_in : Explicit.rd (Explicit.wr (Explicit.wr (Explicit.wr (Explicit.wr
      (Explicit.wr (c3heap sx sy sz true false) (4152 + sx) sy)
      (4160 + sx + sy) sy) (4160 + sx) 4144) (4168 + sx) 4112)
      4112 (4160 + sx)) (4160 + sx) = 4144 := by
    rw [Explicit.rd_wr, if_neg (by omega), Explicit.rd_wr, if_neg (by omega),
      Explicit.rd_wr, if_pos rfl]
  rw [h_in]
  rw [← c3mid]
  have hprev := c3mid_prev sx sy sz true false 4144 hmx hlx hly (by omega)
  have hgsM := c3mid_gs sx sy sz true false 4144 hmy hlx hly hBy (by omega)
  rw [if_pos (Or.inl (by simp [hprev]))]
  rw [hgsM]
  rw [Explicit.coalesce, hprev]
  rw [if_pos (by norm_num)]
  have hgps : Explicit.get_previous_size (c3mid sx sy sz true false 4144)
      (4144 + sx) = sx := by
    rw [Explicit.get_previous_size,
      c3mid_rdY0 sx sy sz true false 4144 hlx hly (by omega)]
    norm_num
    exact MM.even_land_mask (by unfold MM.W; omega) (by omega)
  have hgpb : Explicit.get_previous_block (c3mid sx sy sz true false 4144)
      (4144 + sx) = 4128 := by
    have hinner : MM.psub (4144 + sx) sx = 4144 := by
      rw [MM.psub_eq_sub (by omega) (by unfold MM.W; omega)]; omega
    rw [Explicit.get_previous_block, hgps, hA, hinner,
      MM.psub_eq_sub (by omega) (by unfold MM.W; omega)]
  simp only [hgps, hgpb, hA, Explicit.set_header_footer,
    Explicit.delete_linked_node_from_block, Explicit.get_linked_node_from_block]
  rw [show (sy + sx + 16 ||| if (false = true) then (1 : Nat) else 0) =
    sy + sx + 16 from by norm_num]
  rw [show 4128 + 8 = 4136 from by norm_num,
    show 4128 + 16 + (sy + sx + 16) = 4160 + sx + sy from by omega,
    show 4144 + sx + 16 = 4160 + sx from by omega]
  have h_p : Explicit.rd (Explicit.wr (Explicit.wr
      (c3mid sx sy sz true false 4144) 4136 (sy + sx + 16))
      (4160 + sx + sy) (sy + sx + 16)) (4160 + sx) = 4144 := by
    rw [Explicit.rd_wr, if_neg (by omega), Explicit.rd_wr, if_neg (by omega)]
    rw [c3mid, Explicit.rd_wr, if_neg (by omega), Explicit.rd_wr,
      if_neg (by omega), Explicit.rd_wr, if_neg (by omega),
      Explicit.rd_wr, if_pos rfl]
  have h_n : Explicit.rd (Explicit.wr (Explicit.wr
      (c3mid sx sy sz true false 4144) 4136 (sy + sx + 16))
      (4160 + sx + sy) (sy + sx + 16)) (4168 + sx) = 4112 := by
    rw [Explicit.rd_wr, if_neg (by omega), Explicit.rd_wr, if_neg (by omega)]
    rw [c3mid, Explicit.rd_wr, if_neg (by omega), Explicit.rd_wr,
      if_neg (by omega), Explicit.rd_wr, if_pos rfl]
  rw [show 4160 + sx + 8 = 4168 + sx from by omega]
  rw [h_p, h_n]
  rw [show (4144 : Nat) + 8 = 4152 from by norm_num]
  have h_n2 : Explicit.rd (Explicit.wr (Explicit.wr (Explicit.wr
      (c3mid sx sy sz true false 4144) 4136 (sy + sx + 16))
      (4160 + sx + sy) (sy + sx + 16)) 4152 4112) (4168 + sx) = 4112 := by
    rw [Explicit.rd_wr, if_neg (by omega)]
    exact h_n
  have h_p2 : Explicit.rd (Explicit.wr (Explicit.wr (Explicit.wr
      (c3mid sx sy sz true false 4144) 4136 (sy + sx + 16))
      (4160 + sx + sy) (sy + sx + 16)) 4152 4112) (4160 + sx) = 4144 := by
    rw [Explicit.rd_wr, if_neg (by omega)]
    exact h_p
  rw [h_n2, h_p2]
  rw [← c3fin_ft]
  have hnext2 : Explicit.is_next_allocated (c3fin_ft sx sy sz)
      (4144 + sx) = true := by
    rw [Explicit.is_next_allocated]
    have hgs : Explicit.get_size (c3fin_ft sx sy sz) (4144 + sx) = sy := by
      rw [Explicit.get_size, show 4144 + sx + 8 = 4152 + sx from by omega,
        c3fin_ft, c3mid]
      repeat rw [Explicit.rd_wr, if_neg (by omega)]
      rw [Explicit.rd_wr, if_pos rfl]
      exact MM.even_land_mask (by unfold MM.W; omega) (by omega)
    rw [hgs, hA, show 4144 + sx + 16 + sy + 8 = 4168 + sx + sy from by omega]
    have hrd : Explicit.rd (c3fin_ft sx sy sz) (4168 + sx + sy) = sz + 1 := by
      rw [c3fin_ft, c3mid]
      repeat rw [Explicit.rd_wr, if_neg (by omega)]
      rw [c3_rZ8 sx sy sz true false hlx hly]
      norm_num
    rw [hrd]
    rw [MM.succ_land_mask (by unfold MM.W; omega) (by omega)]
    rw [if_pos (by omega), MM.land_one_mod, show (sz + 1) % 2 = 1 from by omega]
    decide
  rw [if_neg (by simp [hnext2])]

/-- Final heap after freeing Y when X is allocated and Z is free: coalesce
merges Y and Z (header at Y rewritten to sy+sz+16) and unlinks Z's node,
leaving Y's just-added node tail-adjacent. -/
def c3fin_tf (sx sy sz : Nat) : Explicit.EHeap :=
  Explicit.wr (Explicit.wr (Explicit.wr (Explicit.wr
    (c3mid sx sy sz false true (4176 + sx + sy)) (4152 + sx) (sy + sz + 16))
    (4176 + sx + sy + sz) (sy + sz + 16)) 4104 (4160 + sx)) (4160 + sx) 4096

theorem c3_eval_tf (sx sy sz : Nat)
    (hmx : sx % 16 = 0) (hlx : 16 ≤ sx) (hBx : sx < 2 ^ 32)
    (hmy : sy % 16 = 0) (hly : 16 ≤ sy) (hBy : sy < 2 ^ 32)
    (hmz : sz % 16 = 0) (hlz : 16 ≤ sz) (hBz : sz < 2 ^ 32) :
    Explicit.mm_free (c3heap sx sy sz false true) (4160 + sx) =
      c3fin_tf sx sy sz := by
  have hA : MM.ALIGNMENT = 16 := rfl
  have hbfp : Explicit.block_from_payload (4160 + sx) = 4144 + sx := by
    rw [Explicit.block_from_payload, hA,
      MM.psub_eq_sub (by omega) (by unfold MM.W; omega)]
    omega
  have hgsY : Explicit.get_size (c3heap sx sy sz false true) (4144 + sx) = sy := by
    rw [Explicit.get_size, show 4144 + sx + 8 = 4152 + sx from by omega,
      c3_rY8 sx sy sz false true hlx]
    exact MM.succ_land_mask (by unfold MM.W; omega) (by omega)
  rw [Explicit.mm_free, if_neg (by omega)]
  simp only [hbfp, hgsY]
  simp only [Explicit.set_header_footer, Explicit.add_linked_node_to_block,
    Explicit.get_linked_node_from_block, Explicit.wr_last,
    show (c3heap sx sy sz false true).last = 4112 from rfl, hA]
  rw [show (sy ||| if (false = true) then (1 : Nat) else 0) = sy from by
    norm_num]
  rw [show 4144 + sx + 16 + sy = 4160 + sx + sy from by omega,
    show 4144 + sx + 8 = 4152 + sx from by omega,
    show 4144 + sx + 16 + 8 = 4168 + sx from by omega,
    show 4144 + sx + 16 = 4160 + sx from by omega]
  have h_op : Explicit.rd (Explicit.wr (Explicit.wr (c3heap sx sy sz false true)
      (4152 + sx) sy) (4160 + sx + sy) sy) 4112 = 4176 + sx + sy := by
    rw [Explicit.rd_wr, if_neg (by omega), Explicit.rd_wr, if_neg (by omega),
      c3_r4112 sx sy sz false true]
    norm_num
  rw [h_op]
  have h_in : Explicit.rd (Explicit.wr (Explicit.wr (Explicit.wr (Explicit.wr
      (Explicit.wr (c3heap sx sy sz false true) (4152 + sx) sy)
      (4160 + sx + sy) sy) (4160 + sx) (4176 + sx + sy)) (4168 + sx) 4112)
      4112 (4160 + sx)) (4160 + sx) = 4176 + sx + sy := by
    rw [Explicit.rd_wr, if_neg (by omega), Explicit.rd_wr, if_neg (by omega),
      Explicit.rd_wr, if_pos rfl]
  rw [h_in]
  rw [← c3mid]
  have hprev := c3mid_prev sx sy sz false true (4176 + sx + sy) hmx hlx hly
    (by omega)
  have hnext := c3mid_next sx sy sz false true (4176 + sx + sy) hmy hmz hlx hly
    hlz hBy hBz (by omega) (by omega)
  have hgsM := c3mid_gs sx sy sz false true (4176 + sx + sy) hmy hlx hly hBy
    (by omega)
  rw [if_pos (Or.inr (by simp [hnext]))]
  rw [hgsM]
  rw [Explicit.coalesce, hprev, hnext]
  rw [if_neg (by decide)]
  rw [if_pos (by decide)]
  have hgnb : Explicit.get_next_block (c3mid sx sy sz false true (4176 + sx + sy))
      (4144 + sx) = 4160 + sx + sy := by
    rw [Explicit.get_next_block, hgsM, hA]
    omega
  have hgsZ : Explicit.get_size (c3mid sx sy sz false true (4176 + sx + sy))
      (4160 + sx + sy) = sz := by
    rw [Explicit.get_size, show 4160 + sx + sy + 8 = 4168 + sx + sy from by omega,
      c3mid_rdZ8 sx sy sz false true (4176 + sx + sy) hlx hly (by omega)]
    norm_num
    exact MM.even_land_mask (by unfold MM.W; omega) (by omega)
  simp only [hgnb, hgsZ, hA, Explicit.set_header_footer,
    Explicit.delete_linked_node_from_block, Explicit.get_linked_node_from_block]
  rw [show (sy + sz + 16 ||| if (false = true) then (1 : Nat) else 0) =
    sy + sz + 16 from by norm_num]
  rw [show 4144 + sx + 8 = 4152 + sx from by omega,
    show 4144 + sx + 16 + (sy + sz + 16) = 4176 + sx + sy + sz from by omega,
    show 4160 + sx + sy + 16 + 8 = 4184 + sx + sy from by omega,
    show 4160 + sx + sy + 16 = 4176 + sx + sy from by omega]
  have h_p3 : Explicit.rd (Explicit.wr (Explicit.wr
      (c3mid sx sy sz false true (4176 + sx + sy)) (4152 + sx) (sy + sz + 16))
      (4176 + sx + sy + sz) (sy + sz + 16)) (4176 + sx + sy) = 4096 := by
    rw [Explicit.rd_wr, if_neg (by omega), Explicit.rd_wr, if_neg (by omega),
      c3mid]
    repeat rw [Explicit.rd_wr, if_neg (by omega)]
    rw [c3_rZ16 sx sy sz false true hlx hly]
    norm_num
  have h_n3 : Explicit.rd (Explicit.wr (Explicit.wr
      (c3mid sx sy sz false true (4176 + sx + sy)) (4152 + sx) (sy + sz + 16))
      (4176 + sx + sy + sz) (sy + sz + 16)) (4184 + sx + sy) = 4160 + sx := by
    rw [Explicit.rd_wr, if_neg (by omega), Explicit.rd_wr, if_neg (by omega),
      c3mid, Explicit.rd_wr, if_pos (by omega)]
  rw [h_p3, h_n3]
  rw [show (4096 : Nat) + 8 = 4104 from by norm_num]
  have h_n4 : Explicit.rd (Explicit.wr (Explicit.wr (Explicit.wr
      (c3mid sx sy sz false true (4176 + sx + sy)) (4152 + sx) (sy + sz + 16))
      (4176 + sx + sy + sz) (sy + sz + 16)) 4104 (4160 + sx))
      (4184 + sx + sy) = 4160 + sx := by
    rw [Explicit.rd_wr, if_neg (by omega)]
    exact h_n3
  have h_p4 : Explicit.rd (Explicit.wr (Explicit.wr (Explicit.wr
      (c3mid sx sy sz false true (4176 + sx + sy)) (4152 + sx) (sy + sz + 16))
      (4176 + sx + sy + sz) (sy + sz + 16)) 4104 (4160 + sx))
      (4176 + sx + sy) = 4096 := by
    rw [Explicit.rd_wr, if_neg (by omega)]
    exact h_p3
  rw [h_n4, h_p4]
  rw [c3fin_tf]

/-- Intermediate heap in the both-neighbors-free case: X and Y merged
(header/footer sy+sx+16 at 4128) and Y's node unlinked again. -/
def c3half_ff (sx sy sz : Nat) : Explicit.EHeap :=
  Explicit.wr (Explicit.wr (Explicit.wr (Explicit.wr
    (c3mid sx sy sz true true (4176 + sx + sy)) 4136 (sy + sx + 16))
    (4160 + sx + sy) (sy + sx + 16)) (4184 + sx + sy) 4112) 4112 (4176 + sx + sy)

/-- Final heap after freeing Y when both X and Z are free: all three blocks
merged into one free block at 4128 (header/footer sy+sx+16+sz+16) and Z's
node unlinked, leaving only X's node on the free list. -/
def c3fin_ff (sx sy sz : Nat) : Explicit.EHeap :=
  Explicit.wr (Explicit.wr (Explicit.wr (Explicit.wr
    (c3half_ff sx sy sz) 4136 (sy + sx + 16 + sz + 16))
    (4176 + sx + sy + sz) (sy + sx + 16 + sz + 16)) 4152 4112) 4112 4144

theorem c3_eval_ff (sx sy sz : Nat)
    (hmx : sx % 16 = 0) (hlx : 16 ≤ sx) (hBx : sx < 2 ^ 32)
    (hmy : sy % 16 = 0) (hly : 16 ≤ sy) (hBy : sy < 2 ^ 32)
    (hmz : sz % 16 = 0) (hlz : 16 ≤ sz) (hBz : sz < 2 ^ 32) :
    Explicit.mm_free (c3heap sx sy sz true true) (4160 + sx) =
      c3fin_ff sx sy sz := by
  have hA : MM.ALIGNMENT = 16 := rfl
  have hbfp : Explicit.block_from_payload (4160 + sx) = 4144 + sx := by
    rw [Explicit.block_from_payload, hA,
      MM.psub_eq_sub (by omega) (by unfold MM.W; omega)]
    omega
  have hgsY : Explicit.get_size (c3heap sx sy sz true true) (4144 + sx) = sy := by
    rw [Explicit.get_size, show 4144 + sx + 8 = 4152 + sx from by omega,
      c3_rY8 sx sy sz true true hlx]
    exact MM.succ_land_mask (by unfold MM.W; omega) (by omega)
  rw [Explicit.mm_free, if_neg (by omega)]
  simp only [hbfp, hgsY]
  simp only [Explicit.set_header_footer, Explicit.add_linked_node_to_block,
    Explicit.get_linked_node_from_block, Explicit.wr_last,
    show (c3heap sx sy sz true true).last = 4112 from rfl, hA]
  rw [show (sy ||| if (false = true) then (1 : Nat) else 0) = sy from by
    norm_num]
  rw [show 4144 + sx + 16 + sy = 4160 + sx + sy from by omega,
    show 4144 + sx + 8 = 4152 + sx from by omega,
    show 4144 + sx + 16 + 8 = 4168 + sx from by omega,
    show 4144 + sx + 16 = 4160 + sx from by omega]
  have h_op : Explicit.rd (Explicit.wr (Explicit.wr (c3heap sx sy sz true true)
      (4152 + sx) sy) (4160 + sx + sy) sy) 4112 = 4176 + sx + sy := by
    rw [Explicit.rd_wr, if_neg (by omega), Explicit.rd_wr, if_neg (by omega),
      c3_r4112 sx sy sz true true]
    norm_num
  rw [h_op]
  have h_in : Explicit.rd (Explicit.wr (Explicit.wr (Explicit.wr (Explicit.wr
      (Explicit.wr (c3heap sx sy sz true true) (4152 + sx) sy)
      (4160 + sx + sy) sy) (4160 + sx) (4176 + sx + sy)) (4168 + sx) 4112)
      4112 (4160 + sx)) (4160 + sx) = 4176 + sx + sy := by
    rw [Explicit.rd_wr, if_neg (by omega), Explicit.rd_wr, if_neg (by omega),
      Explicit.rd_wr, if_pos rfl]
  rw [h_in]
  rw [← c3mid]
  have hprev := c3mid_prev sx sy sz true true (4176 + sx + sy) hmx hlx hly
    (by omega)
  have hgsM := c3mid_gs sx sy sz true true (4176 + sx + sy) hmy hlx hly hBy
    (by omega)
  rw [if_pos (Or.inl (by simp [hprev]))]
  rw [hgsM]
  rw [Explicit.coalesce, hprev]
  rw [if_pos (by decide)]
  have hgps : Explicit.get_previous_size (c3mid sx sy sz true true
      (4176 + sx + sy)) (4144 + sx) = sx := by
    rw [Explicit.get_previous_size,
      c3mid_rdY0 sx sy sz true true (4176 + sx + sy) hlx hly (by omega)]
    norm_num
    exact MM.even_land_mask (by unfold MM.W; omega) (by omega)
  have hgpb : Explicit.get_previous_block (c3mid sx sy sz true true
      (4176 + sx + sy)) (4144 + sx) = 4128 := by
    have hinner : MM.psub (4144 + sx) sx = 4144 := by
      rw [MM.psub_eq_sub (by omega) (by unfold MM.W; omega)]; omega
    rw [Explicit.get_previous_block, hgps, hA, hinner,
      MM.psub_eq_sub (by omega) (by unfold MM.W; omega)]
  simp only [hgps, hgpb, hA, Explicit.set_header_footer,
    Explicit.delete_linked_node_from_block, Explicit.get_linked_node_from_block]
  rw [show (sy + sx + 16 ||| if (false = true) then (1 : Nat) else 0) =
    sy + sx + 16 from by norm_num]
  rw [show 4128 + 8 = 4136 from by norm_num,
    show 4128 + 16 + (sy + sx + 16) = 4160 + sx + sy from by omega,
    show 4144 + sx + 16 = 4160 + sx from by omega]
  have h_p : Explicit.rd (Explicit.wr (Explicit.wr
      (c3mid sx sy sz true true (4176 + sx + sy)) 4136 (sy + sx + 16))
      (4160 + sx + sy) (sy + sx + 16)) (4160 + sx) = 4176 + sx + sy := by
    rw [Explicit.rd_wr, if_neg (by omega), Explicit.rd_wr, if_neg (by omega),
      c3mid]
    repeat rw [Explicit.rd_wr, if_neg (by omega)]
    rw [Explicit.rd_wr, if_pos rfl]
  have h_n : Explicit.rd (Explicit.wr (Explicit.wr
      (c3mid sx sy sz true true (4176 + sx + sy)) 4136 (sy + sx + 16))
      (4160 + sx + sy) (sy + sx + 16)) (4168 + sx) = 4112 := by
    rw [Explicit.rd_wr, if_neg (by omega), Explicit.rd_wr, if_neg (by omega),
      c3mid]
    repeat rw [Explicit.rd_wr, if_neg (by omega)]
    rw [Explicit.rd_wr, if_pos rfl]
  rw [show 4160 + sx + 8 = 4168 + sx from by omega]
  rw [h_p, h_n]
  rw [show 4176 + sx + sy + 8 = 4184 + sx + sy from by omega]
  have h_n2 : Explicit.rd (Explicit.wr (Explicit.wr (Explicit.wr
      (c3mid sx sy sz true true (4176 + sx + sy)) 4136 (sy + sx + 16))
      (4160 + sx + sy) (sy + sx + 16)) (4184 + sx + sy) 4112)
      (4168 + sx) = 4112 := by
    rw [Explicit.rd_wr, if_neg (by omega)]
    exact h_n
  have h_p2 : Explicit.rd (Explicit.wr (Explicit.wr (Explicit.wr
      (c3mid sx sy sz true true (4176 + sx + sy)) 4136 (sy + sx + 16))
      (4160 + sx + sy) (sy + sx + 16)) (4184 + sx + sy) 4112)
      (4160 + sx) = 4176 + sx + sy := by
    rw [Explicit.rd_wr, if_neg (by omega)]
    exact h_p
  rw [h_n2, h_p2]
  rw [← c3half_ff]
  have hgs2 : Explicit.get_size (c3half_ff sx sy sz) (4144 + sx) = sy := by
    rw [Explicit.get_size, show 4144 + sx + 8 = 4152 + sx from by omega,
      c3half_ff, c3mid]
    repeat rw [Explicit.rd_wr, if_neg (by omega)]
    rw [Explicit.rd_wr, if_pos rfl]
    exact MM.even_land_mask (by unfold MM.W; omega) (by omega)
  have hrdZ : Explicit.rd (c3half_ff sx sy sz) (4168 + sx + sy) = sz := by
    rw [c3half_ff, c3mid]
    repeat rw [Explicit.rd_wr, if_neg (by omega)]
    rw [c3_rZ8 sx sy sz true true hlx hly]
    norm_num
  have hnext2 : Explicit.is_next_allocated (c3half_ff sx sy sz)
      (4144 + sx) = false := by
    rw [Explicit.is_next_allocated, hgs2, hA,
      show 4144 + sx + 16 + sy + 8 = 4168 + sx + sy from by omega, hrdZ,
      MM.even_land_mask (by unfold MM.W; omega) (by omega),
      if_pos (by omega), MM.land_one_mod, show sz % 2 = 0 from by omega]
    decide
  rw [if_pos (by simp [hnext2])]
  have hgnb2 : Explicit.get_next_block (c3half_ff sx sy sz) (4144 + sx) =
      4160 + sx + sy := by
    rw [Explicit.get_next_block, hgs2, hA]
    omega
  have hgsZ2 : Explicit.get_size (c3half_ff sx sy sz) (4160 + sx + sy) = sz := by
    rw [Explicit.get_size, show 4160 + sx + sy + 8 = 4168 + sx + sy from by omega,
      hrdZ]
    exact MM.even_land_mask (by unfold MM.W; omega) (by omega)
  have hgps2 : Explicit.get_previous_size (c3half_ff sx sy sz) (4144 + sx) =
      sx := by
    rw [Explicit.get_previous_size, c3half_ff, c3mid]
    repeat rw [Explicit.rd_wr, if_neg (by omega)]
    rw [c3_rY0 sx sy sz true true hlx]
    norm_num
    exact MM.even_land_mask (by unfold MM.W; omega) (by omega)
  have hgpb2 : Explicit.get_previous_block (c3half_ff sx sy sz) (4144 + sx) =
      4128 := by
    have hinner : MM.psub (4144 + sx) sx = 4144 := by
      rw [MM.psub_eq_sub (by omega) (by unfold MM.W; omega)]; omega
    rw [Explicit.get_previous_block, hgps2, hA, hinner,
      MM.psub_eq_sub (by omega) (by unfold MM.W; omega)]
  simp only [hgnb2, hgsZ2, hgpb2, hA, Explicit.set_header_footer,
    Explicit.delete_linked_node_from_block, Explicit.get_linked_node_from_block]
  rw [show (sy + sx + 16 + sz + 16 ||| if (false = true) then (1 : Nat) else 0) =
    sy + sx + 16 + sz + 16 from by norm_num]
  rw [show 4128 + 8 = 4136 from by norm_num,
    show 4128 + 16 + (sy + sx + 16 + sz + 16) = 4176 + sx + sy + sz from by omega,
    show 4160 + sx + sy + 16 + 8 = 4184 + sx + sy from by omega,
    show 4160 + sx + sy + 16 = 4176 + sx + sy from by omega]
  have h_p5 : Explicit.rd (Explicit.wr (Explicit.wr (c3half_ff sx sy sz)
      4136 (sy + sx + 16 + sz + 16)) (4176 + sx + sy + sz)
      (sy + sx + 16 + sz + 16)) (4176 + sx + sy) = 4144 := by
    rw [Explicit.rd_wr, if_neg (by omega), Explicit.rd_wr, if_neg (by omega),
      c3half_ff, c3mid]
    repeat rw [Explicit.rd_wr, if_neg (by omega)]
    rw [c3_rZ16 sx sy sz true true hlx hly]
    norm_num
  have h_n5 : Explicit.rd (Explicit.wr (Explicit.wr (c3half_ff sx sy sz)
      4136 (sy + sx + 16 + sz + 16)) (4176 + sx + sy + sz)
      (sy + sx + 16 + sz + 16)) (4184 + sx + sy) = 4112 := by
    rw [Explicit.rd_wr, if_neg (by omega), Explicit.rd_wr, if_neg (by omega),
      c3half_ff]
    rw [Explicit.rd_wr, if_neg (by omega), Explicit.rd_wr, if_pos rfl]
  rw [h_p5, h_n5]
  rw [show (4144 : Nat) + 8 = 4152 from by norm_num]
  have h_n6 : Explicit.rd (Explicit.wr (Explicit.wr (Explicit.wr
      (c3half_ff sx sy sz) 4136 (sy + sx + 16 + sz + 16))
      (4176 + sx + sy + sz) (sy + sx + 16 + sz + 16)) 4152 4112)
      (4184 + sx + sy) = 4112 := by
    rw [Explicit.rd_wr, if_neg (by omega)]
    exact h_n5
  have h_p6 : Explicit.rd (Explicit.wr (Explicit.wr (Explicit.wr
      (c3half_ff sx sy sz) 4136 (sy + sx + 16 + sz + 16))
      (4176 + sx + sy + sz) (sy + sx + 16 + sz + 16)) 4152 4112)
      (4176 + sx + sy) = 4144 := by
    rw [Explicit.rd_wr, if_neg (by omega)]
    exact h_p5
  rw [h_n6, h_p6]
  rw [c3fin_ff]

theorem eparse_nil_of_zero (h : Explicit.EHeap) (addr : Nat)
    (hz : Explicit.get_size h addr = 0) :
    ∀ fuel, Explicit.eparse h addr fuel = [] := by
  intro fuel
  cases fuel with
  | zero => rfl
  | succ n => rw [Explicit.eparse, if_pos hz]

theorem c3_parse_tt (sx sy sz : Nat)
    (hmx : sx % 16 = 0) (hlx : 16 ≤ sx) (hBx : sx < 2 ^ 32)
    (hmy : sy % 16 = 0) (hly : 16 ≤ sy) (hBy : sy < 2 ^ 32)
    (hmz : sz % 16 = 0) (hlz : 16 ≤ sz) (hBz : sz < 2 ^ 32) :
    ∀ fuel, 3 ≤ fuel →
    Explicit.eparse (c3mid sx sy sz false false 4096) 4128 fuel =
      [(4128, sx, true), (4144 + sx, sy, false), (4160 + sx + sy, sz, true)] := by
  intro fuel hfu
  have hA : MM.ALIGNMENT = 16 := rfl
  have t1 : Explicit.rd (c3mid sx sy sz false false 4096) 4136 = sx + 1 := by
    rw [c3mid]
    repeat rw [Explicit.rd_wr, if_neg (by omega)]
    rw [c3_r4136 sx sy sz false false]
    norm_num
  have t2 : Explicit.rd (c3mid sx sy sz false false 4096) (4152 + sx) = sy := by
    rw [c3mid]
    repeat rw [Explicit.rd_wr, if_neg (by omega)]
    rw [Explicit.rd_wr, if_pos rfl]
  have t3 : Explicit.rd (c3mid sx sy sz false false 4096) (4168 + sx + sy) =
      sz + 1 := by
    rw [c3mid]
    repeat rw [Explicit.rd_wr, if_neg (by omega)]
    rw [c3_rZ8 sx sy sz false false hlx hly]
    norm_num
  have t4 : Explicit.rd (c3mid sx sy sz false false 4096) (4184 + sx + sy + sz) =
      1 := by
    rw [c3mid]
    repeat rw [Explicit.rd_wr, if_neg (by omega)]
    rw [c3_rE8 sx sy sz false false hlx hly hlz]
  have hs1 : Explicit.get_size (c3mid sx sy sz false false 4096) 4128 = sx := by
    rw [Explicit.get_size, show (4128 : Nat) + 8 = 4136 from by norm_num, t1,
      MM.succ_land_mask (by unfold MM.W; omega) (by omega)]
  have hs2 : Explicit.get_size (c3mid sx sy sz false false 4096) (4144 + sx) =
      sy := by
    rw [Explicit.get_size, show 4144 + sx + 8 = 4152 + sx from by omega, t2]
    exact MM.even_land_mask (by unfold MM.W; omega) (by omega)
  have hs3 : Explicit.get_size (c3mid sx sy sz false false 4096)
      (4160 + sx + sy) = sz := by
    rw [Explicit.get_size, show 4160 + sx + sy + 8 = 4168 + sx + sy from by omega,
      t3, MM.succ_land_mask (by unfold MM.W; omega) (by omega)]
  have hs4 : Explicit.get_size (c3mid sx sy sz false false 4096)
      (4176 + sx + sy + sz) = 0 := by
    rw [Explicit.get_size,
      show 4176 + sx + sy + sz + 8 = 4184 + sx + sy + sz from by omega, t4]
    have h1 : (0 + 1) &&& MM.MASK = 0 :=
      MM.succ_land_mask (by unfold MM.W; omega) (by omega)
    simpa using h1
  rw [Explicit.eparse_step _ _ _ (by omega), if_neg (by rw [hs1]; omega), hs1]
  rw [show (4128 : Nat) + 8 = 4136 from by norm_num, t1, MM.land_one_mod,
    show (sx + 1) % 2 = 1 from by omega,
    show ((1 : Nat) == 1) = true from rfl]
  rw [Explicit.get_next_block, hs1, hA,
    show 4128 + 16 + sx = 4144 + sx from by omega]
  rw [Explicit.eparse_step _ _ _ (by omega), if_neg (by rw [hs2]; omega), hs2]
  rw [show 4144 + sx + 8 = 4152 + sx from by omega, t2, MM.land_one_mod,
    show sy % 2 = 0 from by omega,
    show ((0 : Nat) == 1) = false from rfl]
  rw [Explicit.get_next_block, hs2, hA,
    show 4144 + sx + 16 + sy = 4160 + sx + sy from by omega]
  rw [Explicit.eparse_step _ _ _ (by omega), if_neg (by rw [hs3]; omega), hs3]
  rw [show 4160 + sx + sy + 8 = 4168 + sx + sy from by omega, t3,
    MM.land_one_mod, show (sz + 1) % 2 = 1 from by omega,
    show ((1 : Nat) == 1) = true from rfl]
  rw [Explicit.get_next_block, hs3, hA,
    show 4160 + sx + sy + 16 + sz = 4176 + sx + sy + sz from by omega]
  rw [eparse_nil_of_zero _ _ hs4]

theorem c3_parse_ft (sx sy sz : Nat)
    (hmx : sx % 16 = 0) (hlx : 16 ≤ sx) (hBx : sx < 2 ^ 32)
    (hmy : sy % 16 = 0) (hly : 16 ≤ sy) (hBy : sy < 2 ^ 32)
    (hmz : sz % 16 = 0) (hlz : 16 ≤ sz) (hBz : sz < 2 ^ 32) :
    ∀ fuel, 3 ≤ fuel →
    Explicit.eparse (c3fin_ft sx sy sz) 4128 fuel =
      [(4128, sy + sx + 16, false), (4160 + sx + sy, sz, true)] := by
  intro fuel hfu
  have hA : MM.ALIGNMENT = 16 := rfl
  have f1 : Explicit.rd (c3fin_ft sx sy sz) 4136 = sy + sx + 16 := by
    rw [c3fin_ft]
    repeat rw [Explicit.rd_wr, if_neg (by omega)]
    rw [Explicit.rd_wr, if_pos rfl]
  have f2 : Explicit.rd (c3fin_ft sx sy sz) (4168 + sx + sy) = sz + 1 := by
    rw [c3fin_ft, c3mid]
    repeat rw [Explicit.rd_wr, if_neg (by omega)]
    rw [c3_rZ8 sx sy sz true false hlx hly]
    norm_num
  have f3 : Explicit.rd (c3fin_ft sx sy sz) (4184 + sx + sy + sz) = 1 := by
    rw [c3fin_ft, c3mid]
    repeat rw [Explicit.rd_wr, if_neg (by omega)]
    rw [c3_rE8 sx sy sz true false hlx hly hlz]
  have hs1 : Explicit.get_size (c3fin_ft sx sy sz) 4128 = sy + sx + 16 := by
    rw [Explicit.get_size, show (4128 : Nat) + 8 = 4136 from by norm_num, f1]
    exact MM.even_land_mask (by unfold MM.W; omega) (by omega)
  have hs2 : Explicit.get_size (c3fin_ft sx sy sz) (4160 + sx + sy) = sz := by
    rw [Explicit.get_size, show 4160 + sx + sy + 8 = 4168 + sx + sy from by omega,
      f2, MM.succ_land_mask (by unfold MM.W; omega) (by omega)]
  have hs3 : Explicit.get_size (c3fin_ft sx sy sz) (4176 + sx + sy + sz) = 0 := by
    rw [Explicit.get_size,
      show 4176 + sx + sy + sz + 8 = 4184 + sx + sy + sz from by omega, f3]
    have h1 : (0 + 1) &&& MM.MASK = 0 :=
      MM.succ_land_mask (by unfold MM.W; omega) (by omega)
    simpa using h1
  rw [Explicit.eparse_step _ _ _ (by omega), if_neg (by rw [hs1]; omega), hs1]
  rw [show (4128 : Nat) + 8 = 4136 from by norm_num, f1, MM.land_one_mod,
    show (sy + sx + 16) % 2 = 0 from by omega,
    show ((0 : Nat) == 1) = false from rfl]
  rw [Explicit.get_next_block, hs1, hA,
    show 4128 + 16 + (sy + sx + 16) = 4160 + sx + sy from by omega]
  rw [Explicit.eparse_step _ _ _ (by omega), if_neg (by rw [hs2]; omega), hs2]
  rw [show 4160 + sx + sy + 8 = 4168 + sx + sy from by omega, f2,
    MM.land_one_mod, show (sz + 1) % 2 = 1 from by omega,
    show ((1 : Nat) == 1) = true from rfl]
  rw [Explicit.get_next_block, hs2, hA,
    show 4160 + sx + sy + 16 + sz = 4176 + sx + sy + sz from by omega]
  rw [eparse_nil_of_zero _ _ hs3]

theorem c3_parse_tf (sx sy sz : Nat)
    (hmx : sx % 16 = 0) (hlx : 16 ≤ sx) (hBx : sx < 2 ^ 32)
    (hmy : sy % 16 = 0) (hly : 16 ≤ sy) (hBy : sy < 2 ^ 32)
    (hmz : sz % 16 = 0) (hlz : 16 ≤ sz) (hBz : sz < 2 ^ 32) :
    ∀ fuel, 3 ≤ fuel →
    Explicit.eparse (c3fin_tf sx sy sz) 4128 fuel =
      [(4128, sx, true), (4144 + sx, sy + sz + 16, false)] := by
  intro fuel hfu
  have hA : MM.ALIGNMENT = 16 := rfl
  have g1 : Explicit.rd (c3fin_tf sx sy sz) 4136 = sx + 1 := by
    rw [c3fin_tf, c3mid]
    repeat rw [Explicit.rd_wr, if_neg (by omega)]
    rw [c3_r4136 sx sy sz false true]
    norm_num
  have g2 : Explicit.rd (c3fin_tf sx sy sz) (4152 + sx) = sy + sz + 16 := by
    rw [c3fin_tf]
    repeat rw [Explicit.rd_wr, if_neg (by omega)]
    rw [Explicit.rd_wr, if_pos rfl]
  have g3 : Explicit.rd (c3fin_tf sx sy sz) (4184 + sx + sy + sz) = 1 := by
    rw [c3fin_tf, c3mid]
    repeat rw [Explicit.rd_wr, if_neg (by omega)]
    rw [c3_rE8 sx sy sz false true hlx hly hlz]
  have hs1 : Explicit.get_size (c3fin_tf sx sy sz) 4128 = sx := by
    rw [Explicit.get_size, show (4128 : Nat) + 8 = 4136 from by norm_num, g1,
      MM.succ_land_mask (by unfold MM.W; omega) (by omega)]
  have hs2 : Explicit.get_size (c3fin_tf sx sy sz) (4144 + sx) =
      sy + sz + 16 := by
    rw [Explicit.get_size, show 4144 + sx + 8 = 4152 + sx from by omega, g2]
    exact MM.even_land_mask (by unfold MM.W; omega) (by omega)
  have hs3 : Explicit.get_size (c3fin_tf sx sy sz) (4176 + sx + sy + sz) = 0 := by
    rw [Explicit.get_size,
      show 4176 + sx + sy + sz + 8 = 4184 + sx + sy + sz from by omega, g3]
    have h1 : (0 + 1) &&& MM.MASK = 0 :=
      MM.succ_land_mask (by unfold MM.W; omega) (by omega)
    simpa using h1
  rw [Explicit.eparse_step _ _ _ (by omega), if_neg (by rw [hs1]; omega), hs1]
  rw [show (4128 : Nat) + 8 = 4136 from by norm_num, g1, MM.land_one_mod,
    show (sx + 1) % 2 = 1 from by omega,
    show ((1 : Nat) == 1) = true from rfl]
  rw [Explicit.get_next_block, hs1, hA,
    show 4128 + 16 + sx = 4144 + sx from by omega]
  rw [Explicit.eparse_step _ _ _ (by omega), if_neg (by rw [hs2]; omega), hs2]
  rw [show 4144 + sx + 8 = 4152 + sx from by omega, g2, MM.land_one_mod,
    show (sy + sz + 16) % 2 = 0 from by omega,
    show ((0 : Nat) == 1) = false from rfl]
  rw [Explicit.get_next_block, hs2, hA,
    show 4144 + sx + 16 + (sy + sz + 16) = 4176 + sx + sy + sz from by omega]
  rw [eparse_nil_of_zero _ _ hs3]

theorem c3_parse_ff (sx sy sz : Nat)
    (hmx : sx % 16 = 0) (hlx : 16 ≤ sx) (hBx : sx < 2 ^ 32)
    (hmy : sy % 16 = 0) (hly : 16 ≤ sy) (hBy : sy < 2 ^ 32)
    (hmz : sz % 16 = 0) (hlz : 16 ≤ sz) (hBz : sz < 2 ^ 32) :
    ∀ fuel, 3 ≤ fuel →
    Explicit.eparse (c3fin_ff sx sy sz) 4128 fuel =
      [(4128, sy + sx + 16 + sz + 16, false)] := by
  intro fuel hfu
  have hA : MM.ALIGNMENT = 16 := rfl
  have e1 : Explicit.rd (c3fin_ff sx sy sz) 4136 = sy + sx + 16 + sz + 16 := by
    rw [c3fin_ff]
    repeat rw [Explicit.rd_wr, if_neg (by omega)]
    rw [Explicit.rd_wr, if_pos rfl]
  have e2 : Explicit.rd (c3fin_ff sx sy sz) (4184 + sx + sy + sz) = 1 := by
    rw [c3fin_ff, c3half_ff, c3mid]
    repeat rw [Explicit.rd_wr, if_neg (by omega)]
    rw [c3_rE8 sx sy sz true true hlx hly hlz]
  have hs1 : Explicit.get_size (c3fin_ff sx sy sz) 4128 =
      sy + sx + 16 + sz + 16 := by
    rw [Explicit.get_size, show (4128 : Nat) + 8 = 4136 from by norm_num, e1]
    exact MM.even_land_mask (by unfold MM.W; omega) (by omega)
  have hs2 : Explicit.get_size (c3fin_ff sx sy sz) (4176 + sx + sy + sz) = 0 := by
    rw [Explicit.get_size,
      show 4176 + sx + sy + sz + 8 = 4184 + sx + sy + sz from by omega, e2]
    have h1 : (0 + 1) &&& MM.MASK = 0 :=
      MM.succ_land_mask (by unfold MM.W; omega) (by omega)
    simpa using h1
  rw [Explicit.eparse_step _ _ _ (by omega), if_neg (by rw [hs1]; omega), hs1]
  rw [show (4128 : Nat) + 8 = 4136 from by norm_num, e1, MM.land_one_mod,
    show (sy + sx + 16 + sz + 16) % 2 = 0 from by omega,
    show ((0 : Nat) == 1) = false from rfl]
  rw [Explicit.get_next_block, hs1, hA,
    show 4128 + 16 + (sy + sx + 16 + sz + 16) = 4176 + sx + sy + sz from by omega]
  rw [eparse_nil_of_zero _ _ hs2]

theorem c3_links_ff (sx sy sz : Nat)
    (hmx : sx % 16 = 0) (hlx : 16 ≤ sx) (hBx : sx < 2 ^ 32)
    (hmy : sy % 16 = 0) (hly : 16 ≤ sy) (hBy : sy < 2 ^ 32)
    (hmz : sz % 16 = 0) (hlz : 16 ≤ sz) (hBz : sz < 2 ^ 32) :
    Explicit.rd (c3fin_ff sx sy sz) 4104 = 4144 ∧
    Explicit.rd (c3fin_ff sx sy sz) 4144 = 4096 ∧
    Explicit.rd (c3fin_ff sx sy sz) 4152 = 4112 ∧
    Explicit.rd (c3fin_ff sx sy sz) 4112 = 4144 := by
  refine ⟨?_, ?_, ?_, ?_⟩
  · rw [c3fin_ff, c3half_ff, c3mid]
    repeat rw [Explicit.rd_wr, if_neg (by omega)]
    rw [c3_r4104 sx sy sz true true]
    norm_num
  · rw [c3fin_ff, c3half_ff, c3mid]
    repeat rw [Explicit.rd_wr, if_neg (by omega)]
    rw [c3_r4144 sx sy sz true true]
  · rw [c3fin_ff]
    repeat rw [Explicit.rd_wr, if_neg (by omega)]
    rw [Explicit.rd_wr, if_pos rfl]
  · rw [c3fin_ff, Explicit.rd_wr, if_pos rfl]

/-- **C3**: in the explicit strategy, after mm_free of the middle allocated
block Y returns — for any 16-aligned payload sizes of the three
neighborhood blocks X, Y, Z and any allocation states of X and Z — the
block sequence read off the heap contains no two address-adjacent blocks
both marked free; in particular when both neighbors are free the three
blocks merge into one free block whose size is the sum of the three
payload sizes plus the two absorbed 16-byte metadata regions, and both
absorbed blocks' free-list nodes are removed (the list is exactly
first-sentinel, merged block's node, last-sentinel). -/
theorem free_coalesces_no_adjacent_free (sx sy sz : Nat)
    (hmx : sx % 16 = 0) (hlx : 16 ≤ sx) (hBx : sx < 2 ^ 32)
    (hmy : sy % 16 = 0) (hly : 16 ≤ sy) (hBy : sy < 2 ^ 32)
    (hmz : sz % 16 = 0) (hlz : 16 ≤ sz) (hBz : sz < 2 ^ 32) :
    (∀ (fx fz : Bool) (fuel : Nat), 3 ≤ fuel →
      List.Chain' (fun a b : Nat × Nat × Bool => a.2.2 = true ∨ b.2.2 = true)
        (Explicit.eparse (Explicit.mm_free (c3heap sx sy sz fx fz) (4160 + sx))
          4128 fuel)) ∧
    (∀ fuel : Nat, 3 ≤ fuel →
      Explicit.eparse (Explicit.mm_free (c3heap sx sy sz true true) (4160 + sx))
        4128 fuel = [(4128, sx + sy + sz + 2 * MM.ALIGNMENT, false)]) ∧
    Explicit.rd (Explicit.mm_free (c3heap sx sy sz true true) (4160 + sx))
      4104 = 4144 ∧
    Explicit.rd (Explicit.mm_free (c3heap sx sy sz true true) (4160 + sx))
      4144 = 4096 ∧
    Explicit.rd (Explicit.mm_free (c3heap sx sy sz true true) (4160 + sx))
      4152 = 4112 ∧
    Explicit.rd (Explicit.mm_free (c3heap sx sy sz true true) (4160 + sx))
      4112 = 4144 := by
  refine ⟨?_, ?_, ?_, ?_, ?_, ?_⟩
  · intro fx fz fuel hfu
    cases fx <;> cases fz
    · rw [c3_eval_tt sx sy sz hmx hlx hBx hmy hly hBy hmz hlz hBz,
        c3_parse_tt sx sy sz hmx hlx hBx hmy hly hBy hmz hlz hBz fuel hfu]
      simp
    · rw [c3_eval_tf sx sy sz hmx hlx hBx hmy hly hBy hmz hlz hBz,
        c3_parse_tf sx sy sz hmx hlx hBx hmy hly hBy hmz hlz hBz fuel hfu]
      simp
    · rw [c3_eval_ft sx sy sz hmx hlx hBx hmy hly hBy hmz hlz hBz,
        c3_parse_ft sx sy sz hmx hlx hBx hmy hly hBy hmz hlz hBz fuel hfu]
      simp
    · rw [c3_eval_ff sx sy sz hmx hlx hBx hmy hly hBy hmz hlz hBz,
        c3_parse_ff sx sy sz hmx hlx hBx hmy hly hBy hmz hlz hBz fuel hfu]
      simp
  · intro fuel hfu
    rw [c3_eval_ff sx sy sz hmx hlx hBx hmy hly hBy hmz hlz hBz,
      c3_parse_ff sx sy sz hmx hlx hBx hmy hly hBy hmz hlz hBz fuel hfu,
      show sy + sx + 16 + sz + 16 = sx + sy + sz + 2 * MM.ALIGNMENT from by
        rw [show MM.ALIGNMENT = 16 from rfl]; omega]
  · rw [c3_eval_ff sx sy sz hmx hlx hBx hmy hly hBy hmz hlz hBz]
    exact (c3_links_ff sx sy sz hmx hlx hBx hmy hly hBy hmz hlz hBz).1
  · rw [c3_eval_ff sx sy sz hmx hlx hBx hmy hly hBy hmz hlz hBz]
    exact (c3_links_ff sx sy sz hmx hlx hBx hmy hly hBy hmz hlz hBz).2.1
  · rw [c3_eval_ff sx sy sz hmx hlx hBx hmy hly hBy hmz hlz hBz]
    exact (c3_links_ff sx sy sz hmx hlx hBx hmy hly hBy hmz hlz hBz).2.2.1
  · rw [c3_eval_ff sx sy sz hmx hlx hBx hmy hly hBy hmz hlz hBz]
    exact (c3_links_ff sx sy sz hmx hlx hBx hmy hly hBy hmz hlz hBz).2.2.2

/-- Witness for the C3 theorem at the concrete sizes sx = sy = sz = 16. -/
theorem free_coalesces_no_adjacent_free_witness :
    ((16 : Nat) % 16 = 0 ∧ 16 ≤ (16 : Nat) ∧ (16 : Nat) < 2 ^ 32) ∧
    ((∀ (fx fz : Bool) (fuel : Nat), 3 ≤ fuel →
      List.Chain' (fun a b : Nat × Nat × Bool => a.2.2 = true ∨ b.2.2 = true)
        (Explicit.eparse (Explicit.mm_free (c3heap 16 16 16 fx fz) (4160 + 16))
          4128 fuel)) ∧
    (∀ fuel : Nat, 3 ≤ fuel →
      Explicit.eparse (Explicit.mm_free (c3heap 16 16 16 true true) (4160 + 16))
        4128 fuel = [(4128, 16 + 16 + 16 + 2 * MM.ALIGNMENT, false)]) ∧
    Explicit.rd (Explicit.mm_free (c3heap 16 16 16 true true) (4160 + 16))
      4104 = 4144 ∧
    Explicit.rd (Explicit.mm_free (c3heap 16 16 16 true true) (4160 + 16))
      4144 = 4096 ∧
    Explicit.rd (Explicit.mm_free (c3heap 16 16 16 true true) (4160 + 16))
      4152 = 4112 ∧
    Explicit.rd (Explicit.mm_free (c3heap 16 16 16 true true) (4160 + 16))
      4112 = 4144) :=
  ⟨⟨by decide, by decide, by norm_num⟩,
    free_coalesces_no_adjacent_free 16 16 16 (by decide) (by decide)
      (by norm_num) (by decide) (by decide) (by norm_num) (by decide)
      (by decide) (by norm_num)⟩

namespace Explicit

theorem find_fit_go_step (h : EHeap) (size free_node fuel : Nat)
    (hfu : 1 ≤ fuel) :
    find_fit_go h size free_node fuel =
      if free_node = h.first then (none, h)
      else
        let free_block := get_block_from_linked_node free_node
        let block_size := get_size h free_block
        if block_size ≥ size then
          let h1 := set_header_footer h free_block (get_size h free_block) true
          if block_size < size + 2 * MM.ALIGNMENT then
            (some free_block, delete_linked_node_from_block h1 free_block)
          else
            (some free_block, block_split h1 free_block block_size size)
        else
          find_fit_go h size (rd h free_node) (fuel - 1) := by
  match fuel, hfu with
  | f + 1, _ =>
    rw [find_fit_go]
    simp

end Explicit

theorem round_up_eq_of_aligned {b : Nat} (hm : b % 16 = 0) (hB : b + 15 < MM.W) :
    MM.round_up b 16 = b := by
  unfold MM.round_up
  rw [Nat.mod_eq_of_lt hB]
  omega

/-- Heap after the reuse allocation: the just-freed middle block Y is marked
allocated again (header/footer b+1) and its node is unlinked, emptying the
free list. -/
def c4fin (a b c : Nat) : Explicit.EHeap :=
  Explicit.wr (Explicit.wr (Explicit.wr (Explicit.wr
    (c3mid a b c false false 4096) (4152 + a) (b + 1))
    (4160 + a + b) (b + 1)) 4104 4112) 4112 4096

theorem c4_eval_malloc (a b c : Nat)
    (hma : a % 16 = 0) (hla : 16 ≤ a) (hBa : a < 2 ^ 32)
    (hmb : b % 16 = 0) (hlb : 16 ≤ b) (hBb : b < 2 ^ 32)
    (hmc : c % 16 = 0) (hlc : 16 ≤ c) (hBc : c < 2 ^ 32) :
    Explicit.mm_malloc (c3mid a b c false false 4096) b =
      (4160 + a, c4fin a b c) := by
  have hA : MM.ALIGNMENT = 16 := rfl
  have hru : MM.round_up b 16 = b :=
    round_up_eq_of_aligned hmb (by unfold MM.W; omega)
  have hgsM := c3mid_gs a b c false false 4096 hmb hla hlb hBb (by omega)
  have m1 : Explicit.rd (c3mid a b c false false 4096) 4112 = 4160 + a := by
    rw [c3mid, Explicit.rd_wr, if_neg (by omega), Explicit.rd_wr, if_pos rfl]
  have m2 : Explicit.rd (c3mid a b c false false 4096) (4160 + a) = 4096 := by
    rw [c3mid]
    repeat rw [Explicit.rd_wr, if_neg (by omega)]
    rw [Explicit.rd_wr, if_pos rfl]
  have m3 : Explicit.rd (c3mid a b c false false 4096) (4168 + a) = 4112 := by
    rw [c3mid]
    repeat rw [Explicit.rd_wr, if_neg (by omega)]
    rw [Explicit.rd_wr, if_pos rfl]
  have hfb : Explicit.get_block_from_linked_node (4160 + a) = 4144 + a := by
    rw [Explicit.get_block_from_linked_node, hA,
      MM.psub_eq_sub (by omega) (by unfold MM.W; omega)]
    omega
  have hff : Explicit.find_fit (c3mid a b c false false 4096) b =
      (some (4144 + a), c4fin a b c) := by
    rw [Explicit.find_fit,
      show (c3mid a b c false false 4096).last = 4112 from rfl, m1,
      Explicit.find_fit_go_step _ _ _ _
        (show 1 ≤ (c3mid a b c false false 4096).cap from by
          rw [show (c3mid a b c false false 4096).cap = 4192 + a + b + c from rfl]
          omega)]
    rw [if_neg (show ¬ (4160 + a = (c3mid a b c false false 4096).first) from by
      rw [show (c3mid a b c false false 4096).first = 4096 from rfl]; omega)]
    simp only [hfb, hgsM]
    rw [if_pos (by omega)]
    rw [if_pos (by rw [hA]; omega)]
    simp only [Explicit.set_header_footer, Explicit.delete_linked_node_from_block,
      Explicit.get_linked_node_from_block, hA]
    rw [show (b ||| if True then (1 : Nat) else 0) = b + 1 from by
      norm_num
      exact MM.even_lor_one (by omega)]
    rw [show 4144 + a + 8 = 4152 + a from by omega,
      show 4144 + a + 16 + b = 4160 + a + b from by omega,
      show 4144 + a + 16 = 4160 + a from by omega,
      show 4160 + a + 8 = 4168 + a from by omega]
    have q1 : Explicit.rd (Explicit.wr (Explicit.wr
        (c3mid a b c false false 4096) (4152 + a) (b + 1))
        (4160 + a + b) (b + 1)) (4160 + a) = 4096 := by
      rw [Explicit.rd_wr, if_neg (by omega), Explicit.rd_wr, if_neg (by omega)]
      exact m2
    have q2 : Explicit.rd (Explicit.wr (Explicit.wr
        (c3mid a b c false false 4096) (4152 + a) (b + 1))
        (4160 + a + b) (b + 1)) (4168 + a) = 4112 := by
      rw [Explicit.rd_wr, if_neg (by omega), Explicit.rd_wr, if_neg (by omega)]
      exact m3
    rw [q1, q2]
    rw [show (4096 : Nat) + 8 = 4104 from by norm_num]
    have q3 : Explicit.rd (Explicit.wr (Explicit.wr (Explicit.wr
        (c3mid a b c false false 4096) (4152 + a) (b + 1))
        (4160 + a + b) (b + 1)) 4104 4112) (4168 + a) = 4112 := by
      rw [Explicit.rd_wr, if_neg (by omega)]
      exact q2
    have q4 : Explicit.rd (Explicit.wr (Explicit.wr (Explicit.wr
        (c3mid a b c false false 4096) (4152 + a) (b + 1))
        (4160 + a + b) (b + 1)) 4104 4112) (4160 + a) = 4096 := by
      rw [Explicit.rd_wr, if_neg (by omega)]
      exact q1
    rw [q3, q4]
    rw [c4fin]
  simp only [Explicit.mm_malloc, MM.ALIGNMENT, hru, hff]
  rw [show 4144 + a + 16 = 4160 + a from by omega]

theorem c4_parse (a b c : Nat)
    (hma : a % 16 = 0) (hla : 16 ≤ a) (hBa : a < 2 ^ 32)
    (hmb : b % 16 = 0) (hlb : 16 ≤ b) (hBb : b < 2 ^ 32)
    (hmc : c % 16 = 0) (hlc : 16 ≤ c) (hBc : c < 2 ^ 32) :
    ∀ fuel, 3 ≤ fuel →
    Explicit.eparse (c4fin a b c) 4128 fuel =
      [(4128, a, true), (4144 + a, b, true), (4160 + a + b, c, true)] := by
  intro fuel hfu
  have hA : MM.ALIGNMENT = 16 := rfl
  have r1 : Explicit.rd (c4fin a b c) 4136 = a + 1 := by
    rw [c4fin, c3mid]
    repeat rw [Explicit.rd_wr, if_neg (by omega)]
    rw [c3_r4136 a b c false false]
    norm_num
  have r2 : Explicit.rd (c4fin a b c) (4152 + a) = b + 1 := by
    rw [c4fin]
    repeat rw [Explicit.rd_wr, if_neg (by omega)]
    rw [Explicit.rd_wr, if_pos rfl]
  have r3 : Explicit.rd (c4fin a b c) (4168 + a + b) = c + 1 := by
    rw [c4fin, c3mid]
    repeat rw [Explicit.rd_wr, if_neg (by omega)]
    rw [c3_rZ8 a b c false false hla hlb]
    norm_num
  have r4 : Explicit.rd (c4fin a b c) (4184 + a + b + c) = 1 := by
    rw [c4fin, c3mid]
    repeat rw [Explicit.rd_wr, if_neg (by omega)]
    rw [c3_rE8 a b c false false hla hlb hlc]
  have hs1 : Explicit.get_size (c4fin a b c) 4128 = a := by
    rw [Explicit.get_size, show (4128 : Nat) + 8 = 4136 from by norm_num, r1,
      MM.succ_land_mask (by unfold MM.W; omega) (by omega)]
  have hs2 : Explicit.get_size (c4fin a b c) (4144 + a) = b := by
    rw [Explicit.get_size, show 4144 + a + 8 = 4152 + a from by omega, r2,
      MM.succ_land_mask (by unfold MM.W; omega) (by omega)]
  have hs3 : Explicit.get_size (c4fin a b c) (4160 + a + b) = c := by
    rw [Explicit.get_size, show 4160 + a + b + 8 = 4168 + a + b from by omega,
      r3, MM.succ_land_mask (by unfold MM.W; omega) (by omega)]
  have hs4 : Explicit.get_size (c4fin a b c) (4176 + a + b + c) = 0 := by
    rw [Explicit.get_size,
      show 4176 + a + b + c + 8 = 4184 + a + b + c from by omega, r4]
    have h1 : (0 + 1) &&& MM.MASK = 0 :=
      MM.succ_land_mask (by unfold MM.W; omega) (by omega)
    simpa using h1
  rw [Explicit.eparse_step _ _ _ (by omega), if_neg (by rw [hs1]; omega), hs1]
  rw [show (4128 : Nat) + 8 = 4136 from by norm_num, r1, MM.land_one_mod,
    show (a + 1) % 2 = 1 from by omega,
    show ((1 : Nat) == 1) = true from rfl]
  rw [Explicit.get_next_block, hs1, hA,
    show 4128 + 16 + a = 4144 + a from by omega]
  rw [Explicit.eparse_step _ _ _ (by omega), if_neg (by rw [hs2]; omega), hs2]
  rw [show 4144 + a + 8 = 4152 + a from by omega, r2, MM.land_one_mod,
    show (b + 1) % 2 = 1 from by omega,
    show ((1 : Nat) == 1) = true from rfl]
  rw [Explicit.get_next_block, hs2, hA,
    show 4144 + a + 16 + b = 4160 + a + b from by omega]
  rw [Explicit.eparse_step _ _ _ (by omega), if_neg (by rw [hs3]; omega), hs3]
  rw [show 4160 + a + b + 8 = 4168 + a + b from by omega, r3, MM.land_one_mod,
    show (c + 1) % 2 = 1 from by omega,
    show ((1 : Nat) == 1) = true from rfl]
  rw [Explicit.get_next_block, hs3, hA,
    show 4160 + a + b + 16 + c = 4176 + a + b + c from by omega]
  rw [eparse_nil_of_zero _ _ hs4]

/-- Implicit-strategy allocate/free sequence from the fresh initialized heap:
two allocations, free the first, allocate again (same request). -/
def c4i1 : Nat × Implicit.IHeap := Implicit.mm_malloc c10_i0 16

def c4i2 : Nat × Implicit.IHeap := Implicit.mm_malloc c4i1.2 16

def c4i3 : Implicit.IHeap := Implicit.mm_free c4i2.2 c4i1.1

def c4i4 : Nat × Implicit.IHeap := Implicit.mm_malloc c4i3 16

/-- **C4**: allocate and free return pairwise-disjoint payload regions. In
the explicit strategy, starting from the reachable three-block heap with X,
Y, Z all allocated (payloads [4144, 4144+a), [4160+a, 4160+a+b),
[4176+a+b, 4176+a+b+c)), the sequence free(Y's payload) then allocate(b)
succeeds and returns exactly the freed block's payload: before the
allocation Y is the unique free block, afterwards all three blocks are
allocated again with unchanged boundaries, and no byte of the returned
region lies in either still-live payload region. In the implicit strategy,
the concrete sequence allocate(16), allocate(16), free(first),
allocate(16) from the initialized heap likewise returns the freed block's
payload (4112), disjoint from the live block's payload region, with the
block sequence showing the recycled block free before and allocated after
the final allocation. -/
theorem malloc_returns_nonoverlapping_payload (a b c : Nat)
    (hma : a % 16 = 0) (hla : 16 ≤ a) (hBa : a < 2 ^ 32)
    (hmb : b % 16 = 0) (hlb : 16 ≤ b) (hBb : b < 2 ^ 32)
    (hmc : c % 16 = 0) (hlc : 16 ≤ c) (hBc : c < 2 ^ 32) :
    (Explicit.mm_malloc (Explicit.mm_free (c3heap a b c false false)
      (4160 + a)) b).1 = 4160 + a ∧
    (∀ fuel, 3 ≤ fuel →
      Explicit.eparse (Explicit.mm_free (c3heap a b c false false) (4160 + a))
        4128 fuel =
        [(4128, a, true), (4144 + a, b, false), (4160 + a + b, c, true)]) ∧
    (∀ fuel, 3 ≤ fuel →
      Explicit.eparse (Explicit.mm_malloc (Explicit.mm_free
        (c3heap a b c false false) (4160 + a)) b).2 4128 fuel =
        [(4128, a, true), (4144 + a, b, true), (4160 + a + b, c, true)]) ∧
    (∀ k : Nat,
      (Explicit.mm_malloc (Explicit.mm_free (c3heap a b c false false)
        (4160 + a)) b).1 ≤ k ∧
      k < (Explicit.mm_malloc (Explicit.mm_free (c3heap a b c false false)
        (4160 + a)) b).1 + b →
      ¬ (4144 ≤ k ∧ k < 4144 + a) ∧
      ¬ (4176 + a + b ≤ k ∧ k < 4176 + a + b + c)) ∧
    (c4i1.1 = 4112 ∧ c4i2.1 = 4144 ∧ c4i4.1 = c4i1.1) ∧
    (c4i4.1 + 24 ≤ c4i2.1 ∨ c4i2.1 + 24 ≤ c4i4.1) ∧
    Implicit.iparse c4i3 4104 3 = [(4104, 32, false), (4136, 32, true)] ∧
    Implicit.iparse c4i4.2 4104 3 = [(4104, 32, true), (4136, 32, true)] := by
  refine ⟨?_, ?_, ?_, ?_, ?_, ?_, ?_, ?_⟩
  · rw [c3_eval_tt a b c hma hla hBa hmb hlb hBb hmc hlc hBc,
      c4_eval_malloc a b c hma hla hBa hmb hlb hBb hmc hlc hBc]
  · intro fuel hfu
    rw [c3_eval_tt a b c hma hla hBa hmb hlb hBb hmc hlc hBc,
      c3_parse_tt a b c hma hla hBa hmb hlb hBb hmc hlc hBc fuel hfu]
  · intro fuel hfu
    rw [c3_eval_tt a b c hma hla hBa hmb hlb hBb hmc hlc hBc,
      c4_eval_malloc a b c hma hla hBa hmb hlb hBb hmc hlc hBc]
    exact c4_parse a b c hma hla hBa hmb hlb hBb hmc hlc hBc fuel hfu
  · rw [c3_eval_tt a b c hma hla hBa hmb hlb hBb hmc hlc hBc,
      c4_eval_malloc a b c hma hla hBa hmb hlb hBb hmc hlc hBc]
    dsimp only
    intro k hk
    constructor <;> omega
  · exact ⟨by decide, by decide, by decide⟩
  · decide
  · decide
  · decide

/-- Witness for the C4 theorem at the concrete sizes a = b = c = 16. -/
theorem malloc_returns_nonoverlapping_payload_witness :
    ((16 : Nat) % 16 = 0 ∧ 16 ≤ (16 : Nat) ∧ (16 : Nat) < 2 ^ 32) ∧
    ((Explicit.mm_malloc (Explicit.mm_free (c3heap 16 16 16 false false)
      (4160 + 16)) 16).1 = 4160 + 16 ∧
    (∀ fuel, 3 ≤ fuel →
      Explicit.eparse (Explicit.mm_free (c3heap 16 16 16 false false)
        (4160 + 16)) 4128 fuel =
        [(4128, 16, true), (4144 + 16, 16, false), (4160 + 16 + 16, 16, true)]) ∧
    (∀ fuel, 3 ≤ fuel →
      Explicit.eparse (Explicit.mm_malloc (Explicit.mm_free
        (c3heap 16 16 16 false false) (4160 + 16)) 16).2 4128 fuel =
        [(4128, 16, true), (4144 + 16, 16, true), (4160 + 16 + 16, 16, true)]) ∧
    (∀ k : Nat,
      (Explicit.mm_malloc (Explicit.mm_free (c3heap 16 16 16 false false)
        (4160 + 16)) 16).1 ≤ k ∧
      k < (Explicit.mm_malloc (Explicit.mm_free (c3heap 16 16 16 false false)
        (4160 + 16)) 16).1 + 16 →
      ¬ (4144 ≤ k ∧ k < 4144 + 16) ∧
      ¬ (4176 + 16 + 16 ≤ k ∧ k < 4176 + 16 + 16 + 16)) ∧
    (c4i1.1 = 4112 ∧ c4i2.1 = 4144 ∧ c4i4.1 = c4i1.1) ∧
    (c4i4.1 + 24 ≤ c4i2.1 ∨ c4i2.1 + 24 ≤ c4i4.1) ∧
    Implicit.iparse c4i3 4104 3 = [(4104, 32, false), (4136, 32, true)] ∧
    Implicit.iparse c4i4.2 4104 3 = [(4104, 32, true), (4136, 32, true)]) :=
  ⟨⟨by decide, by decide, by norm_num⟩,
    malloc_returns_nonoverlapping_payload 16 16 16 (by decide) (by decide)
      (by norm_num) (by decide) (by decide) (by norm_num) (by decide)
      (by decide) (by norm_num)⟩
